import Mathlib

/-!
# Script bridge of the game-object runtime (`gameobject_script.cpp`)

A shallow embedding of the marshaling engine (`PullDDFValue`, `PullDDFTable`), of the string
relocation performed on receipt (`ScriptOnMessageComponent`), of the script module store
(`LoadScript`, `NewScript`, `ReloadScript`), of the dispatch entry points (`RunScript`,
`ScriptOnMessageComponent`, `ScriptOnInputComponent`), of the component hooks of a script world
(`ScriptUpdateComponent`, `ScriptDestroyComponent`) and of the functions exposed to scripts
(`ScriptInstance_index`, `ScriptInstance_newindex`, `Script_IsVisible`, `Script_PostNamedTo`,
`Script_PostToCollection`), followed by the properties proved of them.

Conventions of the embedding.

* Process memory is a map from addresses to bytes; pointers are addresses (`Nat`).  Multi-byte
  scalars are little-endian.  Pointer arithmetic that the C code performs on `uintptr_t` wraps
  modulo `2 ^ (8 * ptrBytes)`; the comparison `*buffer + size > *buffer_last` is taken on
  addresses far from the end of the address range, where it does not wrap.
* What the code takes from outside the repository (pointer width, signedness of `char`, the
  coercions of the Lua library, the script interpreter itself, `dmScript::PushHash` and
  `dmScript::PushDDF`) is a parameter.
* Lua numbers are modelled by integers; the bits of a `float` are left to a parameter.  The
  value of a `float` scalar of the math library is a rational (the scalars given are finite);
  the rounding of the operations of `IsPointVisible` and the matrix product of the math library
  are parameters; a rounded result may be not finite.
* The table of the fields of a script instance is an argument of the embedding of its two
  accessors; its keys are Lua values of any type (`LuaKey`).
* Pointers to script instances and update contexts are addresses; what they point to is given
  by a map from addresses.
* The Lua value a function finds on top of the stack is an argument of its embedding; the
  interpreter stack itself is modelled where its height matters (the dispatch entry points and
  the module loader).
* `luaL_error` does not return (it unwinds to the enclosing protected call): a function that
  raises yields `raised e st`, where `st` is the memory and cursor at the moment of the raise.
* `assert` is not control flow in the embedding; the functions are modelled as compiled with
  assertions disabled, and an assertion is a property to be stated of the result.
-/

namespace dmGameObject

/-! ## Bytes and memory -/

/-- One byte of memory. -/
abbrev Byte := Fin 256

/-- The byte made of the low eight bits of `v`. -/
def byteOf (v : Nat) : Byte := ⟨v % 256, Nat.mod_lt v (by decide)⟩

/-- Process memory: the byte stored at each address. -/
abbrev Mem := Nat → Byte

/-- Store of an `n`-byte little-endian scalar `v` at address `a`
(`*((T*) &message[off]) = v` for a `T` of `n` bytes). -/
def storeLE (m : Mem) (a n v : Nat) : Mem :=
  fun x => if a ≤ x ∧ x < a + n then byteOf (v / 256 ^ (x - a)) else m x

/-- Load of an `n`-byte little-endian scalar at address `a`. -/
def loadLE (m : Mem) (a : Nat) : Nat → Nat
  | 0 => 0
  | n + 1 => (m a).val + 256 * loadLE m (a + 1) n

/-- The C call `memcpy(dst, src, src.length)`. -/
def memcpy (m : Mem) (dst : Nat) (src : List Byte) : Mem :=
  fun x => if dst ≤ x ∧ x < dst + src.length then src.getD (x - dst) 0 else m x

/-- The bytes of the C string that starts a Lua string: those before its first NUL. -/
def cstr (s : List Byte) : List Byte := s.takeWhile (fun b => b != 0)

/-- The C call `strlen(s)`. -/
def strlen (s : List Byte) : Nat := (cstr s).length

/-- Read of a NUL-terminated string at address `a`, looking at `fuel` bytes at most;
`none` when no terminator is met within `fuel` bytes. -/
def readCString (m : Mem) (a : Nat) : Nat → Option (List Byte)
  | 0 => none
  | fuel + 1 =>
    if m a = 0 then some []
    else (readCString m (a + 1) fuel).map (fun rest => m a :: rest)

/-- Read of a 32-bit scalar as `int32_t` (two's complement). -/
def loadInt32 (m : Mem) (a : Nat) : Int :=
  let u := loadLE m a 4
  if u < 2 ^ 31 then (u : Int) else (u : Int) - 2 ^ 32

/-! ## Lua values -/

/-- A Lua value, as far as the bridge looks at it.  Tables are keyed by strings; a key that is
missing stands for `nil`.  Functions and userdata are opaque, named by a number. -/
inductive LuaValue where
  | nil
  | boolean (b : Bool)
  | number (n : Int)
  | string (s : List Byte)
  | table (entries : List (String × LuaValue))
  | function (id : Nat)
  | lightuserdata (p : Nat)
  | userdata (id : Nat)

namespace LuaValue

/-- The Lua call `lua_isnil`. -/
def isNil : LuaValue → Bool
  | .nil => true
  | _ => false

/-- The test `lua_type(L, idx) == LUA_TFUNCTION`. -/
def isFunction : LuaValue → Bool
  | .function _ => true
  | _ => false

/-- The Lua call `lua_isboolean`. -/
def isBoolean : LuaValue → Bool
  | .boolean _ => true
  | _ => false

/-- The Lua call `lua_toboolean`: everything but `nil` and `false` is true. -/
def toBoolean : LuaValue → Bool
  | .nil => false
  | .boolean b => b
  | _ => true

end LuaValue

/-- The Lua call `lua_rawget` on the entries of a table, with a string key. -/
def rawget : List (String × LuaValue) → String → LuaValue
  | [], _ => .nil
  | (k, v) :: rest, key => if k = key then v else rawget rest key

/-- What the marshaling code takes from outside the repository. -/
structure Platform where
  /-- Size of a pointer (`sizeof(const char*)`, `sizeof(uintptr_t)`). -/
  ptrBytes : Nat
  /-- Whether plain `char` is a signed type. -/
  charSigned : Bool
  /-- Bits of the `float` obtained from a Lua number, `(float) luaL_checknumber`. -/
  f32bits : Int → Nat
  /-- Coercion of a string to a number by the Lua library (`lua_tointeger` on a string). -/
  str2d : List Byte → Option Int
  /-- Coercion of a number to a string by the Lua library (`lua_tolstring` on a number). -/
  num2str : Int → List Byte

/-- Errors raised through `luaL_error` and the `luaL_check*` family. -/
inductive LuaError where
  /-- Raised by `luaL_checktype`, `luaL_checkinteger`, `luaL_checknumber`, `luaL_checkstring`. -/
  | typeError (expected : String)
  /-- "Message data doesn't fit (payload max: %d)". -/
  | dataDoesntFit
  /-- "Unsupported type %d in field %s". -/
  | unsupportedType (code : Nat) (field : String)
  /-- "Field %s not specified in table". -/
  | fieldNotSpecified (field : String)
  /-- Dereference of a null `m_MessageDescriptor` (a malformed descriptor). -/
  | nullDescriptor (field : String)
  /-- "table index is nil", raised by `lua_settable`. -/
  | indexIsNil
  deriving DecidableEq, Repr

/-- The Lua call `luaL_checkinteger`. -/
def luaL_checkinteger (P : Platform) : LuaValue → Except LuaError Int
  | .number n => .ok n
  | .string s =>
    match P.str2d s with
    | some n => .ok n
    | none => .error (.typeError "number")
  | _ => .error (.typeError "number")

/-- The Lua call `luaL_checknumber`.  Lua numbers are modelled by integers. -/
def luaL_checknumber (P : Platform) : LuaValue → Except LuaError Int
  | .number n => .ok n
  | .string s =>
    match P.str2d s with
    | some n => .ok n
    | none => .error (.typeError "number")
  | _ => .error (.typeError "number")

/-- The Lua call `luaL_checkstring`. -/
def luaL_checkstring (P : Platform) : LuaValue → Except LuaError (List Byte)
  | .string s => .ok s
  | .number n => .ok (P.num2str n)
  | _ => .error (.typeError "string")

/-! ## Descriptors -/

/-- Field kinds of `dmDDF::Type` the code switches on; every other kind is `other`. -/
inductive DDFType where
  | TYPE_INT32
  | TYPE_UINT32
  | TYPE_FLOAT
  | TYPE_STRING
  | TYPE_MESSAGE
  | other (code : Nat)
  deriving DecidableEq, Repr

/-- Field labels of `dmDDF::Label`. -/
inductive DDFLabel where
  | LABEL_OPTIONAL
  | LABEL_REQUIRED
  | LABEL_REPEATED
  deriving DecidableEq, Repr

mutual
/-- The descriptor of a message type, `dmDDF::Descriptor`: its size and its fields
(`m_Fields`, `m_FieldCount` being the length of the list). -/
inductive Descriptor where
  | mk (m_Size : Nat) (m_Fields : List FieldDescriptor)
/-- The descriptor of a field, `dmDDF::FieldDescriptor`. -/
inductive FieldDescriptor where
  | mk (m_Name : String) (m_Type : DDFType) (m_Label : DDFLabel)
       (m_MessageDescriptor : Option Descriptor) (m_Offset : Nat)
end

namespace Descriptor

/-- Field `m_Size`. -/
def m_Size : Descriptor → Nat
  | .mk s _ => s

/-- Field `m_Fields`. -/
def m_Fields : Descriptor → List FieldDescriptor
  | .mk _ fs => fs

end Descriptor

namespace FieldDescriptor

/-- Field `m_Name`. -/
def m_Name : FieldDescriptor → String
  | .mk n _ _ _ _ => n

/-- Field `m_Type`. -/
def m_Type : FieldDescriptor → DDFType
  | .mk _ t _ _ _ => t

/-- Field `m_Label`. -/
def m_Label : FieldDescriptor → DDFLabel
  | .mk _ _ l _ _ => l

/-- Field `m_MessageDescriptor`. -/
def m_MessageDescriptor : FieldDescriptor → Option Descriptor
  | .mk _ _ _ d _ => d

/-- Field `m_Offset`. -/
def m_Offset : FieldDescriptor → Nat
  | .mk _ _ _ _ o => o

end FieldDescriptor

/-! ## Marshaling: `PullDDFValue`, `PullDDFTable` -/

/-- The mutable state of a pull: memory and the write cursor `*buffer`. -/
structure PullState where
  mem : Mem
  buffer : Nat

/-- Outcome of a pull: normal return, or a Lua error raised in the state `st`. -/
inductive PullResult where
  | ok (st : PullState)
  | raised (e : LuaError) (st : PullState)

namespace PullResult

/-- The state in which the pull ended. -/
def state : PullResult → PullState
  | .ok st => st
  | .raised _ st => st

/-- Whether the pull returned normally. -/
def isOk : PullResult → Bool
  | .ok _ => true
  | .raised _ _ => false

/-- The error raised, if any. -/
def error? : PullResult → Option LuaError
  | .ok _ => none
  | .raised e _ => some e

end PullResult

/-- The value `(const char*) (*buffer - message)` stored in a string slot: a pointer
difference converted to a pointer, hence taken modulo the pointer range. -/
def ptrDiff (P : Platform) (buffer message : Nat) : Nat :=
  (((buffer : Int) - (message : Int)) % ((2 : Int) ^ (8 * P.ptrBytes))).toNat

/-- The conversion `(int32_t) n` / `(uint32_t) n` of a Lua integer: its low 32 bits. -/
def toWord32 (n : Int) : Nat := (n % (2 : Int) ^ 32).toNat

/-- The `TYPE_STRING` case of `PullDDFValue` once `s` is known. -/
def pullString (P : Platform) (s : List Byte) (offset message : Nat) (st : PullState)
    (buffer_last : Nat) : PullResult :=
  let size := strlen s + 1
  if st.buffer + size > buffer_last then
    .raised .dataDoesntFit st
  else
    let mem1 := memcpy st.mem st.buffer (cstr s ++ [0])
    let mem2 := storeLE mem1 (message + offset) P.ptrBytes (ptrDiff P st.buffer message)
    .ok { mem := mem2, buffer := st.buffer + size }

mutual
/-- The function `PullDDFValue`: `v` is the Lua value on top of the stack, `message` the address
of the message the field belongs to, `st.buffer` the cursor `*buffer`, `buffer_last` the limit
`*buffer_last`. -/
def PullDDFValue (P : Platform) (f : FieldDescriptor) (v : LuaValue) (message : Nat)
    (st : PullState) (buffer_last : Nat) : PullResult :=
  match f with
  | .mk name type _ msgDesc offset =>
    let nil_val := v.isNil
    match type with
    | .TYPE_INT32 =>
      if nil_val then .ok { st with mem := storeLE st.mem (message + offset) 4 0 }
      else match luaL_checkinteger P v with
        | .ok n => .ok { st with mem := storeLE st.mem (message + offset) 4 (toWord32 n) }
        | .error e => .raised e st
    | .TYPE_UINT32 =>
      if nil_val then .ok { st with mem := storeLE st.mem (message + offset) 4 0 }
      else match luaL_checkinteger P v with
        | .ok n => .ok { st with mem := storeLE st.mem (message + offset) 4 (toWord32 n) }
        | .error e => .raised e st
    | .TYPE_FLOAT =>
      if nil_val then .ok { st with mem := storeLE st.mem (message + offset) 4 0 }
      else match luaL_checknumber P v with
        | .ok n => .ok { st with mem := storeLE st.mem (message + offset) 4 (P.f32bits n) }
        | .error e => .raised e st
    | .TYPE_STRING =>
      if nil_val then pullString P [] offset message st buffer_last
      else match luaL_checkstring P v with
        | .ok s => pullString P s offset message st buffer_last
        | .error e => .raised e st
    | .TYPE_MESSAGE =>
      if nil_val then .ok st
      else match msgDesc with
        | some d => PullDDFTable P d v (message + offset) st buffer_last
        | none => .raised (.nullDescriptor name) st
    | .other code => .raised (.unsupportedType code name) st
/-- The function `PullDDFTable`: `v` is the Lua value on top of the stack. -/
def PullDDFTable (P : Platform) (d : Descriptor) (v : LuaValue) (message : Nat)
    (st : PullState) (buffer_last : Nat) : PullResult :=
  match d with
  | .mk _ fields =>
    match v with
    | .table entries => PullDDFFields P fields entries message st buffer_last
    | _ => .raised (.typeError "table") st
/-- The loop of `PullDDFTable` over the fields that remain: `rawget entries name` is the value
pushed by `lua_pushstring(L, f->m_Name); lua_rawget(L, -2)`. -/
def PullDDFFields (P : Platform) (fields : List FieldDescriptor)
    (entries : List (String × LuaValue)) (message : Nat) (st : PullState)
    (buffer_last : Nat) : PullResult :=
  match fields with
  | [] => .ok st
  | f :: rest =>
    if (rawget entries f.m_Name).isNil && f.m_Label != .LABEL_OPTIONAL then
      .raised (.fieldNotSpecified f.m_Name) st
    else
      match PullDDFValue P f (rawget entries f.m_Name) message st buffer_last with
      | .ok st1 => PullDDFFields P rest entries message st1 buffer_last
      | .raised e st1 => .raised e st1
end

mutual
/-- The addresses of the slots that `PullDDFValue` may write for the field `f` of a message
at address `message`: 4 bytes for a 32-bit scalar, a pointer for a string, the slots of the
nested descriptor for a nested message. -/
def fieldSlots (P : Platform) (f : FieldDescriptor) (message a : Nat) : Bool :=
  match f with
  | .mk _ type _ msgDesc offset =>
    match type with
    | .TYPE_INT32 => decide (message + offset ≤ a ∧ a < message + offset + 4)
    | .TYPE_UINT32 => decide (message + offset ≤ a ∧ a < message + offset + 4)
    | .TYPE_FLOAT => decide (message + offset ≤ a ∧ a < message + offset + 4)
    | .TYPE_STRING => decide (message + offset ≤ a ∧ a < message + offset + P.ptrBytes)
    | .TYPE_MESSAGE =>
      match msgDesc with
      | some d => descriptorSlots P d (message + offset) a
      | none => false
    | .other _ => false
/-- The addresses of the slots of all the fields of `d`, nested ones included. -/
def descriptorSlots (P : Platform) (d : Descriptor) (message a : Nat) : Bool :=
  match d with
  | .mk _ fields => fieldListSlots P fields message a
/-- The addresses of the slots of a list of fields. -/
def fieldListSlots (P : Platform) (fields : List FieldDescriptor) (message a : Nat) : Bool :=
  match fields with
  | [] => false
  | f :: rest => fieldSlots P f message a || fieldListSlots P rest message a
end

/-! ## Relocation on receipt (`ScriptOnMessageComponent`, "adjust char ptrs to global mem space") -/

/-- The conversion `(uintptr_t) c` of a `char` read from memory: sign-extended when `char` is
signed, zero-extended otherwise. -/
def charToUintptr (P : Platform) (c : Byte) : Nat :=
  if P.charSigned && decide (128 ≤ c.val) then 2 ^ (8 * P.ptrBytes) - 256 + c.val else c.val

/-- The body of the relocation loop for one field:
`*((uintptr_t*)&data[field->m_Offset]) = (uintptr_t)data + (uintptr_t)data[field->m_Offset]`
when the field is a string.  The right operand reads `data[field->m_Offset]`, one `char`. -/
def relocateField (P : Platform) (data : Nat) (mem : Mem) (field : FieldDescriptor) : Mem :=
  if field.m_Type = .TYPE_STRING then
    storeLE mem (data + field.m_Offset) P.ptrBytes
      ((data + charToUintptr P (mem (data + field.m_Offset))) % 2 ^ (8 * P.ptrBytes))
  else mem

/-- The relocation loop over the fields of the descriptor of a received message.  Its counter
is a `uint8_t`: the model is that of a descriptor of at most 255 fields, for which the counter
does not wrap. -/
def relocateStrings (P : Platform) (d : Descriptor) (data : Nat) (mem : Mem) : Mem :=
  d.m_Fields.foldl (relocateField P data) mem

/-! ## The interpreter -/

/-- The part of the interpreter state that outlives a call: the globals table, the registry and
the number of references handed out by `luaL_ref`. -/
structure LuaEnv where
  globals : String → LuaValue
  registry : Int → LuaValue
  refCount : Nat

/-- The interpreter state `lua_State`: the stack (top first, the slots under the current frame
included), the number `base` of slots under the current frame, and the environment. -/
structure LuaState where
  stack : List LuaValue
  base : Nat
  env : LuaEnv

/-- What the bridge takes from the script runtime, outside the repository: the compiler
(`lua_load`), the execution of a called value (inside `lua_pcall`), and the two conversions
`dmScript::PushHash` and `dmScript::PushDDF`. -/
structure Interp where
  /-- Compilation of a chunk: the compiled function, or an error message. -/
  load : List Byte → String → Except LuaValue LuaValue
  /-- Call of a value on arguments: the results or the raised error, and the new environment. -/
  call : LuaValue → List LuaValue → LuaEnv → Except LuaValue (List LuaValue) × LuaEnv
  /-- The value pushed by `dmScript::PushHash`. -/
  PushHash : Nat → LuaValue
  /-- The value pushed by `dmScript::PushDDF` for a descriptor and the message at an address. -/
  PushDDF : Descriptor → Mem → Nat → LuaValue

/-- The constant `LUA_NOREF`. -/
def LUA_NOREF : Int := -2

/-- The constant `LUA_REFNIL`. -/
def LUA_REFNIL : Int := -1

/-- The status `LUA_ERRRUN` of a failed `lua_pcall`. -/
def LUA_ERRRUN : Int := 2

/-- The Lua call `lua_gettop`: the height of the current frame. -/
def lua_gettop (L : LuaState) : Int := (L.stack.length : Int) - (L.base : Int)

/-- Push of a value (`lua_pushnil`, `lua_pushlightuserdata`, ...). -/
def lua_push (v : LuaValue) (L : LuaState) : LuaState := { L with stack := v :: L.stack }

/-- The Lua call `lua_pop(L, n)`. -/
def lua_pop (n : Nat) (L : LuaState) : LuaState := { L with stack := L.stack.drop n }

/-- The value at index `-1`. -/
def lua_top (L : LuaState) : LuaValue := L.stack.headD .nil

/-- Assignment of a global: `lua_pushliteral(L, k); <push v>; lua_rawset(L, LUA_GLOBALSINDEX)`,
also `<push v>; lua_setglobal(L, k)`.  The stack is left as it was. -/
def setGlobal (k : String) (v : LuaValue) (L : LuaState) : LuaState :=
  { L with env := { L.env with globals := fun x => if x = k then v else L.env.globals x } }

/-- The Lua call `lua_getglobal(L, k)`. -/
def lua_getglobal (k : String) (L : LuaState) : LuaState := lua_push (L.env.globals k) L

/-- The Lua call `lua_rawgeti(L, LUA_REGISTRYINDEX, ref)`. -/
def lua_rawgeti (ref : Int) (L : LuaState) : LuaState := lua_push (L.env.registry ref) L

/-- The Lua call `luaL_ref(L, LUA_REGISTRYINDEX)`: pops the value and anchors it in the registry
under a fresh positive reference (`LUA_REFNIL` for `nil`).  References freed by `luaL_unref` are
not reused in the model. -/
def luaL_ref (L : LuaState) : Int × LuaState :=
  if (lua_top L).isNil then (LUA_REFNIL, lua_pop 1 L)
  else
    let ref : Int := (L.env.refCount : Int) + 1
    (ref, { stack := L.stack.drop 1, base := L.base,
            env := { globals := L.env.globals,
                     registry := fun r => if r = ref then lua_top L else L.env.registry r,
                     refCount := L.env.refCount + 1 } })

/-- The Lua call `lua_pcall(L, nargs, LUA_MULTRET, 0)`: the called value and its `nargs`
arguments are replaced by all the results (status 0) or by the error message (status non-zero). -/
def lua_pcall (I : Interp) (nargs : Nat) (L : LuaState) : Int × LuaState :=
  let args := (L.stack.take nargs).reverse
  let fn := (L.stack.drop nargs).headD .nil
  let below := L.stack.drop (nargs + 1)
  match I.call fn args L.env with
  | (.ok results, env1) => (0, { stack := results.reverse ++ below, base := L.base, env := env1 })
  | (.error msg, env1) => (LUA_ERRRUN, { stack := msg :: below, base := L.base, env := env1 })

/-! ## Script modules: `LoadScript`, `NewScript` -/

/-- The lifecycle slots, `ScriptFunction`. -/
inductive ScriptFunction where
  | SCRIPT_FUNCTION_INIT
  | SCRIPT_FUNCTION_UPDATE
  | SCRIPT_FUNCTION_ONMESSAGE
  | SCRIPT_FUNCTION_ONINPUT
  deriving DecidableEq, Repr

/-- The slots in index order, `0 .. MAX_SCRIPT_FUNCTION_COUNT - 1`. -/
def scriptFunctions : List ScriptFunction :=
  [.SCRIPT_FUNCTION_INIT, .SCRIPT_FUNCTION_UPDATE, .SCRIPT_FUNCTION_ONMESSAGE,
   .SCRIPT_FUNCTION_ONINPUT]

/-- The table `SCRIPT_FUNCTION_NAMES`. -/
def SCRIPT_FUNCTION_NAMES : ScriptFunction → String
  | .SCRIPT_FUNCTION_INIT => "init"
  | .SCRIPT_FUNCTION_UPDATE => "update"
  | .SCRIPT_FUNCTION_ONMESSAGE => "on_message"
  | .SCRIPT_FUNCTION_ONINPUT => "on_input"

/-- The struct `Script`: one function reference per lifecycle slot. -/
structure Script where
  m_FunctionReferences : ScriptFunction → Int

/-- The assignment `script->m_FunctionReferences[i] = ref`. -/
def Script.set (script : Script) (i : ScriptFunction) (ref : Int) : Script :=
  { m_FunctionReferences := fun j => if j = i then ref else script.m_FunctionReferences j }

/-- The first loop of `LoadScript`: every slot of `script` is set to `LUA_NOREF`. -/
def resetFunctions (script : Script) : Script :=
  scriptFunctions.foldl (fun s i => s.set i LUA_NOREF) script

/-- The loop of `LoadScript` that captures the well-known globals, over the slots that remain;
`false` when it leaves through `goto bail`. -/
def captureFunctions (fns : List ScriptFunction) (script : Script) (L : LuaState) :
    Bool × Script × LuaState :=
  match fns with
  | [] => (true, script, L)
  | i :: rest =>
    let L1 := lua_getglobal (SCRIPT_FUNCTION_NAMES i) L
    if (lua_top L1).isNil = false then
      if (lua_top L1).isFunction then
        let r := luaL_ref L1
        captureFunctions rest (script.set i r.1) r.2
      else
        (false, script, lua_pop 1 L1)
    else
      captureFunctions rest (script.set i LUA_NOREF) (lua_pop 1 L1)

/-- The loop after the label `bail`: the four well-known globals are set to `nil`. -/
def clearFunctionGlobals (L : LuaState) : LuaState :=
  scriptFunctions.foldl (fun L1 i => setGlobal (SCRIPT_FUNCTION_NAMES i) .nil L1) L

/-- The function `LoadScript`: the result, the content of `*script` on return (`script` is its
content on entry) and the interpreter state on return. -/
def LoadScript (I : Interp) (buffer : List Byte) (filename : String) (script : Script)
    (L : LuaState) : Bool × Script × LuaState :=
  let script0 := resetFunctions script
  match I.load buffer filename with
  | .ok chunk =>
    let r := lua_pcall I 0 (lua_push chunk L)
    if r.1 = 0 then
      let c := captureFunctions scriptFunctions script0 r.2
      (c.1, c.2.1, clearFunctionGlobals c.2.2)
    else
      (false, script0, clearFunctionGlobals (lua_pop 1 r.2))
  | .error msg =>
    (false, script0, clearFunctionGlobals (lua_pop 1 (lua_push msg L)))

/-- The function `NewScript`: a `Script` when the load succeeds, the null handle otherwise.
`temp_script` is the content of the uninitialised local of that name. -/
def NewScript (I : Interp) (buffer : List Byte) (filename : String) (temp_script : Script)
    (L : LuaState) : Option Script × LuaState :=
  let r := LoadScript I buffer filename temp_script L
  if r.1 then (some r.2.1, r.2.2) else (none, r.2.2)

/-! ## Dispatch: `RunScript`, `ScriptOnMessageComponent`, `ScriptOnInputComponent` -/

/-- The struct `ScriptInstance`; `m_Instance` is the address of the owning object. -/
structure ScriptInstance where
  m_Script : Script
  m_Instance : Nat
  m_InstanceReference : Int
  m_ScriptDataReference : Int

/-- The part of the struct `Instance` the bridge reads or writes: the address of its collection
and the link to its script instance (a null pointer is 0). -/
structure Instance where
  m_Collection : Nat
  m_ScriptInstancePOOOOP : Nat

/-- The struct `InstanceMessageData`; `m_DDFData` is the address of the payload. -/
structure InstanceMessageData where
  m_MessageId : Nat
  m_DDFDescriptor : Option Descriptor
  m_Instance : Nat
  m_Component : Nat
  m_DDFData : Nat

/-- The struct `InputAction`; the value is a Lua number, the flags are what
`lua_pushboolean` makes of them. -/
structure InputAction where
  m_ActionId : Nat
  m_Value : Int
  m_Pressed : Bool
  m_Released : Bool
  m_Repeated : Bool

/-- Results of `RunScript`. -/
inductive ScriptResult where
  | SCRIPT_RESULT_OK
  | SCRIPT_RESULT_FAILED
  deriving DecidableEq, Repr

/-- Results of the update and message hooks. -/
inductive UpdateResult where
  | UPDATE_RESULT_OK
  | UPDATE_RESULT_UNKNOWN_ERROR
  deriving DecidableEq, Repr

/-- Results of the input hook. -/
inductive InputResult where
  | INPUT_RESULT_IGNORED
  | INPUT_RESULT_CONSUMED
  | INPUT_RESULT_UNKNOWN_ERROR
  deriving DecidableEq, Repr

/-- The function `RunScript`. -/
def RunScript (I : Interp) (collection : Nat) (script : Script)
    (script_function : ScriptFunction) (script_instance : ScriptInstance)
    (update_context : Nat) (L : LuaState) : ScriptResult × LuaState :=
  if script.m_FunctionReferences script_function ≠ LUA_NOREF then
    let L1 := setGlobal "__collection__" (.lightuserdata collection) L
    let L2 := setGlobal "__update_context__" (.lightuserdata update_context) L1
    let L3 := setGlobal "__instance__" (.lightuserdata script_instance.m_Instance) L2
    let L4 := lua_rawgeti (script.m_FunctionReferences script_function) L3
    let L5 := lua_rawgeti script_instance.m_InstanceReference L4
    let r := lua_pcall I 1 L5
    let e : ScriptResult × LuaState :=
      if r.1 ≠ 0 then (.SCRIPT_RESULT_FAILED, lua_pop 1 r.2) else (.SCRIPT_RESULT_OK, r.2)
    let L6 := setGlobal "__collection__" .nil e.2
    let L7 := setGlobal "__update_context__" .nil L6
    let L8 := setGlobal "__instance__" .nil L7
    (e.1, L8)
  else
    (.SCRIPT_RESULT_OK, L)

/-- The function `ScriptOnMessageComponent`; `script_instance` is `*user_data`.  The memory is
part of the state because of the relocation of the string slots of a typed payload. -/
def ScriptOnMessageComponent (P : Platform) (I : Interp) (instance_ : Instance)
    (instance_message_data : InstanceMessageData) (script_instance : ScriptInstance)
    (mem : Mem) (L : LuaState) : UpdateResult × Mem × LuaState :=
  let function_ref := script_instance.m_Script.m_FunctionReferences .SCRIPT_FUNCTION_ONMESSAGE
  if function_ref ≠ LUA_NOREF then
    let L1 := setGlobal "__collection__" (.lightuserdata instance_.m_Collection) L
    let L2 := setGlobal "__instance__" (.lightuserdata script_instance.m_Instance) L1
    let L3 := lua_rawgeti function_ref L2
    let L4 := lua_rawgeti script_instance.m_InstanceReference L3
    let L5 := lua_push (I.PushHash instance_message_data.m_MessageId) L4
    let p : Mem × LuaState :=
      match instance_message_data.m_DDFDescriptor with
      | some d =>
        let data := instance_message_data.m_DDFData
        let mem1 := relocateStrings P d data mem
        (mem1, lua_push (I.PushDDF d mem1 data) L5)
      | none => (mem, lua_push (.table []) L5)
    let r := lua_pcall I 3 p.2
    let e : UpdateResult × LuaState :=
      if r.1 ≠ 0 then (.UPDATE_RESULT_UNKNOWN_ERROR, lua_pop 1 r.2) else (.UPDATE_RESULT_OK, r.2)
    let L6 := setGlobal "__collection__" .nil e.2
    let L7 := setGlobal "__instance__" .nil L6
    (e.1, p.1, L7)
  else
    (.UPDATE_RESULT_OK, mem, L)

/-- The action table built by `ScriptOnInputComponent` with `lua_createtable` and four
`lua_settable`. -/
def actionTable (input_action : InputAction) : LuaValue :=
  .table [("value", .number input_action.m_Value),
          ("pressed", .boolean input_action.m_Pressed),
          ("released", .boolean input_action.m_Released),
          ("repeated", .boolean input_action.m_Repeated)]

/-- The function `ScriptOnInputComponent`; `script_instance` is `*user_data`. -/
def ScriptOnInputComponent (I : Interp) (instance_ : Instance) (input_action : InputAction)
    (script_instance : ScriptInstance) (L : LuaState) : InputResult × LuaState :=
  let function_ref := script_instance.m_Script.m_FunctionReferences .SCRIPT_FUNCTION_ONINPUT
  if function_ref ≠ LUA_NOREF then
    let L1 := setGlobal "__collection__" (.lightuserdata instance_.m_Collection) L
    let L2 := setGlobal "__instance__" (.lightuserdata script_instance.m_Instance) L1
    let L3 := lua_rawgeti function_ref L2
    let L4 := lua_rawgeti script_instance.m_InstanceReference L3
    let L5 := lua_push (I.PushHash input_action.m_ActionId) L4
    let L6 := lua_push (actionTable input_action) L5
    let arg_count : Nat := 3
    let input_ret : Int := lua_gettop L6 - (arg_count : Int)
    let r := lua_pcall I arg_count L6
    let e : InputResult × LuaState :=
      if r.1 ≠ 0 then
        (.INPUT_RESULT_UNKNOWN_ERROR, lua_pop 2 r.2)
      else if input_ret = lua_gettop r.2 then
        if (lua_top r.2).isBoolean = false then
          (.INPUT_RESULT_UNKNOWN_ERROR, lua_pop 1 r.2)
        else if (lua_top r.2).toBoolean then
          (.INPUT_RESULT_CONSUMED, lua_pop 1 r.2)
        else
          (.INPUT_RESULT_IGNORED, lua_pop 1 r.2)
      else
        (.INPUT_RESULT_IGNORED, r.2)
    let L7 := setGlobal "__collection__" .nil e.2
    let L8 := setGlobal "__instance__" .nil L7
    (e.1, L8)
  else
    (.INPUT_RESULT_IGNORED, L)

/-- The three ambient globals bound around a dispatch. -/
def ambientSlots : List String := ["__collection__", "__instance__", "__update_context__"]

/-! ## Reload, script worlds, update and destruction of components -/

/-- The function `ReloadScript`: `LoadScript` on the existing handle. -/
def ReloadScript (I : Interp) (script : Script) (buffer : List Byte) (filename : String)
    (L : LuaState) : Bool × Script × LuaState :=
  LoadScript I buffer filename script L

/-- The struct `ScriptWorld`: the array `m_Instances` of pointers to script instances, in index
order. -/
structure ScriptWorld where
  m_Instances : List Nat

/-- Results of the component hooks that create and destroy. -/
inductive CreateResult where
  | CREATE_RESULT_OK
  | CREATE_RESULT_UNKNOWN_ERROR
  deriving DecidableEq, Repr

/-- One iteration of the loop of `ScriptUpdateComponent`, for the index `i`: `heap` gives the
script instance a pointer of the world points to, `acc` is the result so far and the
interpreter state. -/
def updateStep (I : Interp) (collection update_context : Nat) (world : ScriptWorld)
    (heap : Nat → ScriptInstance) (acc : UpdateResult × LuaState) (i : Nat) :
    UpdateResult × LuaState :=
  let script_instance := heap (world.m_Instances.getD i 0)
  let ret := RunScript I collection script_instance.m_Script .SCRIPT_FUNCTION_UPDATE
    script_instance update_context acc.2
  if ret.1 = .SCRIPT_RESULT_FAILED then (.UPDATE_RESULT_UNKNOWN_ERROR, ret.2)
  else (acc.1, ret.2)

/-- The function `ScriptUpdateComponent`: the loop runs over the indices `0 .. size - 1`, `size`
being read once before the loop.  The array of the world is not changed while the loop runs. -/
def ScriptUpdateComponent (I : Interp) (collection update_context : Nat) (world : ScriptWorld)
    (heap : Nat → ScriptInstance) (L : LuaState) : UpdateResult × LuaState :=
  let size := world.m_Instances.length
  (List.range size).foldl (updateStep I collection update_context world heap)
    (.UPDATE_RESULT_OK, L)

/-- Modelled from the spec: the method `dmArray::EraseSwap` (dlib, not part of the sources at
hand), the swap-remove of the Script World: the entry at index `i` is overwritten by the last
entry and the array is shortened by one. -/
def EraseSwap (xs : List Nat) (i : Nat) : List Nat :=
  if i < xs.length then (xs.set i (xs.getLastD 0)).dropLast else xs

/-- The search loop of `ScriptDestroyComponent`: the first index, from `i` on, at which the
array holds the pointer `script_instance`. -/
def findInstance (script_instance : Nat) : List Nat → Nat → Option Nat
  | [], _ => none
  | x :: rest, i =>
    if script_instance = x then some i else findInstance script_instance rest (i + 1)

/-- The Lua call `luaL_unref(L, LUA_REGISTRYINDEX, ref)`: for `ref >= 0` the slot receives the
head of the free list kept at index 0, and becomes the new head.  (`luaL_ref` does not consult
that list in the model.) -/
def luaL_unref (ref : Int) (L : LuaState) : LuaState :=
  if 0 ≤ ref then
    { stack := L.stack, base := L.base,
      env := { globals := L.env.globals,
               registry := fun r => if r = 0 then LuaValue.number ref
                                    else (if r = ref then L.env.registry 0 else L.env.registry r),
               refCount := L.env.refCount } }
  else L

/-- The function `DeleteScriptInstance`. -/
def DeleteScriptInstance (script_instance : ScriptInstance) (L : LuaState) : LuaState :=
  luaL_unref script_instance.m_ScriptDataReference
    (luaL_unref script_instance.m_InstanceReference L)

/-- The function `ScriptDestroyComponent`; `script_instance` is the pointer `*user_data`.  It
gives back the owning object, the world and the interpreter state as it leaves them. -/
def ScriptDestroyComponent (instance_ : Instance) (world : ScriptWorld) (script_instance : Nat)
    (heap : Nat → ScriptInstance) (L : LuaState) :
    CreateResult × Instance × ScriptWorld × LuaState :=
  let world1 : ScriptWorld :=
    match findInstance script_instance world.m_Instances 0 with
    | some i => { m_Instances := EraseSwap world.m_Instances i }
    | none => world
  let instance1 : Instance := { instance_ with m_ScriptInstancePOOOOP := 0 }
  (.CREATE_RESULT_OK, instance1, world1, DeleteScriptInstance (heap script_instance) L)

/-! ## Visibility test: `IsPointVisible`, `Script_IsVisible` -/

/-- A vector of three scalars (`Vectormath::Aos::Vector3`, `Point3`).  The value of a `float`
scalar is a rational: the scalars of the vectors and matrices are finite. -/
structure Vector3 where
  x : ℚ
  y : ℚ
  z : ℚ

/-- A vector of four scalars (`Vectormath::Aos::Vector4`). -/
structure Vector4 where
  x : ℚ
  y : ℚ
  z : ℚ
  w : ℚ

/-- A 4x4 matrix given by its columns (`Vectormath::Aos::Matrix4`). -/
structure Matrix4 where
  col0 : Vector4
  col1 : Vector4
  col2 : Vector4
  col3 : Vector4

/-- The exact product of a matrix and a point: the point is taken with `w = 1`.  It is the
product `view_proj * p` of the math library wherever the operations of the library do not
round. -/
def Matrix4.mulPoint (m : Matrix4) (p : Vector3) : Vector4 :=
  { x := m.col0.x * p.x + m.col1.x * p.y + m.col2.x * p.z + m.col3.x,
    y := m.col0.y * p.x + m.col1.y * p.y + m.col2.y * p.z + m.col3.y,
    z := m.col0.z * p.x + m.col1.z * p.y + m.col2.z * p.z + m.col3.z,
    w := m.col0.w * p.x + m.col1.w * p.y + m.col2.w * p.z + m.col3.w }

/-- The arithmetic of the type `float` and the product of the math library, taken from outside
the repository (the compiler, the floating-point unit, the library).  `round` takes the exact
result of one operation on finite `float`s to the `float` that the operation yields, `none`
when that is not a finite number (an overflow to an infinity).  `mulPoint` is the product
`view_proj * p` of a matrix and a point as the library computes it, the result being finite. -/
structure FloatArith where
  round : ℚ → Option ℚ
  mulPoint : Matrix4 → Vector3 → Vector4

/-- The struct `UpdateContext`: the delta time of the tick (a Lua number once pushed) and the
view-projection transform. -/
structure UpdateContext where
  m_DT : Int
  m_ViewProj : Matrix4

/-- The Lua call `lua_touserdata`: the address held by a userdata, the null pointer 0 for
every other value. -/
def lua_touserdata : LuaValue → Nat
  | .lightuserdata p => p
  | .userdata a => a
  | _ => 0

/-- The comparison `dmMath::Abs(v) <= margin` of a `float` with a finite margin: false when `v`
is not a finite number (the absolute value of an infinity is above every finite margin, and
every comparison with a NaN is false). -/
def absWithin (v : Option ℚ) (margin : ℚ) : Bool :=
  match v with
  | some q => decide (|q| ≤ margin)
  | none => false

/-- The function `IsPointVisible`, for finite coordinates and a finite margin.  The division
`1.0f / r.getW()` and the three products by `r_w` are operations on `float`s: each result is
rounded.  When `r_w` is not finite (the quotient by zero, or an overflow), the three products
are infinities or NaN and the three comparisons are false. -/
def IsPointVisible (F : FloatArith) (p : Vector3) (view_proj : Matrix4) (margin : ℚ) : Bool :=
  let r := F.mulPoint view_proj p
  let r_w := if r.w = 0 then none else F.round (1 / r.w)
  match r_w with
  | none => false
  | some r_w =>
    absWithin (F.round (r.x * r_w)) margin && absWithin (F.round (r.y * r_w)) margin &&
      absWithin (F.round (r.z * r_w)) margin

/-- The function `Script_IsVisible`, on its checked arguments: the two corners and the margin,
absent when the call has two arguments.  `contexts` gives the update context a pointer points
to. -/
def Script_IsVisible (F : FloatArith) (contexts : Nat → UpdateContext) (min max : Vector3)
    (margin_arg : Option ℚ) (L : LuaState) : Bool :=
  let margin : ℚ := match margin_arg with
    | some m => m
    | none => 1
  let update_context := lua_touserdata (L.env.globals "__update_context__")
  let view_proj := (contexts update_context).m_ViewProj
  IsPointVisible F min view_proj margin
    && IsPointVisible F ⟨min.x, min.y, max.z⟩ view_proj margin
    && IsPointVisible F ⟨min.x, max.y, min.z⟩ view_proj margin
    && IsPointVisible F ⟨max.x, min.y, min.z⟩ view_proj margin
    && IsPointVisible F ⟨max.x, min.y, max.z⟩ view_proj margin
    && IsPointVisible F ⟨max.x, max.y, min.z⟩ view_proj margin
    && IsPointVisible F ⟨max.x, min.y, max.z⟩ view_proj margin
    && IsPointVisible F max view_proj margin

/-! ## Fields of a script instance: `ScriptInstance_index`, `ScriptInstance_newindex` -/

/-- A Lua value in the position of a table key.  A string is its bytes, whatever they are; a
table, a function or a userdata is the key that its reference is. -/
inductive LuaKey where
  | nil
  | boolean (b : Bool)
  | number (n : Int)
  | string (s : List Byte)
  | lightuserdata (p : Nat)
  | table (ref : Nat)
  | function (ref : Nat)
  | userdata (ref : Nat)
  deriving DecidableEq, Repr

/-- The Lua call `luaL_checkstring` on the value at an index, here a key: the string it returns.
When it succeeds the value at that index is this string: a number has been converted in
place (`lua_tolstring`). -/
def LuaKey.checkstring (P : Platform) : LuaKey → Except LuaError (List Byte)
  | .string s => .ok s
  | .number n => .ok (P.num2str n)
  | _ => .error (.typeError "string")

/-- The Lua call `lua_gettable` on the entries of a table without metatable: the value under
the key, `nil` when there is none. -/
def lua_gettable : List (LuaKey × LuaValue) → LuaKey → LuaValue
  | [], _ => .nil
  | (k, v) :: rest, key => if k = key then v else lua_gettable rest key

/-- The Lua call `lua_settable` on the entries of a table without metatable: the value is put
under the key, in place of the one there was; a `nil` key raises. -/
def lua_settable (entries : List (LuaKey × LuaValue)) (key : LuaKey) (value : LuaValue) :
    Except LuaError (List (LuaKey × LuaValue)) :=
  if key = .nil then .error .indexIsNil
  else .ok ((key, value) :: entries.filter (fun e => e.1 != key))

/-- The function `ScriptInstance_index`, the value it pushes: `i` is the checked userdata at
index 1, `key` the value at index 2, `data` the entries of the table that the registry holds
under `i->m_ScriptDataReference`; `GetIdentifier` is the function of that name of the object
framework.  `strcmp` compares up to the first zero byte (`cstr`); `[105, 100]` is `"id"` and
`[100, 116]` is `"dt"`.  The key looked up in the data store is the value at index 2 after
`luaL_checkstring`: the string. -/
def ScriptInstance_index (P : Platform) (I : Interp) (GetIdentifier : Nat → Nat)
    (contexts : Nat → UpdateContext) (i : ScriptInstance) (data : List (LuaKey × LuaValue))
    (key : LuaKey) (L : LuaState) : Except LuaError LuaValue :=
  match key.checkstring P with
  | .error e => .error e
  | .ok s =>
    if cstr s = [105, 100] then
      .ok (I.PushHash (GetIdentifier i.m_Instance))
    else
      let update_context := lua_touserdata (L.env.globals "__update_context__")
      if update_context ≠ 0 ∧ cstr s = [100, 116] then
        .ok (.number (contexts update_context).m_DT)
      else
        .ok (lua_gettable data (.string s))

/-- The function `ScriptInstance_newindex`: `key` and `value` are the values at the indices 2
and 3, `data` the entries of the table that the registry holds under
`i->m_ScriptDataReference`; the result is the entries of that table on return (the table is
left on the stack). -/
def ScriptInstance_newindex (data : List (LuaKey × LuaValue)) (key : LuaKey)
    (value : LuaValue) : Except LuaError (List (LuaKey × LuaValue)) :=
  lua_settable data key value

/-! ## Posting: `Script_PostNamedTo`, `Script_PostToCollection` -/

/-- Errors raised by the posting functions: those of the `luaL_check*` family and their own
`luaL_error`. -/
inductive PostError where
  | lua (e : LuaError)
  /-- "Collection %d not found". -/
  | collectionNotFound (name_hash : Nat)
  /-- "Error sending message. Unknown instance: %p". -/
  | unknownInstance (id : Nat)
  /-- "sizeof(%s) > %d". -/
  | sizeTooLarge (type_name : List Byte)
  /-- "DDF type %s has not been registered through dmGameObject::RegisterDDFType." -/
  | notRegistered (type_name : List Byte)
  /-- "Error sending message '%s' to %p/%s". -/
  | sendFailed (message_name : List Byte)
  deriving DecidableEq, Repr

/-- What a posting function hands to the object framework. -/
inductive PostedMessage where
  /-- `PostDDFMessageTo(instance, component_name, desc, ddf_data)`. -/
  | ddf (instance_ : Nat) (component_name : List Byte) (desc : Descriptor)
      (ddf_data : List Byte)
  /-- `PostNamedMessageTo(instance, component_name, dmHashString32(message_name))`. -/
  | named (instance_ : Nat) (component_name : List Byte) (message_name : List Byte)

/-- What the posting functions take from outside the repository. -/
structure PostWorld where
  /-- The function `dmScript::CheckHash`. -/
  CheckHash : LuaValue → Except LuaError Nat
  /-- The array `m_Collections` of the register of a collection: name hash and address of each
  collection. -/
  m_Collections : Nat → List (Nat × Nat)
  /-- The function `GetInstanceFromIdentifier`; the null pointer is 0. -/
  GetInstanceFromIdentifier : Nat → Nat → Nat
  /-- The table `g_Descriptors`, by type name. -/
  g_Descriptors : List Byte → Option Descriptor
  /-- The constant `INSTANCE_MESSAGE_MAX - sizeof(InstanceMessageData)`. -/
  maxPayload : Nat
  /-- The function `dmScript::CheckDDF`: the payload marshaled from a Lua value. -/
  CheckDDF : Descriptor → LuaValue → Except LuaError (List Byte)
  /-- Whether `PostDDFMessageTo` returns `RESULT_OK`. -/
  PostDDFMessageTo : Nat → List Byte → Descriptor → List Byte → Bool
  /-- Whether `PostNamedMessageTo` returns `RESULT_OK`. -/
  PostNamedMessageTo : Nat → List Byte → List Byte → Bool

/-- The Lua call `luaL_checktype(L, idx, LUA_TTABLE)` on the value at the index. -/
def luaL_checktype_table : LuaValue → Except LuaError Unit
  | .table _ => .ok ()
  | _ => .error (.typeError "table")

/-- The argument at index `n` of a C function called with `args` (index 1 first). -/
def argAt (args : List LuaValue) (n : Nat) : LuaValue := args.getD (n - 1) .nil

/-- The function `Script_PostNamedTo`, called with the arguments `args`. -/
def Script_PostNamedTo (P : Platform) (W : PostWorld) (args : List LuaValue) (L : LuaState) :
    Except PostError PostedMessage :=
  let top := args.length
  match W.CheckHash (argAt args 1) with
  | .error e => .error (.lua e)
  | .ok id =>
    match luaL_checkstring P (argAt args 2) with
    | .error e => .error (.lua e)
    | .ok component_name =>
      match luaL_checkstring P (argAt args 3) with
      | .error e => .error (.lua e)
      | .ok message_name =>
        let collection := lua_touserdata (L.env.globals "__collection__")
        let instance_ := W.GetInstanceFromIdentifier collection id
        if instance_ ≠ 0 then
          if top ≥ 4 then
            match W.g_Descriptors message_name with
            | some desc =>
              if desc.m_Size > W.maxPayload then .error (.sizeTooLarge message_name)
              else
                match luaL_checktype_table (argAt args 4) with
                | .error e => .error (.lua e)
                | .ok _ =>
                  match W.CheckDDF desc (argAt args 4) with
                  | .error e => .error (.lua e)
                  | .ok ddf_data =>
                    if W.PostDDFMessageTo instance_ component_name desc ddf_data then
                      .ok (.ddf instance_ component_name desc ddf_data)
                    else .error (.sendFailed message_name)
            | none => .error (.notRegistered message_name)
          else
            if W.PostNamedMessageTo instance_ component_name message_name then
              .ok (.named instance_ component_name message_name)
            else .error (.sendFailed message_name)
        else .error (.unknownInstance id)

/-- The function `Script_PostToCollection`, called with the arguments `args`. -/
def Script_PostToCollection (P : Platform) (W : PostWorld) (args : List LuaValue)
    (L : LuaState) : Except PostError PostedMessage :=
  let top := args.length
  match W.CheckHash (argAt args 1) with
  | .error e => .error (.lua e)
  | .ok collection_name_hash =>
    match W.CheckHash (argAt args 2) with
    | .error e => .error (.lua e)
    | .ok id =>
      match luaL_checkstring P (argAt args 3) with
      | .error e => .error (.lua e)
      | .ok component_name =>
        match luaL_checkstring P (argAt args 4) with
        | .error e => .error (.lua e)
        | .ok message_name =>
          let collection := lua_touserdata (L.env.globals "__collection__")
          match (W.m_Collections collection).find? (fun c => c.1 = collection_name_hash) with
          | none => .error (.collectionNotFound collection_name_hash)
          | some to_collection =>
            let instance_ := W.GetInstanceFromIdentifier to_collection.2 id
            if instance_ ≠ 0 then
              if top ≥ 5 then
                match W.g_Descriptors message_name with
                | some desc =>
                  if desc.m_Size > W.maxPayload then .error (.sizeTooLarge message_name)
                  else
                    match luaL_checktype_table (argAt args 4) with
                    | .error e => .error (.lua e)
                    | .ok _ =>
                      match W.CheckDDF desc (argAt args 4) with
                      | .error e => .error (.lua e)
                      | .ok ddf_data =>
                        if W.PostDDFMessageTo instance_ component_name desc ddf_data then
                          .ok (.ddf instance_ component_name desc ddf_data)
                        else .error (.sendFailed message_name)
                | none => .error (.notRegistered message_name)
              else
                if W.PostNamedMessageTo instance_ component_name message_name then
                  .ok (.named instance_ component_name message_name)
                else .error (.sendFailed message_name)
            else .error (.unknownInstance id)

/-! ## Predicates of the statements and example inputs -/

/-- A 64-bit little-endian platform on which plain `char` is signed (x86-64).  The coercions of
the Lua library are not exercised by the examples below and are trivial here. -/
def x86_64 : Platform :=
  { ptrBytes := 8, charSigned := true, f32bits := fun _ => 0, str2d := fun _ => none,
    num2str := fun _ => [] }

/-- The same platform with an unsigned plain `char` (as on ARM Linux). -/
def aarch64 : Platform :=
  { ptrBytes := 8, charSigned := false, f32bits := fun _ => 0, str2d := fun _ => none,
    num2str := fun _ => [] }

/-- The descriptor of a message with one string field. -/
def textDescriptor : Descriptor :=
  .mk 8 [.mk "text" .TYPE_STRING .LABEL_REQUIRED none 0]

/-- The descriptor of a message with two string fields. -/
def pairDescriptor : Descriptor :=
  .mk 16 [.mk "first" .TYPE_STRING .LABEL_REQUIRED none 0,
          .mk "second" .TYPE_STRING .LABEL_REQUIRED none 8]

/-- A source table for `pairDescriptor`: 120 times the letter x, and "hi". -/
def pairTable : LuaValue :=
  .table [("first", .string (List.replicate 120 120)), ("second", .string [104, 105])]

/-- A descriptor with a required string field followed by a required integer field. -/
def requiredPair : Descriptor :=
  .mk 16 [.mk "text" .TYPE_STRING .LABEL_REQUIRED none 0,
          .mk "amount" .TYPE_INT32 .LABEL_REQUIRED none 8]

/-- The descriptor of the message "hit": `amount` (int32, required) and `source` (string,
optional). -/
def hitDescriptor : Descriptor :=
  .mk 16 [.mk "amount" .TYPE_INT32 .LABEL_REQUIRED none 0,
          .mk "source" .TYPE_STRING .LABEL_OPTIONAL none 8]

/-- The table `{amount = 10}`. -/
def hitTable : LuaValue := .table [("amount", .number 10)]

/-- What a pull from the state `st` to the state `st'` preserves: the cursor does not go back,
it stays within the limit if it was, and outside the slots `slots` the only bytes that may have
changed are those of the range run over by the cursor. -/
def pullInv (slots : Nat → Bool) (limit : Nat) (st st' : PullState) : Prop :=
  st.buffer ≤ st'.buffer ∧ (st.buffer ≤ limit → st'.buffer ≤ limit) ∧
  ∀ a, slots a = false → ¬ (st.buffer ≤ a ∧ a < st'.buffer) → st'.mem a = st.mem a

/-- The descriptor of a message with an integer and a nested message holding a string. -/
def nestedDescriptor : Descriptor :=
  .mk 16 [.mk "id" .TYPE_UINT32 .LABEL_REQUIRED none 0,
          .mk "inner" .TYPE_MESSAGE .LABEL_OPTIONAL (some textDescriptor) 8]

/-- The three ambient globals are unbound. -/
def ambientEmpty (L : LuaState) : Prop :=
  ∀ k, k ∈ ambientSlots → L.env.globals k = .nil

/-- The script code run by the interpreter does not assign the ambient globals. -/
def preservesAmbient (I : Interp) : Prop :=
  ∀ fn args env k, k ∈ ambientSlots → (I.call fn args env).2.globals k = env.globals k

/-- An interpreter in which every call raises an error and leaves the environment as it is. -/
def raisingInterp : Interp :=
  { load := fun _ _ => .error (.string []),
    call := fun _ _ env => (.error (.string []), env),
    PushHash := fun n => .number n,
    PushDDF := fun _ _ _ => .table [] }

/-- An interpreter state with an empty frame and no global defined. -/
def emptyState : LuaState :=
  { stack := [.nil], base := 1,
    env := { globals := fun _ => .nil, registry := fun _ => .nil, refCount := 0 } }

/-- A script whose four slots hold the reference 1. -/
def fullScript : Script := { m_FunctionReferences := fun _ => 1 }

/-- What the capture loop guarantees, for the slots `fns` it runs over. -/
structure CaptureSpec (fns : List ScriptFunction) (script : Script) (L : LuaState)
    (res : Bool × Script × LuaState) : Prop where
  globals : res.2.2.env.globals = L.env.globals
  stack : res.2.2.stack = L.stack
  ok_iff : res.1 = true ↔ ∀ i, i ∈ fns →
    (L.env.globals (SCRIPT_FUNCTION_NAMES i)).isNil = true ∨
    (L.env.globals (SCRIPT_FUNCTION_NAMES i)).isFunction = true
  count : L.env.refCount ≤ res.2.2.env.refCount
  registry : ∀ r : Int, r ≤ (L.env.refCount : Int) → res.2.2.env.registry r = L.env.registry r
  others : ∀ i, i ∉ fns → res.2.1.m_FunctionReferences i = script.m_FunctionReferences i
  captured : res.1 = true → fns.Nodup → ∀ i, i ∈ fns →
    ((L.env.globals (SCRIPT_FUNCTION_NAMES i)).isFunction = true →
      (L.env.refCount : Int) < res.2.1.m_FunctionReferences i ∧
      res.2.1.m_FunctionReferences i ≤ (res.2.2.env.refCount : Int) ∧
      res.2.2.env.registry (res.2.1.m_FunctionReferences i)
        = L.env.globals (SCRIPT_FUNCTION_NAMES i)) ∧
    ((L.env.globals (SCRIPT_FUNCTION_NAMES i)).isFunction = false →
      res.2.1.m_FunctionReferences i = LUA_NOREF)

/-- An interpreter for a module that defines only `update`: the chunk is function 0 and its
execution binds the global `update` to function 1. -/
def onlyUpdateInterp : Interp :=
  { load := fun _ _ => .ok (.function 0),
    call := fun _ _ env =>
      (.ok [], { env with globals := fun k => if k = "update" then .function 1
                                               else env.globals k }),
    PushHash := fun n => .number n,
    PushDDF := fun _ _ _ => .table [] }

/-- An interpreter for a module that defines `init` as a function and `update` as the number 5:
the chunk is function 0, its execution binds `init` to function 1 and `update` to 5. -/
def brokenUpdateInterp : Interp :=
  { load := fun _ _ => .ok (.function 0),
    call := fun _ _ env =>
      (.ok [], { env with globals := fun k => if k = "init" then .function 1
                                               else if k = "update" then .number 5
                                               else env.globals k }),
    PushHash := fun n => .number n,
    PushDDF := fun _ _ _ => .table [] }

/-- A script none of whose slots is present. -/
def absentScript : Script := { m_FunctionReferences := fun _ => LUA_NOREF }

/-- A script whose `on_input` slot holds the reference 1, the other slots being absent. -/
def inputScript : Script :=
  { m_FunctionReferences := fun i =>
      if i = .SCRIPT_FUNCTION_ONINPUT then 1 else LUA_NOREF }

/-- The interpreter state in which the script of the `k`-th pointer of `xs` is run during a
tick: the one left by the runs of `update` for the `k` pointers before it, in the order of the
list. -/
def updateStateAt (I : Interp) (collection update_context : Nat) (heap : Nat → ScriptInstance)
    (xs : List Nat) (L : LuaState) (k : Nat) : LuaState :=
  (xs.take k).foldl (fun L1 h => (RunScript I collection (heap h).m_Script
    .SCRIPT_FUNCTION_UPDATE (heap h) update_context L1).2) L

/-- The environment in which `RunScript` calls the function of a slot: the three ambient
globals are bound. -/
def runEnv (collection update_context : Nat) (script_instance : ScriptInstance)
    (L : LuaState) : LuaEnv :=
  (setGlobal "__instance__" (.lightuserdata script_instance.m_Instance)
    (setGlobal "__update_context__" (.lightuserdata update_context)
      (setGlobal "__collection__" (.lightuserdata collection) L))).env

/-- An interpreter in which the function 2 raises and every other value returns nothing; every
call adds one to `refCount`, used here as a counter of the calls made. -/
def countingInterp : Interp :=
  { load := fun _ _ => .error (.string []),
    call := fun fn _ env =>
      match fn with
      | .function 2 => (.error (.string []), { env with refCount := env.refCount + 1 })
      | _ => (.ok [], { env with refCount := env.refCount + 1 }),
    PushHash := fun n => .number n,
    PushDDF := fun _ _ _ => .table [] }

/-- A script whose `update` slot holds the reference `ref`, the other slots being absent. -/
def updateScript (ref : Int) : Script :=
  { m_FunctionReferences := fun i =>
      if i = .SCRIPT_FUNCTION_UPDATE then ref else LUA_NOREF }

/-- Three script instances at the addresses 10, 20 and 30, with `update` under the references
1, 2 and 3. -/
def threeInstances : Nat → ScriptInstance := fun h =>
  { m_Script := updateScript (h / 10), m_Instance := h + 1, m_InstanceReference := 0,
    m_ScriptDataReference := 0 }

/-- An interpreter state whose registry holds the function `r` under each reference `r`. -/
def registryState : LuaState :=
  { stack := [.nil], base := 1,
    env := { globals := fun _ => .nil, registry := fun r => .function r.toNat,
             refCount := 0 } }

/-- The call made by `ScriptOnInputComponent` when the slot `on_input` is present: the function
under its reference, on the script instance, the action identifier and the action table, in the
environment where `__collection__` and `__instance__` are bound.  Its first component is what
the function returns or raises. -/
def onInputCall (I : Interp) (instance_ : Instance) (input_action : InputAction)
    (script_instance : ScriptInstance) (L : LuaState) :
    Except LuaValue (List LuaValue) × LuaEnv :=
  I.call
    (L.env.registry (script_instance.m_Script.m_FunctionReferences .SCRIPT_FUNCTION_ONINPUT))
    [L.env.registry script_instance.m_InstanceReference,
     I.PushHash input_action.m_ActionId, actionTable input_action]
    (setGlobal "__instance__" (.lightuserdata script_instance.m_Instance)
      (setGlobal "__collection__" (.lightuserdata instance_.m_Collection) L)).env

/-- What `ScriptOnInputComponent` makes of the outcome of the call of `on_input`. -/
def inputResultOf : Except LuaValue (List LuaValue) → InputResult
  | .error _ => .INPUT_RESULT_UNKNOWN_ERROR
  | .ok [v] =>
    if v.isBoolean = false then .INPUT_RESULT_UNKNOWN_ERROR
    else if v.toBoolean then .INPUT_RESULT_CONSUMED
    else .INPUT_RESULT_IGNORED
  | .ok _ => .INPUT_RESULT_IGNORED

/-- An interpreter whose calls return the values `results`. -/
def returningInterp (results : List LuaValue) : Interp :=
  { load := fun _ _ => .error (.string []),
    call := fun _ _ env => (.ok results, env),
    PushHash := fun n => .number n,
    PushDDF := fun _ _ _ => .table [] }

/-- A view-projection transform whose clip-space `x` is `y + z - x`, `y` and `z` being 0 and
`w` being 1. -/
def shearTransform : Matrix4 :=
  { col0 := ⟨-1, 0, 0, 0⟩, col1 := ⟨1, 0, 0, 0⟩, col2 := ⟨1, 0, 0, 0⟩, col3 := ⟨0, 0, 0, 1⟩ }

/-- The update contexts of the example: every pointer points to a context with the transform
`shearTransform`. -/
def shearContexts : Nat → UpdateContext := fun _ => { m_DT := 0, m_ViewProj := shearTransform }

/-- An interpreter state in which `__update_context__` is bound to the pointer 256. -/
def tickState : LuaState :=
  { stack := [.nil], base := 1,
    env := { globals := fun k => if k = "__update_context__" then .lightuserdata 256 else .nil,
             registry := fun _ => .nil, refCount := 0 } }

/-- The eight corners of the box of corners `min` and `max`. -/
def boxCorners (min max : Vector3) : List Vector3 :=
  [⟨min.x, min.y, min.z⟩, ⟨min.x, min.y, max.z⟩, ⟨min.x, max.y, min.z⟩, ⟨min.x, max.y, max.z⟩,
   ⟨max.x, min.y, min.z⟩, ⟨max.x, min.y, max.z⟩, ⟨max.x, max.y, min.z⟩, ⟨max.x, max.y, max.z⟩]

/-- A platform on which the Lua library writes an integer number in decimal digits, as
`lua_number2str` does (`"%.14g"`) for the integers of up to 14 digits. -/
def decimalNumbers : Platform :=
  { ptrBytes := 8, charSigned := true, f32bits := fun _ => 0, str2d := fun _ => none,
    num2str := fun n =>
      (if n < 0 then [45] else []) ++ (Nat.toDigits 10 n.natAbs).map (fun c => byteOf c.toNat) }

/-- The update contexts of the example: the delta time is 16. -/
def fieldContexts : Nat → UpdateContext := fun _ => { m_DT := 16, m_ViewProj := shearTransform }

/-- A world for the posting functions: hashes are numbers, the register holds the collection
of name hash 11 at address 500, every identifier resolves to the instance at address 700,
every message name is registered with the descriptor `hitDescriptor`, payloads of up to 224
bytes are accepted, and marshaling and posting succeed. -/
def postWorld : PostWorld :=
  { CheckHash := fun v =>
      match v with
      | .number n => .ok n.toNat
      | _ => .error (.typeError "hash"),
    m_Collections := fun _ => [(11, 500)],
    GetInstanceFromIdentifier := fun _ _ => 700,
    g_Descriptors := fun _ => some hitDescriptor,
    maxPayload := 224,
    CheckDDF := fun _ _ => .ok [10, 0, 0, 0],
    PostDDFMessageTo := fun _ _ _ _ => true,
    PostNamedMessageTo := fun _ _ _ => true }

/-- The error of a posting function, if any. -/
def postError? : Except PostError PostedMessage → Option PostError
  | .ok _ => none
  | .error e => some e

/-- Whether a posting function has posted a typed message. -/
def postedDDF : Except PostError PostedMessage → Bool
  | .ok (.ddf _ _ _ _) => true
  | _ => false

/-- A source table for `nestedDescriptor`: `{id = 7, inner = {text = "hi"}}`. -/
def nestedTable : LuaValue :=
  .table [("id", .number 7), ("inner", .table [("text", .string [104, 105])])]

/-- An interpreter for two modules, told apart by the length of their source: the chunk of a
source of length `n` is function `n`; the execution of function 0 binds the global `update` to
function 7, the execution of every other chunk binds nothing. -/
def twoModulesInterp : Interp :=
  { load := fun buffer _ => .ok (.function buffer.length),
    call := fun fn _ env =>
      match fn with
      | .function 0 =>
        (.ok [], { env with globals := fun k => if k = "update" then .function 7
                                                 else env.globals k })
      | _ => (.ok [], env),
    PushHash := fun n => .number n,
    PushDDF := fun _ _ _ => .table [] }

/-- Rounding of a rational to the nearest integer, a tie going to the even one. -/
def roundHalfEven (q : ℚ) : ℤ :=
  let f := Int.floor q
  if q - f < 1 / 2 then f
  else if 1 / 2 < q - f then f + 1
  else if f % 2 = 0 then f
  else f + 1

/-- Rounding to the nearest number with a significand of 24 bits, a tie going to the even
significand, the spacing being at least `2 ^ (-149)` (the subnormal range); `none`, an
infinity, when the rounded number is `2 ^ 128` or more in absolute value. -/
def binary32Round (q : ℚ) : Option ℚ :=
  if q = 0 then some 0
  else
    let e : ℤ := max (Int.log 2 |q|) (-126)
    let r : ℚ := roundHalfEven (q / 2 ^ (e - 23)) * 2 ^ (e - 23)
    if 2 ^ 128 ≤ |r| then none else some r

/-- The arithmetic of `float` where it is the binary32 format of IEEE 754 and each operation is
rounded to nearest (x86-64 with SSE, AArch64).  The product of the math library is taken to be
the exact one: it is, at the inputs of the examples, whose products are by 0, 1 and -1 and
whose sums are of small integers. -/
def binary32 : FloatArith := { round := binary32Round, mulPoint := Matrix4.mulPoint }

/-- A transform that leaves `x`, `y` and `z` as they are and sets the clip-space `w` to the
constant `w`. -/
def uniformTransform (w : ℚ) : Matrix4 :=
  { col0 := ⟨1, 0, 0, 0⟩, col1 := ⟨0, 1, 0, 0⟩, col2 := ⟨0, 0, 1, 0⟩, col3 := ⟨0, 0, 0, w⟩ }

/-- An interpreter state whose frame holds one value, the number 9. -/
def frameState : LuaState :=
  { stack := [.number 9, .nil], base := 1,
    env := { globals := fun _ => .nil, registry := fun _ => .nil, refCount := 0 } }

/-- The difference between the height of the frame after `ScriptOnInputComponent` and the
height on entry, by outcome of the call of `on_input`: the pop of two values where one error
message was pushed, the pop of the one result, no pop of the results when there are none or
more than one. -/
def inputHeightChange : Except LuaValue (List LuaValue) → Int
  | .error _ => -1
  | .ok [_] => 0
  | .ok results => results.length

/-! ## Memory lemmas -/

theorem storeLE_outside (m : Mem) (a n v x : Nat) (h : ¬ (a ≤ x ∧ x < a + n)) :
    storeLE m a n v x = m x := by
  simp [storeLE, h]

theorem storeLE_inside (m : Mem) (a n v x : Nat) (h : a ≤ x ∧ x < a + n) :
    storeLE m a n v x = byteOf (v / 256 ^ (x - a)) := by
  simp [storeLE, h]

theorem memcpy_outside (m : Mem) (dst : Nat) (src : List Byte) (x : Nat)
    (h : ¬ (dst ≤ x ∧ x < dst + src.length)) : memcpy m dst src x = m x := by
  simp [memcpy, h]

theorem memcpy_inside (m : Mem) (dst : Nat) (src : List Byte) (i : Nat) (h : i < src.length) :
    memcpy m dst src (dst + i) = src[i] := by
  have h1 : dst ≤ dst + i ∧ dst + i < dst + src.length := ⟨by omega, by omega⟩
  simp [memcpy, h1, List.getElem?_eq_getElem h]

theorem loadLE_congr (m1 m2 : Mem) (n a : Nat)
    (h : ∀ x, a ≤ x → x < a + n → m1 x = m2 x) : loadLE m1 a n = loadLE m2 a n := by
  induction n generalizing a with
  | zero => rfl
  | succ k ih =>
    simp only [loadLE]
    rw [h a (Nat.le_refl a) (by omega), ih (a + 1) (fun x h1 h2 => h x (by omega) (by omega))]

theorem loadLE_lt (m : Mem) (n a : Nat) : loadLE m a n < 256 ^ n := by
  induction n generalizing a with
  | zero => simp [loadLE]
  | succ k ih =>
    simp only [loadLE]
    have h1 := ih (a + 1)
    have h2 := (m a).isLt
    rw [pow_succ]
    omega

theorem loadLE_storeLE (m : Mem) (n a v : Nat) :
    loadLE (storeLE m a n v) a n = v % 256 ^ n := by
  induction n generalizing a v m with
  | zero => simp [loadLE, Nat.mod_one]
  | succ k ih =>
    simp only [loadLE]
    have h0 : storeLE m a (k + 1) v a = byteOf v := by
      rw [storeLE_inside _ _ _ _ _ ⟨Nat.le_refl a, by omega⟩]
      simp
    have h1 : loadLE (storeLE m a (k + 1) v) (a + 1) k
        = loadLE (storeLE m (a + 1) k (v / 256)) (a + 1) k := by
      apply loadLE_congr
      intro x hx1 hx2
      rw [storeLE_inside _ _ _ _ _ ⟨by omega, by omega⟩,
        storeLE_inside _ _ _ _ _ ⟨hx1, hx2⟩]
      have : x - a = (x - (a + 1)) + 1 := by omega
      rw [this, pow_succ, Nat.mul_comm, Nat.div_div_eq_div_mul]
    rw [h0, h1, ih]
    simp only [byteOf]
    rw [pow_succ, Nat.mul_comm (256 ^ k) 256, Nat.mod_mul]

theorem loadLE_storeLE_of_lt (m : Mem) (n a v : Nat) (h : v < 256 ^ n) :
    loadLE (storeLE m a n v) a n = v := by
  rw [loadLE_storeLE, Nat.mod_eq_of_lt h]

theorem pow_ptr (k : Nat) : 2 ^ (8 * k) = 256 ^ k := by
  rw [pow_mul]; norm_num

theorem ptrDiff_eq (P : Platform) (buffer message : Nat) (h1 : message ≤ buffer)
    (h2 : buffer - message < 2 ^ (8 * P.ptrBytes)) : ptrDiff P buffer message = buffer - message := by
  unfold ptrDiff
  have h3 : ((buffer : Int) - (message : Int)) = ((buffer - message : Nat) : Int) := by omega
  rw [h3]
  have h4 : ((2 : Int) ^ (8 * P.ptrBytes)) = ((2 ^ (8 * P.ptrBytes) : Nat) : Int) := by push_cast; rfl
  rw [h4, ← Int.natCast_mod, Int.toNat_natCast, Nat.mod_eq_of_lt h2]

/-! ## String fields of `PullDDFValue` -/

theorem pullString_fits (P : Platform) (s : List Byte) (offset message : Nat) (st : PullState)
    (buffer_last : Nat) (h : st.buffer + strlen s + 1 ≤ buffer_last) :
    pullString P s offset message st buffer_last
      = .ok { mem := storeLE (memcpy st.mem st.buffer (cstr s ++ [0])) (message + offset)
                P.ptrBytes (ptrDiff P st.buffer message),
              buffer := st.buffer + (strlen s + 1) } := by
  unfold pullString
  have h1 : ¬ (st.buffer + (strlen s + 1) > buffer_last) := by omega
  simp only [h1, if_false]

theorem pullString_full (P : Platform) (s : List Byte) (offset message : Nat) (st : PullState)
    (buffer_last : Nat) (h : st.buffer + strlen s + 1 > buffer_last) :
    pullString P s offset message st buffer_last = .raised .dataDoesntFit st := by
  unfold pullString
  have h1 : st.buffer + (strlen s + 1) > buffer_last := by omega
  simp only [h1, if_true]

theorem PullDDFValue_string (P : Platform) (name : String) (label : DDFLabel)
    (md : Option Descriptor) (offset : Nat) (s : List Byte) (message : Nat) (st : PullState)
    (buffer_last : Nat) :
    PullDDFValue P (.mk name .TYPE_STRING label md offset) (.string s) message st buffer_last
      = pullString P s offset message st buffer_last := by
  simp [PullDDFValue, LuaValue.isNil, luaL_checkstring]

theorem PullDDFValue_string_nil (P : Platform) (name : String) (label : DDFLabel)
    (md : Option Descriptor) (offset : Nat) (message : Nat) (st : PullState)
    (buffer_last : Nat) :
    PullDDFValue P (.mk name .TYPE_STRING label md offset) .nil message st buffer_last
      = pullString P [] offset message st buffer_last := by
  simp [PullDDFValue, LuaValue.isNil]

theorem readCString_of_bytes (m : Mem) (bs : List Byte) (a fuel : Nat)
    (hnz : ∀ b ∈ bs, b ≠ 0) (hb : ∀ i (h : i < bs.length), m (a + i) = bs[i])
    (hz : m (a + bs.length) = 0) (hf : bs.length < fuel) : readCString m a fuel = some bs := by
  induction bs generalizing a fuel with
  | nil =>
    cases fuel with
    | zero => simp at hf
    | succ k => simp at hz; simp [readCString, hz]
  | cons b rest ih =>
    cases fuel with
    | zero => simp at hf
    | succ k =>
      have h0 : m a = b := by simpa using hb 0 (by simp)
      have hb0 : b ≠ 0 := hnz b (by simp)
      have hrest := ih (a + 1) k (fun c hc => hnz c (by simp [hc]))
        (fun i h => by
          have := hb (i + 1) (by simp; omega)
          simpa [Nat.add_assoc, Nat.add_comm 1 i] using this)
        (by simpa [Nat.add_assoc, Nat.add_comm 1 rest.length] using hz)
        (by simpa using hf)
      simp [readCString, h0, hb0, hrest]

theorem cstr_ne_zero (s : List Byte) : ∀ b ∈ cstr s, b ≠ 0 := by
  intro b hb
  have := List.mem_takeWhile_imp hb
  simpa using this

theorem pullString_append (P : Platform) (offset : Nat) (s : List Byte) (base : Nat)
    (st : PullState) (buffer_last : Nat)
    (hfit : st.buffer + strlen s + 1 ≤ buffer_last)
    (hslot : base + offset + P.ptrBytes ≤ st.buffer)
    (hrange : st.buffer - base < 2 ^ (8 * P.ptrBytes)) :
    ∃ st' : PullState,
      pullString P s offset base st buffer_last = .ok st' ∧
      (∀ i (h : i < (cstr s).length), st'.mem (st.buffer + i) = (cstr s)[i]) ∧
      st'.mem (st.buffer + strlen s) = 0 ∧
      readCString st'.mem st.buffer (strlen s + 1) = some (cstr s) ∧
      loadLE st'.mem (base + offset) P.ptrBytes = st.buffer - base ∧
      st'.buffer = st.buffer + (strlen s + 1) ∧
      (∀ a, ¬ (st.buffer ≤ a ∧ a < st.buffer + (strlen s + 1)) →
        ¬ (base + offset ≤ a ∧ a < base + offset + P.ptrBytes) → st'.mem a = st.mem a) := by
  refine ⟨{ mem := storeLE (memcpy st.mem st.buffer (cstr s ++ [0])) (base + offset)
                P.ptrBytes (ptrDiff P st.buffer base),
            buffer := st.buffer + (strlen s + 1) }, ?_, ?_, ?_, ?_, ?_, rfl, ?_⟩
  · exact pullString_fits P s offset base st buffer_last hfit
  · intro i h
    show storeLE _ _ _ _ _ = _
    rw [storeLE_outside _ _ _ _ _ (by omega)]
    rw [memcpy_inside _ _ _ _ (by simp; omega)]
    simp [List.getElem_append_left, h]
  · show storeLE _ _ _ _ _ = _
    rw [storeLE_outside _ _ _ _ _ (by omega)]
    have : strlen s = (cstr s).length := rfl
    rw [this, memcpy_inside _ _ _ _ (by simp)]
    simp
  · apply readCString_of_bytes _ _ _ _ (cstr_ne_zero s)
    · intro i h
      show storeLE _ _ _ _ _ = _
      rw [storeLE_outside _ _ _ _ _ (by omega)]
      rw [memcpy_inside _ _ _ _ (by simp; omega)]
      simp [List.getElem_append_left, h]
    · show storeLE _ _ _ _ _ = _
      rw [storeLE_outside _ _ _ _ _ (by omega)]
      rw [memcpy_inside _ _ _ _ (by simp)]
      simp
    · simp [strlen]
  · show loadLE (storeLE _ _ _ _) _ _ = _
    rw [loadLE_storeLE_of_lt _ _ _ _ (by rw [← pow_ptr, ptrDiff_eq P _ _ (by omega) hrange]; exact hrange)]
    exact ptrDiff_eq P _ _ (by omega) hrange
  · intro a h1 h2
    show storeLE _ _ _ _ _ = _
    rw [storeLE_outside _ _ _ _ _ h2, memcpy_outside _ _ _ _ (by simpa [strlen] using h1)]

theorem charToUintptr_small (P : Platform) (c : Byte) (h : c.val < 128) :
    charToUintptr P c = c.val := by
  have h1 : ¬ (128 ≤ c.val) := by omega
  simp [charToUintptr, h1]

theorem loadLE_low_byte (m : Mem) (a n o : Nat) (h : loadLE m a (n + 1) = o) (ho : o < 256) :
    (m a).val = o := by
  simp only [loadLE] at h
  have := (m a).isLt
  omega

/-- What the relocation statement leaves in the slot of a string field: the base plus the
conversion of the single `char` at the start of the slot, whatever the other bytes of the
stored offset are. -/
theorem relocateField_string (P : Platform) (data : Nat) (mem : Mem) (name : String)
    (label : DDFLabel) (md : Option Descriptor) (offset : Nat) :
    loadLE (relocateField P data mem (.mk name .TYPE_STRING label md offset)) (data + offset)
        P.ptrBytes
      = (data + charToUintptr P (mem (data + offset))) % 2 ^ (8 * P.ptrBytes) := by
  simp only [relocateField, FieldDescriptor.m_Type, FieldDescriptor.m_Offset, if_true]
  rw [loadLE_storeLE, ← pow_ptr, Nat.mod_mod]

/-- For a stored offset under 128 the relocated slot is `base + offset` (modulo the pointer
range), on every platform. -/
theorem relocateField_string_small (P : Platform) (data : Nat) (mem : Mem) (name : String)
    (label : DDFLabel) (md : Option Descriptor) (offset o : Nat) (hp : 0 < P.ptrBytes)
    (hslot : loadLE mem (data + offset) P.ptrBytes = o) (ho : o < 128) :
    loadLE (relocateField P data mem (.mk name .TYPE_STRING label md offset)) (data + offset)
        P.ptrBytes
      = (data + o) % 2 ^ (8 * P.ptrBytes) := by
  rw [relocateField_string]
  obtain ⟨k, hk⟩ : ∃ k, P.ptrBytes = k + 1 := ⟨P.ptrBytes - 1, by omega⟩
  rw [hk] at hslot
  have hb := loadLE_low_byte mem _ _ _ hslot (by omega)
  rw [charToUintptr_small P _ (by omega), hb]

/-- C4, the code at a failing input.  The slot of the string field of a message received at
address 4096 holds the stored offset 200.  After the relocation loop the slot holds
`4096 - 56 = 4040` where `char` is signed (200 read as the `char` -56), not `4096 + 200`; with
the stored offset 300 it holds `4096 + 44` whatever the signedness of `char` (44 is the low
byte of 300), not `4096 + 300`. -/
theorem relocateStrings_reads_one_char :
    loadLE (storeLE (fun _ => 0) 4096 8 200) 4096 8 = 200 ∧
    loadLE (relocateStrings x86_64 textDescriptor 4096 (storeLE (fun _ => 0) 4096 8 200)) 4096 8
      = 4040 ∧
    loadLE (relocateStrings x86_64 textDescriptor 4096 (storeLE (fun _ => 0) 4096 8 300)) 4096 8
      = 4096 + 44 ∧
    loadLE (relocateStrings aarch64 textDescriptor 4096 (storeLE (fun _ => 0) 4096 8 300)) 4096 8
      = 4096 + 44 := by
  decide

/-! ## Round trip -/

set_option maxRecDepth 4096

/-- C1, the code at a failing input.  The table `pairTable` is marshaled into a message at
address 4096 (cursor at the end of the 16-byte fixed part, 256 bytes of capacity): the pull
succeeds, the slot of `second` holds the offset 137 and "hi" is at `4096 + 137`.  After the
relocation loop of `ScriptOnMessageComponent` (signed `char`) the slot of `second` holds
`4096 + 137 - 256 = 3977`, an address under the buffer, and the string read there is not "hi";
the slot of `first` (offset 16) is relocated to `4096 + 16`. -/
theorem roundtrip_fails_from_offset_128 :
    (PullDDFTable x86_64 pairDescriptor pairTable 4096 ⟨fun _ => 0, 4112⟩ 4352).isOk = true ∧
    loadLE (PullDDFTable x86_64 pairDescriptor pairTable 4096 ⟨fun _ => 0, 4112⟩ 4352).state.mem
      4104 8 = 137 ∧
    readCString (PullDDFTable x86_64 pairDescriptor pairTable 4096
      ⟨fun _ => 0, 4112⟩ 4352).state.mem (4096 + 137) 3 = some [104, 105] ∧
    loadLE (relocateStrings x86_64 pairDescriptor 4096 (PullDDFTable x86_64 pairDescriptor
      pairTable 4096 ⟨fun _ => 0, 4112⟩ 4352).state.mem) 4096 8 = 4096 + 16 ∧
    loadLE (relocateStrings x86_64 pairDescriptor 4096 (PullDDFTable x86_64 pairDescriptor
      pairTable 4096 ⟨fun _ => 0, 4112⟩ 4352).state.mem) 4104 8 = 3977 ∧
    readCString (relocateStrings x86_64 pairDescriptor 4096 (PullDDFTable x86_64 pairDescriptor
      pairTable 4096 ⟨fun _ => 0, 4112⟩ 4352).state.mem) 3977 3 = some [] := by
  refine ⟨?_, ?_, ?_, ?_, ?_, ?_⟩ <;> decide

/-! ## Absent nested messages -/

theorem LuaValue.isNil_iff (v : LuaValue) : v.isNil = true ↔ v = .nil := by
  cases v <;> simp [LuaValue.isNil]

theorem PullDDFFields_cons (P : Platform) (f : FieldDescriptor) (rest : List FieldDescriptor)
    (entries : List (String × LuaValue)) (message : Nat) (st : PullState) (buffer_last : Nat) :
    PullDDFFields P (f :: rest) entries message st buffer_last
      = if (rawget entries f.m_Name).isNil && f.m_Label != .LABEL_OPTIONAL then
          .raised (.fieldNotSpecified f.m_Name) st
        else
          match PullDDFValue P f (rawget entries f.m_Name) message st buffer_last with
          | .ok st1 => PullDDFFields P rest entries message st1 buffer_last
          | .raised e st1 => .raised e st1 := by
  rw [PullDDFFields]

theorem PullDDFFields_passes (P : Platform) (f : FieldDescriptor) (rest : List FieldDescriptor)
    (entries : List (String × LuaValue)) (message : Nat) (st : PullState) (buffer_last : Nat)
    (h : (rawget entries f.m_Name).isNil = false ∨ f.m_Label = .LABEL_OPTIONAL) :
    PullDDFFields P (f :: rest) entries message st buffer_last
      = match PullDDFValue P f (rawget entries f.m_Name) message st buffer_last with
        | .ok st1 => PullDDFFields P rest entries message st1 buffer_last
        | .raised e st1 => .raised e st1 := by
  rw [PullDDFFields_cons]
  have h1 : ((rawget entries f.m_Name).isNil && f.m_Label != .LABEL_OPTIONAL) = false := by
    rcases h with h | h
    · simp [h]
    · simp [h]
  simp only [h1, Bool.false_eq_true, if_false]

theorem PullDDFFields_missing (P : Platform) (f : FieldDescriptor) (rest : List FieldDescriptor)
    (entries : List (String × LuaValue)) (message : Nat) (st : PullState) (buffer_last : Nat)
    (hreq : f.m_Label ≠ .LABEL_OPTIONAL) (habs : (rawget entries f.m_Name).isNil = true) :
    PullDDFFields P (f :: rest) entries message st buffer_last
      = .raised (.fieldNotSpecified f.m_Name) st := by
  rw [PullDDFFields_cons]
  simp [habs, hreq]

theorem PullDDFFields_append (P : Platform) (pre post : List FieldDescriptor)
    (entries : List (String × LuaValue)) (message : Nat) (st : PullState) (buffer_last : Nat) :
    PullDDFFields P (pre ++ post) entries message st buffer_last
      = match PullDDFFields P pre entries message st buffer_last with
        | .ok st1 => PullDDFFields P post entries message st1 buffer_last
        | .raised e st1 => .raised e st1 := by
  induction pre generalizing st with
  | nil => simp [PullDDFFields]
  | cons g pre ih =>
    rw [List.cons_append, PullDDFFields_cons, PullDDFFields_cons]
    split
    · rfl
    · cases hv : PullDDFValue P g (rawget entries g.m_Name) message st buffer_last with
      | ok st1 => simp only [ih]
      | raised e st1 => rfl

theorem PullDDFFields_not_ok_of_missing (P : Platform) (fields : List FieldDescriptor)
    (entries : List (String × LuaValue)) (message : Nat) (st : PullState) (buffer_last : Nat)
    (f : FieldDescriptor) (hf : f ∈ fields) (hreq : f.m_Label ≠ .LABEL_OPTIONAL)
    (habs : (rawget entries f.m_Name).isNil = true) :
    (PullDDFFields P fields entries message st buffer_last).isOk = false := by
  obtain ⟨pre, post, rfl⟩ := List.append_of_mem hf
  rw [PullDDFFields_append]
  cases PullDDFFields P pre entries message st buffer_last with
  | ok st1 =>
    simp only [PullDDFFields_missing P f post entries message st1 buffer_last hreq habs]
    rfl
  | raised e st1 => rfl

theorem PullDDFTable_table (P : Platform) (d : Descriptor) (entries : List (String × LuaValue))
    (message : Nat) (st : PullState) (buffer_last : Nat) :
    PullDDFTable P d (.table entries) message st buffer_last
      = PullDDFFields P d.m_Fields entries message st buffer_last := by
  cases d with
  | mk size fields => simp [PullDDFTable, Descriptor.m_Fields]

/-- C5 as stated fails: the required field `amount` is absent from the table, yet
`PullDDFTable` fails with the buffer-full error raised for the field `text` declared before it
(one byte of room for the three bytes of "hi"), not with the missing-field error. -/
theorem PullDDFTable_missing_field_other_error :
    (rawget [("text", .string [104, 105])] "amount").isNil = true ∧
    (PullDDFTable x86_64 requiredPair (.table [("text", .string [104, 105])]) 4096
      ⟨fun _ => 0, 4112⟩ 4113).error? = some .dataDoesntFit := by
  decide

/-- C5 as amended.  If a field declared by the descriptor is not labelled optional and its name
is absent from the table, `PullDDFTable` does not report success; it fails with the
missing-field error of that field, raised in the state reached so far, whenever the fields
declared before it have all been pulled successfully (otherwise with the error of the first
field that failed); and a field that is present, or absent but optional, is passed on to
`PullDDFValue`, the loop going on after a normal return and stopping at an error. -/
theorem PullDDFTable_missing_required (P : Platform) (d : Descriptor)
    (entries : List (String × LuaValue)) (message : Nat) (st : PullState) (buffer_last : Nat)
    (f : FieldDescriptor) (hf : f ∈ d.m_Fields) (hreq : f.m_Label ≠ .LABEL_OPTIONAL)
    (habs : (rawget entries f.m_Name).isNil = true) :
    (PullDDFTable P d (.table entries) message st buffer_last).isOk = false ∧
    (∀ pre post st1, d.m_Fields = pre ++ f :: post →
      PullDDFFields P pre entries message st buffer_last = .ok st1 →
      PullDDFTable P d (.table entries) message st buffer_last
        = .raised (.fieldNotSpecified f.m_Name) st1) ∧
    (∀ pre post e st1, d.m_Fields = pre ++ f :: post →
      PullDDFFields P pre entries message st buffer_last = .raised e st1 →
      PullDDFTable P d (.table entries) message st buffer_last = .raised e st1) ∧
    (∀ g rest st0, (rawget entries g.m_Name).isNil = false ∨ g.m_Label = .LABEL_OPTIONAL →
      PullDDFFields P (g :: rest) entries message st0 buffer_last
        = match PullDDFValue P g (rawget entries g.m_Name) message st0 buffer_last with
          | .ok st1 => PullDDFFields P rest entries message st1 buffer_last
          | .raised e st1 => .raised e st1) := by
  rw [PullDDFTable_table]
  refine ⟨PullDDFFields_not_ok_of_missing P _ entries message st buffer_last f hf hreq habs,
    ?_, ?_, ?_⟩
  · intro pre post st1 hd hpre
    rw [hd, PullDDFFields_append, hpre]
    exact PullDDFFields_missing P f post entries message st1 buffer_last hreq habs
  · intro pre post e st1 hd hpre
    rw [hd, PullDDFFields_append, hpre]
  · intro g rest st0 h
    exact PullDDFFields_passes P g rest entries message st0 buffer_last h

/-- Witness of C5: the table lacks the required field `amount` of `requiredPair`, and there is
room for the string. -/
theorem PullDDFTable_missing_required_witness :
    (PullDDFTable x86_64 requiredPair (.table [("text", .string [104, 105])]) 4096
      ⟨fun _ => 0, 4112⟩ 4352).isOk = false :=
  (PullDDFTable_missing_required x86_64 requiredPair [("text", .string [104, 105])] 4096
    ⟨fun _ => 0, 4112⟩ 4352 (.mk "amount" .TYPE_INT32 .LABEL_REQUIRED none 8)
    (by simp [requiredPair, Descriptor.m_Fields]) (by decide) (by decide)).1

/-! ## Absent optional fields -/

/-- C6 as stated fails: with the cursor at the limit (a message whose fixed part fills the
buffer), the optional string `source` absent from `{amount = 10}` is not written as an empty
string; `PullDDFTable` raises the buffer-full error. -/
theorem PullDDFTable_absent_string_no_room :
    (rawget [("amount", .number 10)] "source").isNil = true ∧
    (PullDDFTable x86_64 hitDescriptor hitTable 4096 ⟨fun _ => 0, 4112⟩ 4112).isOk = false ∧
    (PullDDFTable x86_64 hitDescriptor hitTable 4096 ⟨fun _ => 0, 4112⟩ 4112).error?
      = some .dataDoesntFit := by
  decide

theorem PullDDFValue_scalar_nil (P : Platform) (name : String) (type : DDFType)
    (label : DDFLabel) (md : Option Descriptor) (offset message : Nat) (st : PullState)
    (buffer_last : Nat)
    (ht : type = .TYPE_INT32 ∨ type = .TYPE_UINT32 ∨ type = .TYPE_FLOAT) :
    PullDDFValue P (.mk name type label md offset) .nil message st buffer_last
      = .ok { st with mem := storeLE st.mem (message + offset) 4 0 } := by
  rcases ht with h | h | h <;> subst h <;> simp [PullDDFValue, LuaValue.isNil]

theorem hit_pull (P : Platform) (mem0 : Mem) (base limit : Nat) (hroom : base + 17 ≤ limit) :
    PullDDFTable P hitDescriptor hitTable base ⟨mem0, base + 16⟩ limit
      = .ok { mem := storeLE (memcpy (storeLE mem0 (base + 0) 4 10) (base + 16) [0])
                (base + 8) P.ptrBytes (ptrDiff P (base + 16) base),
              buffer := base + 16 + 1 } := by
  have h1 : PullDDFValue P (.mk "amount" .TYPE_INT32 .LABEL_REQUIRED none 0) (.number 10) base
      ⟨mem0, base + 16⟩ limit = .ok ⟨storeLE mem0 (base + 0) 4 10, base + 16⟩ := by
    simp [PullDDFValue, LuaValue.isNil, luaL_checkinteger, toWord32]
  have h2 := PullDDFValue_string_nil P "source" .LABEL_OPTIONAL none 8 base
    ⟨storeLE mem0 (base + 0) 4 10, base + 16⟩ limit
  rw [pullString_fits P [] 8 base _ limit (by simp [strlen, cstr]; omega)] at h2
  rw [hitTable, PullDDFTable_table]
  simp only [hitDescriptor, Descriptor.m_Fields]
  rw [PullDDFFields_passes P _ _ _ _ _ _ (Or.inl (by decide))]
  have hv : rawget [("amount", LuaValue.number 10)]
      (FieldDescriptor.mk "amount" .TYPE_INT32 .LABEL_REQUIRED none 0).m_Name = .number 10 := by
    simp [rawget, FieldDescriptor.m_Name]
  rw [hv, h1]
  simp only []
  rw [PullDDFFields_passes P (.mk "source" .TYPE_STRING .LABEL_OPTIONAL none 8) _ _ _ _ _
    (Or.inr rfl)]
  have hv2 : rawget [("amount", LuaValue.number 10)]
      (FieldDescriptor.mk "source" .TYPE_STRING .LABEL_OPTIONAL none 8).m_Name = .nil := by
    simp [rawget, FieldDescriptor.m_Name]
  rw [hv2, h2]
  simp [PullDDFFields, strlen, cstr]

/-- C6 as amended.  For an optional field that is absent from the source table, the loop of
`PullDDFTable` hands `nil` to `PullDDFValue`.  For int32, uint32 and float, whatever the
cursor, the limit and the place of the slot, `PullDDFValue` then succeeds and writes four zero
bytes in the slot (0, 0 and 0.0), the cursor and the rest of memory staying as they were.  For
a string: with no byte left between cursor and limit it raises the buffer-full error and
leaves memory and cursor as they were; with one byte left at least, the slot lying in the
fixed part under the cursor and the offset fitting a pointer, it writes a single terminator at
the cursor and, in the slot, the offset of that terminator, the cursor advancing by one.  In
particular, with at least one byte of room after the 16-byte fixed part, marshaling
`{amount = 10}` against (`amount`: int32 required, `source`: string optional) succeeds,
`amount` reads 10 and `source` decodes to the empty string. -/
theorem PullDDFTable_absent_optional (P : Platform) (name : String) (md : Option Descriptor)
    (offset message : Nat) (st : PullState) (buffer_last : Nat) :
    (∀ type rest entries, (rawget entries name).isNil = true →
      PullDDFFields P (.mk name type .LABEL_OPTIONAL md offset :: rest) entries message st
          buffer_last
        = match PullDDFValue P (.mk name type .LABEL_OPTIONAL md offset) .nil message st
            buffer_last with
          | .ok st1 => PullDDFFields P rest entries message st1 buffer_last
          | .raised e st1 => .raised e st1) ∧
    (∀ type, type = .TYPE_INT32 ∨ type = .TYPE_UINT32 ∨ type = .TYPE_FLOAT →
      ∃ st' : PullState,
        PullDDFValue P (.mk name type .LABEL_OPTIONAL md offset) .nil message st buffer_last
          = .ok st' ∧
        loadLE st'.mem (message + offset) 4 = 0 ∧ st'.buffer = st.buffer ∧
        (∀ a, ¬ (message + offset ≤ a ∧ a < message + offset + 4) → st'.mem a = st.mem a)) ∧
    (st.buffer + 1 > buffer_last →
      PullDDFValue P (.mk name .TYPE_STRING .LABEL_OPTIONAL md offset) .nil message st
        buffer_last = .raised .dataDoesntFit st) ∧
    (st.buffer + 1 ≤ buffer_last → message + offset + P.ptrBytes ≤ st.buffer →
      st.buffer - message < 2 ^ (8 * P.ptrBytes) →
      ∃ st' : PullState,
        PullDDFValue P (.mk name .TYPE_STRING .LABEL_OPTIONAL md offset) .nil message st
          buffer_last = .ok st' ∧
        loadLE st'.mem (message + offset) P.ptrBytes = st.buffer - message ∧
        st'.mem st.buffer = 0 ∧
        readCString st'.mem (message + loadLE st'.mem (message + offset) P.ptrBytes) 1
          = some [] ∧
        st'.buffer = st.buffer + 1) ∧
    (∀ mem0 base limit, base + 17 ≤ limit → 1 ≤ P.ptrBytes → P.ptrBytes ≤ 8 →
      ∃ st' : PullState,
        PullDDFTable P hitDescriptor hitTable base ⟨mem0, base + 16⟩ limit = .ok st' ∧
        loadInt32 st'.mem base = 10 ∧
        loadLE st'.mem (base + 8) P.ptrBytes = 16 ∧
        readCString st'.mem (base + loadLE st'.mem (base + 8) P.ptrBytes) 1 = some []) := by
  refine ⟨?_, ?_, ?_, ?_, ?_⟩
  · intro type rest entries habs
    have h := PullDDFFields_passes P (.mk name type .LABEL_OPTIONAL md offset) rest entries
      message st buffer_last (Or.inr rfl)
    rw [h]
    have hv : rawget entries (FieldDescriptor.mk name type .LABEL_OPTIONAL md offset).m_Name
        = .nil := (LuaValue.isNil_iff _).mp habs
    rw [hv]
  · intro type ht
    refine ⟨_, PullDDFValue_scalar_nil P name type .LABEL_OPTIONAL md offset message st
      buffer_last ht, ?_, rfl, ?_⟩
    · show loadLE (storeLE _ _ _ _) _ _ = _
      rw [loadLE_storeLE]
      rfl
    · intro a ha
      show storeLE _ _ _ _ _ = _
      exact storeLE_outside _ _ _ _ _ ha
  · intro hfull
    rw [PullDDFValue_string_nil]
    exact pullString_full P [] offset message st buffer_last
      (by simpa [strlen, cstr] using hfull)
  · intro hroom hslot hrange
    obtain ⟨st', h1, _, h3, h4, h5, h6, _⟩ :=
      pullString_append P offset [] message st buffer_last (by simpa [strlen, cstr] using hroom)
        hslot hrange
    refine ⟨st', ?_, h5, ?_, ?_, ?_⟩
    · rw [PullDDFValue_string_nil]
      exact h1
    · simpa [strlen, cstr] using h3
    · rw [h5]
      have : message + (st.buffer - message) = st.buffer := by omega
      rw [this]
      simpa [strlen, cstr] using h4
    · simpa [strlen, cstr] using h6
  · intro mem0 base limit hroom1 hp1 hp8
    have hpow : 16 < 2 ^ (8 * P.ptrBytes) := by
      calc 16 < 2 ^ 8 := by norm_num
        _ ≤ 2 ^ (8 * P.ptrBytes) := Nat.pow_le_pow_right (by norm_num) (by omega)
    have hd : ptrDiff P (base + 16) base = 16 := by
      rw [ptrDiff_eq P _ _ (by omega) (by simpa using hpow)]
      omega
    have hslotv : loadLE (storeLE (memcpy (storeLE mem0 (base + 0) 4 10) (base + 16) [0])
        (base + 8) P.ptrBytes (ptrDiff P (base + 16) base)) (base + 8) P.ptrBytes = 16 := by
      rw [loadLE_storeLE_of_lt _ _ _ _ (by rw [← pow_ptr, hd]; exact hpow), hd]
    refine ⟨_, hit_pull P mem0 base limit hroom1, ?_, hslotv, ?_⟩
    · have h4 : loadLE (storeLE (memcpy (storeLE mem0 (base + 0) 4 10) (base + 16) [0])
          (base + 8) P.ptrBytes (ptrDiff P (base + 16) base)) base 4 = 10 := by
        rw [loadLE_congr _ (storeLE mem0 (base + 0) 4 10) 4 base]
        · rw [Nat.add_zero, loadLE_storeLE]
          rfl
        · intro x hx1 hx2
          rw [storeLE_outside _ _ _ _ _ (by omega), memcpy_outside _ _ _ _ (by simp; omega)]
      simp only [loadInt32]
      rw [h4]
      rfl
    · simp only []
      rw [hslotv]
      have hz : storeLE (memcpy (storeLE mem0 (base + 0) 4 10) (base + 16) [0])
          (base + 8) P.ptrBytes (ptrDiff P (base + 16) base) (base + 16) = 0 := by
        rw [storeLE_outside _ _ _ _ _ (by omega)]
        have := memcpy_inside (storeLE mem0 (base + 0) 4 10) (base + 16) [0] 0 (by simp)
        simpa using this
      simp only [Nat.add_zero] at hz
      simp [readCString, hz]

/-- Witness of C6: the slot of `source` at offset 8 of a message at 4096, cursor 4112 and
limit 4352; and an optional int32 in the last four bytes of a message of 8 bytes at 4096, the
cursor being at the limit 4104: the zero is written, where the empty string of an optional
string raises the buffer-full error. -/
theorem PullDDFTable_absent_optional_witness :
    (PullDDFTable x86_64 hitDescriptor hitTable 4096 ⟨fun _ => 255, 4096 + 16⟩ 4352).isOk
      = true ∧
    loadInt32 (PullDDFTable x86_64 hitDescriptor hitTable 4096
      ⟨fun _ => 255, 4096 + 16⟩ 4352).state.mem 4096 = 10 ∧
    loadLE (PullDDFTable x86_64 hitDescriptor hitTable 4096
      ⟨fun _ => 255, 4096 + 16⟩ 4352).state.mem (4096 + 8) x86_64.ptrBytes = 16 ∧
    (PullDDFValue x86_64 (.mk "n" .TYPE_INT32 .LABEL_OPTIONAL none 4) .nil 4096
      ⟨fun _ => 255, 4104⟩ 4104).isOk = true ∧
    loadLE (PullDDFValue x86_64 (.mk "n" .TYPE_INT32 .LABEL_OPTIONAL none 4) .nil 4096
      ⟨fun _ => 255, 4104⟩ 4104).state.mem (4096 + 4) 4 = 0 ∧
    (PullDDFValue x86_64 (.mk "n" .TYPE_STRING .LABEL_OPTIONAL none 4) .nil 4096
      ⟨fun _ => 255, 4104⟩ 4104).error? = some .dataDoesntFit := by
  obtain ⟨st', h1, h2, h3, _⟩ :=
    (PullDDFTable_absent_optional x86_64 "source" none 8 4096 ⟨fun _ => 255, 4112⟩
      4352).2.2.2.2 (fun _ => 255) 4096 4352 (by decide) (by decide) (by decide)
  obtain ⟨st2, k1, k2, _⟩ :=
    (PullDDFTable_absent_optional x86_64 "n" none 4 4096 ⟨fun _ => 255, 4104⟩
      4104).2.1 .TYPE_INT32 (Or.inl rfl)
  have k3 := (PullDDFTable_absent_optional x86_64 "n" none 4 4096 ⟨fun _ => 255, 4104⟩
      4104).2.2.1 (by decide)
  rw [h1, k1, k3]
  exact ⟨rfl, h2, h3, rfl, k2, rfl⟩

/-! ## The cursor invariant -/

theorem pullInv_refl (slots : Nat → Bool) (limit : Nat) (st : PullState) :
    pullInv slots limit st st :=
  ⟨Nat.le_refl _, fun h => h, fun _ _ _ => rfl⟩

theorem pullInv_trans (s1 s2 s : Nat → Bool) (limit : Nat) (st st1 st2 : PullState)
    (h1 : pullInv s1 limit st st1) (h2 : pullInv s2 limit st1 st2)
    (hs1 : ∀ a, s a = false → s1 a = false) (hs2 : ∀ a, s a = false → s2 a = false) :
    pullInv s limit st st2 := by
  obtain ⟨a1, b1, c1⟩ := h1
  obtain ⟨a2, b2, c2⟩ := h2
  refine ⟨by omega, fun h => b2 (b1 h), ?_⟩
  intro a hs hr
  rw [c2 a (hs2 a hs) (by omega), c1 a (hs1 a hs) (by omega)]

theorem pullInv_store (slots : Nat → Bool) (limit : Nat) (st : PullState) (a n v : Nat)
    (hs : ∀ x, a ≤ x ∧ x < a + n → slots x = true) :
    pullInv slots limit st { st with mem := storeLE st.mem a n v } := by
  refine ⟨Nat.le_refl _, fun h => h, ?_⟩
  intro x hx _
  show storeLE _ _ _ _ _ = _
  apply storeLE_outside
  intro hin
  rw [hs x hin] at hx
  exact absurd hx (by simp)

theorem pullInv_pullString (P : Platform) (slots : Nat → Bool) (s : List Byte)
    (offset message : Nat) (st : PullState) (limit : Nat)
    (hs : ∀ x, message + offset ≤ x ∧ x < message + offset + P.ptrBytes → slots x = true) :
    pullInv slots limit st (pullString P s offset message st limit).state := by
  by_cases h : st.buffer + strlen s + 1 > limit
  · rw [pullString_full P s offset message st limit h]
    exact pullInv_refl _ _ _
  · rw [pullString_fits P s offset message st limit (by omega)]
    refine ⟨?_, ?_, ?_⟩
    · show st.buffer ≤ st.buffer + (strlen s + 1)
      omega
    · intro _
      show st.buffer + (strlen s + 1) ≤ limit
      omega
    · intro x hx hr
      show storeLE _ _ _ _ _ = _
      have hr1 : ¬ (st.buffer ≤ x ∧ x < st.buffer + (strlen s + 1)) := hr
      rw [storeLE_outside, memcpy_outside]
      · simpa [strlen] using hr1
      · intro hin
        rw [hs x hin] at hx
        exact absurd hx (by simp)

mutual
theorem PullDDFValue_inv (P : Platform) (f : FieldDescriptor) (v : LuaValue) (message : Nat)
    (st : PullState) (limit : Nat) :
    pullInv (fieldSlots P f message) limit st (PullDDFValue P f v message st limit).state := by
  match f with
  | .mk name type label msgDesc offset =>
    unfold PullDDFValue
    cases type with
    | TYPE_INT32 =>
      have hs : ∀ x, message + offset ≤ x ∧ x < message + offset + 4 →
          fieldSlots P (.mk name .TYPE_INT32 label msgDesc offset) message x = true := by
        intro x hx; simp [fieldSlots, hx]
      simp only []
      split
      · exact pullInv_store _ _ _ _ _ _ hs
      · split
        · exact pullInv_store _ _ _ _ _ _ hs
        · exact pullInv_refl _ _ _
    | TYPE_UINT32 =>
      have hs : ∀ x, message + offset ≤ x ∧ x < message + offset + 4 →
          fieldSlots P (.mk name .TYPE_UINT32 label msgDesc offset) message x = true := by
        intro x hx; simp [fieldSlots, hx]
      simp only []
      split
      · exact pullInv_store _ _ _ _ _ _ hs
      · split
        · exact pullInv_store _ _ _ _ _ _ hs
        · exact pullInv_refl _ _ _
    | TYPE_FLOAT =>
      have hs : ∀ x, message + offset ≤ x ∧ x < message + offset + 4 →
          fieldSlots P (.mk name .TYPE_FLOAT label msgDesc offset) message x = true := by
        intro x hx; simp [fieldSlots, hx]
      simp only []
      split
      · exact pullInv_store _ _ _ _ _ _ hs
      · split
        · exact pullInv_store _ _ _ _ _ _ hs
        · exact pullInv_refl _ _ _
    | TYPE_STRING =>
      have hs : ∀ x, message + offset ≤ x ∧ x < message + offset + P.ptrBytes →
          fieldSlots P (.mk name .TYPE_STRING label msgDesc offset) message x = true := by
        intro x hx; simp [fieldSlots, hx]
      simp only []
      split
      · exact pullInv_pullString P _ _ _ _ _ _ hs
      · split
        · exact pullInv_pullString P _ _ _ _ _ _ hs
        · exact pullInv_refl _ _ _
    | TYPE_MESSAGE =>
      simp only []
      split
      · exact pullInv_refl _ _ _
      · match msgDesc with
        | some d =>
          have h := PullDDFTable_inv P d v (message + offset) st limit
          simpa [fieldSlots] using h
        | none => exact pullInv_refl _ _ _
    | other code => exact pullInv_refl _ _ _
theorem PullDDFTable_inv (P : Platform) (d : Descriptor) (v : LuaValue) (message : Nat)
    (st : PullState) (limit : Nat) :
    pullInv (descriptorSlots P d message) limit st (PullDDFTable P d v message st limit).state := by
  match d with
  | .mk size fields =>
    unfold PullDDFTable
    split
    · rename_i entries
      have h := PullDDFFields_inv P fields entries message st limit
      simpa [descriptorSlots] using h
    · exact pullInv_refl _ _ _
theorem PullDDFFields_inv (P : Platform) (fields : List FieldDescriptor)
    (entries : List (String × LuaValue)) (message : Nat) (st : PullState) (limit : Nat) :
    pullInv (fieldListSlots P fields message) limit st
      (PullDDFFields P fields entries message st limit).state := by
  match fields with
  | [] =>
    unfold PullDDFFields
    exact pullInv_refl _ _ _
  | f :: rest =>
    rw [PullDDFFields_cons]
    split
    · exact pullInv_refl _ _ _
    · have h1 := PullDDFValue_inv P f (rawget entries f.m_Name) message st limit
      have hsl : ∀ a, fieldListSlots P (f :: rest) message a = false →
          fieldSlots P f message a = false := by
        intro a ha
        simp [fieldListSlots] at ha
        exact ha.1
      have hsr : ∀ a, fieldListSlots P (f :: rest) message a = false →
          fieldListSlots P rest message a = false := by
        intro a ha
        simp [fieldListSlots] at ha
        exact ha.2
      cases hv : PullDDFValue P f (rawget entries f.m_Name) message st limit with
      | ok st1 =>
        rw [hv] at h1
        have h2 := PullDDFFields_inv P rest entries message st1 limit
        exact pullInv_trans _ _ _ _ _ _ _ h1 h2 hsl hsr
      | raised e st1 =>
        rw [hv] at h1
        exact pullInv_trans _ _ _ _ _ _ _ h1 (pullInv_refl (fun _ => false) _ _) hsl
          (fun _ _ => rfl)
end

theorem setGlobal_globals (k : String) (v : LuaValue) (L : LuaState) (x : String) :
    (setGlobal k v L).env.globals x = if x = k then v else L.env.globals x := rfl

theorem lua_push_env (v : LuaValue) (L : LuaState) : (lua_push v L).env = L.env := rfl

theorem lua_pop_env (n : Nat) (L : LuaState) : (lua_pop n L).env = L.env := rfl

theorem lua_rawgeti_env (ref : Int) (L : LuaState) : (lua_rawgeti ref L).env = L.env := rfl

theorem lua_pcall_env (I : Interp) (nargs : Nat) (L : LuaState) :
    (lua_pcall I nargs L).2.env
      = (I.call ((L.stack.drop nargs).headD .nil) (L.stack.take nargs).reverse L.env).2 := by
  unfold lua_pcall
  simp only []
  generalize I.call ((L.stack.drop nargs).headD .nil) (L.stack.take nargs).reverse L.env = r
  rcases r with ⟨o, env1⟩
  cases o <;> rfl

theorem lua_pcall_ambient (I : Interp) (hI : preservesAmbient I) (nargs : Nat) (L : LuaState)
    (k : String) (hk : k ∈ ambientSlots) :
    (lua_pcall I nargs L).2.env.globals k = L.env.globals k := by
  rw [lua_pcall_env]
  exact hI _ _ _ k hk

theorem RunScript_ambient (I : Interp) (collection : Nat) (script : Script)
    (script_function : ScriptFunction) (script_instance : ScriptInstance)
    (update_context : Nat) (L : LuaState) (hL : ambientEmpty L) :
    ambientEmpty (RunScript I collection script script_function script_instance
      update_context L).2 := by
  unfold RunScript
  split
  · intro k hk
    simp only [ambientSlots, List.mem_cons, List.mem_singleton, List.not_mem_nil, or_false] at hk
    rcases hk with rfl | rfl | rfl <;> simp [setGlobal_globals]
  · exact hL

theorem ScriptOnMessageComponent_ambient (P : Platform) (I : Interp) (hI : preservesAmbient I)
    (instance_ : Instance) (instance_message_data : InstanceMessageData)
    (script_instance : ScriptInstance) (mem : Mem) (L : LuaState) (hL : ambientEmpty L) :
    ambientEmpty (ScriptOnMessageComponent P I instance_ instance_message_data script_instance
      mem L).2.2 := by
  unfold ScriptOnMessageComponent
  simp only []
  split
  · intro k hk
    simp only [ambientSlots, List.mem_cons, List.mem_singleton, List.not_mem_nil, or_false] at hk
    have huc : L.env.globals "__update_context__" = .nil := hL _ (by simp [ambientSlots])
    rcases hk with rfl | rfl | rfl
    · simp [setGlobal_globals]
    · simp [setGlobal_globals]
    · simp only [setGlobal_globals]
      simp only [show ("__update_context__" = "__instance__") = False from by decide,
        show ("__update_context__" = "__collection__") = False from by decide, if_false]
      split
      · rw [lua_pop_env, lua_pcall_ambient I hI _ _ _ (by simp [ambientSlots])]
        split <;> simp [lua_push_env, lua_rawgeti_env, setGlobal_globals, huc]
      · rw [lua_pcall_ambient I hI _ _ _ (by simp [ambientSlots])]
        split <;> simp [lua_push_env, lua_rawgeti_env, setGlobal_globals, huc]
  · exact hL

theorem ScriptOnInputComponent_ambient (I : Interp) (hI : preservesAmbient I)
    (instance_ : Instance) (input_action : InputAction) (script_instance : ScriptInstance)
    (L : LuaState) (hL : ambientEmpty L) :
    ambientEmpty (ScriptOnInputComponent I instance_ input_action script_instance L).2 := by
  unfold ScriptOnInputComponent
  simp only []
  split
  · intro k hk
    simp only [ambientSlots, List.mem_cons, List.mem_singleton, List.not_mem_nil, or_false] at hk
    have huc : L.env.globals "__update_context__" = .nil := hL _ (by simp [ambientSlots])
    have hcall := lua_pcall_ambient I hI 3
      (lua_push (actionTable input_action) (lua_push (I.PushHash input_action.m_ActionId)
        (lua_rawgeti script_instance.m_InstanceReference
          (lua_rawgeti (script_instance.m_Script.m_FunctionReferences .SCRIPT_FUNCTION_ONINPUT)
            (setGlobal "__instance__" (.lightuserdata script_instance.m_Instance)
              (setGlobal "__collection__" (.lightuserdata instance_.m_Collection) L))))))
      "__update_context__" (by simp [ambientSlots])
    simp only [lua_push_env, lua_rawgeti_env, setGlobal_globals,
      show ("__update_context__" = "__instance__") = False from by decide,
      show ("__update_context__" = "__collection__") = False from by decide, if_false,
      huc] at hcall
    rcases hk with rfl | rfl | rfl
    · simp [setGlobal_globals]
    · simp [setGlobal_globals]
    · simp only [setGlobal_globals]
      simp only [show ("__update_context__" = "__instance__") = False from by decide,
        show ("__update_context__" = "__collection__") = False from by decide, if_false]
      split
      · rw [lua_pop_env]; exact hcall
      · split
        · split
          · rw [lua_pop_env]; exact hcall
          · split
            · rw [lua_pop_env]; exact hcall
            · rw [lua_pop_env]; exact hcall
        · exact hcall
  · exact hL

/-- C9.  Entered with the three ambient globals `__collection__`, `__instance__` and
`__update_context__` unbound, each of `RunScript`, `ScriptOnMessageComponent` and
`ScriptOnInputComponent` returns with the three unbound again, for every script (slot present
or not) and every behaviour of the called function (normal return or error), the script code
being assumed not to assign these globals. -/
theorem dispatch_unbinds_ambient (P : Platform) (I : Interp) (hI : preservesAmbient I)
    (L : LuaState) (hL : ambientEmpty L) (collection : Nat) (script : Script)
    (script_function : ScriptFunction) (script_instance : ScriptInstance)
    (update_context : Nat) (instance_ : Instance) (instance_message_data : InstanceMessageData)
    (mem : Mem) (input_action : InputAction) :
    (∀ k, k ∈ ambientSlots →
      (RunScript I collection script script_function script_instance update_context
        L).2.env.globals k = .nil) ∧
    (∀ k, k ∈ ambientSlots →
      (ScriptOnMessageComponent P I instance_ instance_message_data script_instance mem
        L).2.2.env.globals k = .nil) ∧
    (∀ k, k ∈ ambientSlots →
      (ScriptOnInputComponent I instance_ input_action script_instance L).2.env.globals k
        = .nil) := by
  refine ⟨?_, ?_, ?_⟩
  · exact RunScript_ambient I collection script script_function script_instance
      update_context L hL
  · exact ScriptOnMessageComponent_ambient P I hI instance_ instance_message_data
      script_instance mem L hL
  · exact ScriptOnInputComponent_ambient I hI instance_ input_action script_instance L hL

/-- Witness of C9: the three dispatches of a script whose functions raise, from the empty
state; `update` fails and the collection global is unbound on return. -/
theorem dispatch_unbinds_ambient_witness :
    (RunScript raisingInterp 64 fullScript .SCRIPT_FUNCTION_UPDATE ⟨fullScript, 128, 2, 3⟩ 256
      emptyState).1 = .SCRIPT_RESULT_FAILED ∧
    (RunScript raisingInterp 64 fullScript .SCRIPT_FUNCTION_UPDATE ⟨fullScript, 128, 2, 3⟩ 256
      emptyState).2.env.globals "__collection__" = .nil ∧
    (ScriptOnInputComponent raisingInterp ⟨64, 0⟩ ⟨5, 1, true, false, false⟩
      ⟨fullScript, 128, 2, 3⟩ emptyState).2.env.globals "__instance__" = .nil := by
  have h := dispatch_unbinds_ambient x86_64 raisingInterp (fun _ _ _ _ _ => rfl) emptyState
    (fun _ _ => rfl) 64 fullScript .SCRIPT_FUNCTION_UPDATE ⟨fullScript, 128, 2, 3⟩ 256 ⟨64, 0⟩
    ⟨7, none, 128, 0, 4096⟩ (fun _ => 0) ⟨5, 1, true, false, false⟩
  exact ⟨by decide, h.1 _ (by simp [ambientSlots]), h.2.2 _ (by simp [ambientSlots])⟩

/-! ## Loading a script module -/

theorem captureFunctions_cons (i : ScriptFunction) (rest : List ScriptFunction)
    (script : Script) (L : LuaState) :
    captureFunctions (i :: rest) script L
      = if (L.env.globals (SCRIPT_FUNCTION_NAMES i)).isNil = false then
          if (L.env.globals (SCRIPT_FUNCTION_NAMES i)).isFunction then
            captureFunctions rest (script.set i ((L.env.refCount : Int) + 1))
              { stack := L.stack, base := L.base,
                env := { globals := L.env.globals,
                         registry := fun r => if r = (L.env.refCount : Int) + 1
                           then L.env.globals (SCRIPT_FUNCTION_NAMES i) else L.env.registry r,
                         refCount := L.env.refCount + 1 } }
          else (false, script, L)
        else captureFunctions rest (script.set i LUA_NOREF) L := by
  rw [captureFunctions]
  simp only [lua_getglobal, lua_top, lua_push, List.headD_cons, lua_pop, List.drop_succ_cons,
    List.drop_zero, luaL_ref]
  cases h1 : (L.env.globals (SCRIPT_FUNCTION_NAMES i)).isNil with
  | false =>
    cases h2 : (L.env.globals (SCRIPT_FUNCTION_NAMES i)).isFunction <;> simp
  | true => simp

theorem LuaValue.not_nil_of_function (v : LuaValue) (h : v.isFunction = true) :
    v.isNil = false := by
  cases v <;> simp_all [LuaValue.isNil, LuaValue.isFunction]

theorem captureFunctions_spec (fns : List ScriptFunction) (script : Script) (L : LuaState) :
    CaptureSpec fns script L (captureFunctions fns script L) := by
  induction fns generalizing script L with
  | nil =>
    refine ⟨rfl, rfl, ?_, Nat.le_refl _, fun _ _ => rfl, fun _ _ => rfl, ?_⟩
    · simp [captureFunctions]
    · intro _ _ i hi
      simp at hi
  | cons i rest ih =>
    rw [captureFunctions_cons]
    cases h1 : (L.env.globals (SCRIPT_FUNCTION_NAMES i)).isNil with
    | false =>
      simp only [if_true]
      cases h2 : (L.env.globals (SCRIPT_FUNCTION_NAMES i)).isFunction with
      | true =>
        simp only [if_true]
        have hr := ih (script.set i ((L.env.refCount : Int) + 1))
          { stack := L.stack, base := L.base,
            env := { globals := L.env.globals,
                     registry := fun r => if r = (L.env.refCount : Int) + 1
                       then L.env.globals (SCRIPT_FUNCTION_NAMES i) else L.env.registry r,
                     refCount := L.env.refCount + 1 } }
        refine ⟨hr.globals, hr.stack, ?_, ?_, ?_, ?_, ?_⟩
        · rw [hr.ok_iff]
          constructor
          · intro h j hj
            rcases List.mem_cons.mp hj with rfl | hj
            · exact Or.inr h2
            · exact h j hj
          · intro h j hj
            exact h j (List.mem_cons_of_mem _ hj)
        · have := hr.count
          simp only [] at this
          omega
        · intro r hrle
          rw [hr.registry r (by simp only []; push_cast; omega)]
          have : r ≠ (L.env.refCount : Int) + 1 := by omega
          simp [this]
        · intro j hj
          rw [hr.others j (fun hm => hj (List.mem_cons_of_mem _ hm))]
          have : j ≠ i := fun he => hj (he ▸ List.mem_cons_self _ _)
          simp [Script.set, this]
        · intro hok hnd j hj
          have hnd2 := List.nodup_cons.mp hnd
          rcases List.mem_cons.mp hj with rfl | hj
          · have hv : (captureFunctions rest (script.set j ((L.env.refCount : Int) + 1))
                { stack := L.stack, base := L.base,
                  env := { globals := L.env.globals,
                           registry := fun r => if r = (L.env.refCount : Int) + 1
                             then L.env.globals (SCRIPT_FUNCTION_NAMES j)
                             else L.env.registry r,
                           refCount := L.env.refCount + 1 } }).2.1.m_FunctionReferences j
                = (L.env.refCount : Int) + 1 := by
              rw [hr.others j hnd2.1]
              simp [Script.set]
            refine ⟨fun _ => ?_, fun hf => ?_⟩
            · rw [hv]
              refine ⟨by omega, ?_, ?_⟩
              · have := hr.count
                simp only [] at this
                omega
              · rw [hr.registry _ (by simp only []; push_cast; omega)]
                simp
            · rw [h2] at hf
              exact absurd hf (by simp)
          · have hc := hr.captured hok hnd2.2 j hj
            refine ⟨fun hf => ?_, hc.2⟩
            have hc1 := hc.1 hf
            simp only [] at hc1
            refine ⟨?_, hc1.2.1, hc1.2.2⟩
            have := hc1.1
            push_cast at this
            omega
      | false =>
        simp only [Bool.false_eq_true, if_false]
        refine ⟨rfl, rfl, ?_, Nat.le_refl _, fun _ _ => rfl, fun _ _ => rfl, ?_⟩
        · constructor
          · intro h
            exact absurd h (by simp)
          · intro h
            rcases h i (List.mem_cons_self _ _) with h3 | h3
            · rw [h3] at h1
              exact absurd h1 (by simp)
            · rw [h3] at h2
              exact absurd h2 (by simp)
        · intro h
          exact absurd h (by simp)
    | true =>
      simp only [Bool.true_eq_false, if_false]
      have hnil : (L.env.globals (SCRIPT_FUNCTION_NAMES i)).isNil = true := h1
      have hnf : (L.env.globals (SCRIPT_FUNCTION_NAMES i)).isFunction = false := by
        cases hf : (L.env.globals (SCRIPT_FUNCTION_NAMES i)).isFunction with
        | false => rfl
        | true =>
          have := LuaValue.not_nil_of_function _ hf
          rw [hnil] at this
          exact absurd this (by simp)
      have hr := ih (script.set i LUA_NOREF) L
      refine ⟨hr.globals, hr.stack, ?_, hr.count, hr.registry, ?_, ?_⟩
      · rw [hr.ok_iff]
        constructor
        · intro h j hj
          rcases List.mem_cons.mp hj with rfl | hj
          · exact Or.inl hnil
          · exact h j hj
        · intro h j hj
          exact h j (List.mem_cons_of_mem _ hj)
      · intro j hj
        rw [hr.others j (fun hm => hj (List.mem_cons_of_mem _ hm))]
        have : j ≠ i := fun he => hj (he ▸ List.mem_cons_self _ _)
        simp [Script.set, this]
      · intro hok hnd j hj
        have hnd2 := List.nodup_cons.mp hnd
        rcases List.mem_cons.mp hj with rfl | hj
        · refine ⟨fun hf => ?_, fun _ => ?_⟩
          · rw [hnf] at hf
            exact absurd hf (by simp)
          · rw [hr.others j hnd2.1]
            simp [Script.set]
        · exact hr.captured hok hnd2.2 j hj

theorem mem_scriptFunctions (i : ScriptFunction) : i ∈ scriptFunctions := by
  cases i <;> simp [scriptFunctions]

theorem scriptFunctions_nodup : scriptFunctions.Nodup := by
  decide

theorem clearFunctionGlobals_registry (L : LuaState) :
    (clearFunctionGlobals L).env.registry = L.env.registry := rfl

theorem LoadScript_load_error (I : Interp) (buffer : List Byte) (filename : String)
    (script : Script) (L : LuaState) (msg : LuaValue)
    (h : I.load buffer filename = .error msg) :
    (LoadScript I buffer filename script L).1 = false := by
  unfold LoadScript
  rw [h]

theorem LoadScript_run_error (I : Interp) (buffer : List Byte) (filename : String)
    (script : Script) (L : LuaState) (chunk msg : LuaValue) (env1 : LuaEnv)
    (h : I.load buffer filename = .ok chunk)
    (hc : I.call chunk [] L.env = (.error msg, env1)) :
    (LoadScript I buffer filename script L).1 = false := by
  unfold LoadScript
  rw [h]
  simp [lua_pcall, lua_push, hc, LUA_ERRRUN]

theorem LoadScript_run_ok (I : Interp) (buffer : List Byte) (filename : String)
    (script : Script) (L : LuaState) (chunk : LuaValue) (results : List LuaValue)
    (env1 : LuaEnv)
    (h : I.load buffer filename = .ok chunk)
    (hc : I.call chunk [] L.env = (.ok results, env1)) :
    LoadScript I buffer filename script L
      = ((captureFunctions scriptFunctions (resetFunctions script)
            { stack := results.reverse ++ L.stack, base := L.base, env := env1 }).1,
         (captureFunctions scriptFunctions (resetFunctions script)
            { stack := results.reverse ++ L.stack, base := L.base, env := env1 }).2.1,
         clearFunctionGlobals (captureFunctions scriptFunctions (resetFunctions script)
            { stack := results.reverse ++ L.stack, base := L.base, env := env1 }).2.2) := by
  unfold LoadScript
  rw [h]
  simp [lua_pcall, lua_push, hc]

/-- C10.  `LoadScript` succeeds exactly when the source compiles, the execution of the chunk
does not raise, and after the execution each of the globals `init`, `update`, `on_message`
and `on_input` is `nil` or a function.  On success the slot of a global that was a function
holds a reference (not `LUA_NOREF`) under which the registry holds that function, and the slot
of a global that was not (it was `nil`) holds `LUA_NOREF`.  `NewScript` returns the loaded
script on success and the null handle on failure. -/
theorem LoadScript_succeeds_iff (I : Interp) (buffer : List Byte) (filename : String)
    (script : Script) (L : LuaState) :
    ((LoadScript I buffer filename script L).1 = true ↔
      ∃ chunk results env1, I.load buffer filename = .ok chunk ∧
        I.call chunk [] L.env = (.ok results, env1) ∧
        ∀ i, (env1.globals (SCRIPT_FUNCTION_NAMES i)).isNil = true ∨
             (env1.globals (SCRIPT_FUNCTION_NAMES i)).isFunction = true) ∧
    (∀ chunk results env1, I.load buffer filename = .ok chunk →
      I.call chunk [] L.env = (.ok results, env1) →
      (LoadScript I buffer filename script L).1 = true →
      ∀ i,
        ((env1.globals (SCRIPT_FUNCTION_NAMES i)).isFunction = true →
          (LoadScript I buffer filename script L).2.1.m_FunctionReferences i ≠ LUA_NOREF ∧
          (LoadScript I buffer filename script L).2.2.env.registry
              ((LoadScript I buffer filename script L).2.1.m_FunctionReferences i)
            = env1.globals (SCRIPT_FUNCTION_NAMES i)) ∧
        ((env1.globals (SCRIPT_FUNCTION_NAMES i)).isFunction = false →
          (LoadScript I buffer filename script L).2.1.m_FunctionReferences i = LUA_NOREF)) ∧
    ((LoadScript I buffer filename script L).1 = false →
      (NewScript I buffer filename script L).1 = none) ∧
    ((LoadScript I buffer filename script L).1 = true →
      (NewScript I buffer filename script L).1
        = some (LoadScript I buffer filename script L).2.1) := by
  refine ⟨?_, ?_, ?_, ?_⟩
  · cases h : I.load buffer filename with
    | error msg =>
      rw [LoadScript_load_error I buffer filename script L msg h]
      simp
    | ok chunk =>
      rcases hc : I.call chunk [] L.env with ⟨o, env1⟩
      cases o with
      | error msg =>
        rw [LoadScript_run_error I buffer filename script L chunk msg env1 h hc]
        simp [hc]
      | ok results =>
        rw [LoadScript_run_ok I buffer filename script L chunk results env1 h hc]
        have hs := captureFunctions_spec scriptFunctions (resetFunctions script)
          { stack := results.reverse ++ L.stack, base := L.base, env := env1 }
        simp only []
        rw [hs.ok_iff]
        constructor
        · intro hall
          exact ⟨chunk, results, env1, rfl, hc, fun i => hall i (mem_scriptFunctions i)⟩
        · rintro ⟨chunk1, results1, env2, h1, h2, hall⟩ i _
          have he : env2 = env1 := by
            have h3 : chunk1 = chunk := by injection h1 with h1; exact h1.symm
            subst h3
            rw [hc] at h2
            injection h2 with _ h2
            exact h2.symm
          subst he
          exact hall i
  · intro chunk results env1 h hc hok i
    rw [LoadScript_run_ok I buffer filename script L chunk results env1 h hc] at hok ⊢
    have hs := captureFunctions_spec scriptFunctions (resetFunctions script)
      { stack := results.reverse ++ L.stack, base := L.base, env := env1 }
    have hcap := hs.captured hok scriptFunctions_nodup i (mem_scriptFunctions i)
    simp only [] at hcap ⊢
    refine ⟨fun hf => ?_, hcap.2⟩
    have h3 := hcap.1 hf
    refine ⟨?_, ?_⟩
    · intro heq
      rw [heq] at h3
      have := h3.1
      simp only [LUA_NOREF] at this
      omega
    · rw [clearFunctionGlobals_registry]
      exact h3.2.2
  · intro hf
    simp [NewScript, hf]
  · intro ht
    simp [NewScript, ht]

/-- A module defining only `update` loads into a script whose `update` slot holds a reference
and whose three other slots hold `LUA_NOREF`. -/
theorem LoadScript_only_update :
    (LoadScript onlyUpdateInterp [] "m.lua" fullScript emptyState).1 = true ∧
    (LoadScript onlyUpdateInterp [] "m.lua" fullScript emptyState).2.1.m_FunctionReferences
      .SCRIPT_FUNCTION_UPDATE = 1 ∧
    (LoadScript onlyUpdateInterp [] "m.lua" fullScript emptyState).2.1.m_FunctionReferences
      .SCRIPT_FUNCTION_INIT = LUA_NOREF ∧
    (LoadScript onlyUpdateInterp [] "m.lua" fullScript emptyState).2.1.m_FunctionReferences
      .SCRIPT_FUNCTION_ONMESSAGE = LUA_NOREF ∧
    (LoadScript onlyUpdateInterp [] "m.lua" fullScript emptyState).2.1.m_FunctionReferences
      .SCRIPT_FUNCTION_ONINPUT = LUA_NOREF := by
  decide

/-! ## Round trip, field by field -/

theorem readCString_congr (m1 m2 : Mem) (fuel a : Nat)
    (h : ∀ x, a ≤ x → x < a + fuel → m1 x = m2 x) :
    readCString m1 a fuel = readCString m2 a fuel := by
  induction fuel generalizing a with
  | zero => rfl
  | succ k ih =>
    simp only [readCString]
    rw [h a (Nat.le_refl a) (by omega), ih (a + 1) (fun x h1 h2 => h x (by omega) (by omega))]

theorem toWord32_lt (n : Int) : toWord32 n < 256 ^ 4 := by
  unfold toWord32
  have h1 : 0 ≤ n % (2 : Int) ^ 32 := Int.emod_nonneg _ (by norm_num)
  have h2 : n % (2 : Int) ^ 32 < (2 : Int) ^ 32 := Int.emod_lt_of_pos _ (by norm_num)
  omega

/-- A signed 32-bit integer pulled into an int32 field is read back unchanged. -/
theorem roundtrip_int32 (P : Platform) (name : String) (label : DDFLabel)
    (md : Option Descriptor) (offset message : Nat) (st : PullState) (buffer_last : Nat)
    (n : Int) (hlo : -(2 : Int) ^ 31 ≤ n) (hhi : n < (2 : Int) ^ 31) :
    ∃ st' : PullState,
      PullDDFValue P (.mk name .TYPE_INT32 label md offset) (.number n) message st buffer_last
        = .ok st' ∧
      loadInt32 st'.mem (message + offset) = n := by
  refine ⟨{ st with mem := storeLE st.mem (message + offset) 4 (toWord32 n) }, ?_, ?_⟩
  · simp [PullDDFValue, LuaValue.isNil, luaL_checkinteger]
  · simp only [loadInt32]
    rw [loadLE_storeLE_of_lt _ _ _ _ (toWord32_lt n)]
    unfold toWord32
    have h1 : 0 ≤ n % (2 : Int) ^ 32 := Int.emod_nonneg _ (by norm_num)
    by_cases hn : 0 ≤ n
    · have h3 : n % (2 : Int) ^ 32 = n := Int.emod_eq_of_lt hn (by omega)
      rw [h3]
      have h4 : n.toNat < 2 ^ 31 := by omega
      simp only [h4, if_true]
      omega
    · have h3 : n % (2 : Int) ^ 32 = n + (2 : Int) ^ 32 := by
        rw [← Int.add_emod_self]
        exact Int.emod_eq_of_lt (by omega) (by omega)
      rw [h3]
      have h4 : ¬ (n + (2 : Int) ^ 32).toNat < 2 ^ 31 := by omega
      simp only [h4, if_false]
      omega

/-- An unsigned 32-bit integer pulled into a uint32 field is read back unchanged. -/
theorem roundtrip_uint32 (P : Platform) (name : String) (label : DDFLabel)
    (md : Option Descriptor) (offset message : Nat) (st : PullState) (buffer_last : Nat)
    (n : Int) (hlo : 0 ≤ n) (hhi : n < (2 : Int) ^ 32) :
    ∃ st' : PullState,
      PullDDFValue P (.mk name .TYPE_UINT32 label md offset) (.number n) message st buffer_last
        = .ok st' ∧
      (loadLE st'.mem (message + offset) 4 : Int) = n := by
  refine ⟨{ st with mem := storeLE st.mem (message + offset) 4 (toWord32 n) }, ?_, ?_⟩
  · simp [PullDDFValue, LuaValue.isNil, luaL_checkinteger]
  · show ((loadLE (storeLE _ _ _ _) _ _ : Nat) : Int) = n
    rw [loadLE_storeLE_of_lt _ _ _ _ (toWord32_lt n)]
    unfold toWord32
    rw [Int.emod_eq_of_lt hlo hhi]
    omega

/-- A string pulled into a top-level string field at a cursor less than 128 bytes from the
base is read back unchanged after the relocation statement of `ScriptOnMessageComponent`:
the relocated slot holds the address of the appended bytes. -/
theorem roundtrip_string_small (P : Platform) (name : String) (label : DDFLabel)
    (md : Option Descriptor) (offset : Nat) (s : List Byte) (base : Nat) (st : PullState)
    (buffer_last : Nat)
    (hfit : st.buffer + strlen s + 1 ≤ buffer_last)
    (hslot : base + offset + P.ptrBytes ≤ st.buffer)
    (hp : 0 < P.ptrBytes)
    (hsmall : st.buffer - base < 128)
    (haddr : st.buffer < 2 ^ (8 * P.ptrBytes)) :
    ∃ st' : PullState,
      PullDDFValue P (.mk name .TYPE_STRING label md offset) (.string s) base st buffer_last
        = .ok st' ∧
      loadLE (relocateField P base st'.mem (.mk name .TYPE_STRING label md offset))
        (base + offset) P.ptrBytes = st.buffer ∧
      readCString (relocateField P base st'.mem (.mk name .TYPE_STRING label md offset))
        st.buffer (strlen s + 1) = some (cstr s) := by
  have hrange : st.buffer - base < 2 ^ (8 * P.ptrBytes) := by omega
  obtain ⟨st', h1, _, _, h4, h5, _, _⟩ :=
    pullString_append P offset s base st buffer_last hfit hslot hrange
  refine ⟨st', ?_, ?_, ?_⟩
  · rw [PullDDFValue_string]
    exact h1
  · rw [relocateField_string_small P base st'.mem name label md offset _ hp h5 hsmall]
    have : base + (st.buffer - base) = st.buffer := by omega
    rw [this, Nat.mod_eq_of_lt haddr]
  · rw [readCString_congr _ st'.mem _ _ _, h4]
    intro x hx1 hx2
    simp only [relocateField, FieldDescriptor.m_Type, FieldDescriptor.m_Offset, if_true]
    exact storeLE_outside _ _ _ _ _ (by omega)

/-! ## Reload -/

theorem resetFunctions_apply (script : Script) (i : ScriptFunction) :
    (resetFunctions script).m_FunctionReferences i = LUA_NOREF := by
  cases i <;> simp [resetFunctions, scriptFunctions, Script.set]

/-- A reload that fails at compilation or while the chunk runs leaves every slot at
`LUA_NOREF`. -/
theorem ReloadScript_cleared_on_error (I : Interp) (script : Script) (buffer : List Byte)
    (filename : String) (L : LuaState)
    (h : (∃ msg, I.load buffer filename = .error msg) ∨
         (∃ chunk msg env1, I.load buffer filename = .ok chunk ∧
            I.call chunk [] L.env = (.error msg, env1))) (i : ScriptFunction) :
    (ReloadScript I script buffer filename L).1 = false ∧
    (ReloadScript I script buffer filename L).2.1.m_FunctionReferences i = LUA_NOREF := by
  unfold ReloadScript LoadScript
  rcases h with ⟨msg, h⟩ | ⟨chunk, msg, env1, h, hc⟩
  · rw [h]
    exact ⟨rfl, resetFunctions_apply script i⟩
  · rw [h]
    simp [lua_pcall, lua_push, hc, LUA_ERRRUN, resetFunctions_apply]

/-- C11, the code at a failing input.  The module defines `init` as a function and `update` as
the number 5.  `ReloadScript` returns failure, and the slot of `init` of the handle holds the
reference 1 taken before the loop left through `goto bail`, not `LUA_NOREF`; the three other
slots hold `LUA_NOREF`. -/
theorem ReloadScript_failure_keeps_captured :
    (ReloadScript brokenUpdateInterp fullScript [] "m.lua" emptyState).1 = false ∧
    (ReloadScript brokenUpdateInterp fullScript [] "m.lua" emptyState).2.1.m_FunctionReferences
      .SCRIPT_FUNCTION_INIT = 1 ∧
    (1 : Int) ≠ LUA_NOREF ∧
    (ReloadScript brokenUpdateInterp fullScript [] "m.lua" emptyState).2.1.m_FunctionReferences
      .SCRIPT_FUNCTION_UPDATE = LUA_NOREF ∧
    (ReloadScript brokenUpdateInterp fullScript [] "m.lua" emptyState).2.1.m_FunctionReferences
      .SCRIPT_FUNCTION_ONMESSAGE = LUA_NOREF ∧
    (ReloadScript brokenUpdateInterp fullScript [] "m.lua" emptyState).2.1.m_FunctionReferences
      .SCRIPT_FUNCTION_ONINPUT = LUA_NOREF := by
  decide

/-! ## Dispatch of a slot that is not present -/

/-- C12.  Each of the three dispatch functions, taken on its own: when the slot of the function
it is asked for holds `LUA_NOREF` (whatever the other slots of the script hold), `RunScript`
returns `SCRIPT_RESULT_OK`, `ScriptOnMessageComponent` returns `UPDATE_RESULT_OK` and
`ScriptOnInputComponent` returns `INPUT_RESULT_IGNORED`, and the function gives back the
interpreter state (stack and globals, the ambient ones among them) and the memory it was
given, whatever the interpreter: no script code is run. -/
theorem dispatch_absent_noop (P : Platform) (I : Interp) (L : LuaState) (collection : Nat)
    (script : Script) (script_function : ScriptFunction) (script_instance : ScriptInstance)
    (update_context : Nat) (instance_ : Instance) (instance_message_data : InstanceMessageData)
    (mem : Mem) (input_action : InputAction) :
    (script.m_FunctionReferences script_function = LUA_NOREF →
      RunScript I collection script script_function script_instance update_context L
        = (.SCRIPT_RESULT_OK, L)) ∧
    (script_instance.m_Script.m_FunctionReferences .SCRIPT_FUNCTION_ONMESSAGE = LUA_NOREF →
      ScriptOnMessageComponent P I instance_ instance_message_data script_instance mem L
        = (.UPDATE_RESULT_OK, mem, L)) ∧
    (script_instance.m_Script.m_FunctionReferences .SCRIPT_FUNCTION_ONINPUT = LUA_NOREF →
      ScriptOnInputComponent I instance_ input_action script_instance L
        = (.INPUT_RESULT_IGNORED, L)) := by
  refine ⟨?_, ?_, ?_⟩
  · intro hrun
    unfold RunScript
    rw [hrun]
    simp
  · intro hmsg
    unfold ScriptOnMessageComponent
    simp only [hmsg]
    simp
  · intro hinp
    unfold ScriptOnInputComponent
    simp only [hinp]
    simp

/-- Witness of C12: a script whose only function is `on_input` (the three other slots hold
`LUA_NOREF`), with an interpreter in which every call would raise: the dispatches of `update`
and of `on_message` do nothing and succeed; and the dispatch of `on_input` of a script whose
only function is `update` does nothing and is ignored. -/
theorem dispatch_absent_noop_witness :
    inputScript.m_FunctionReferences .SCRIPT_FUNCTION_ONINPUT ≠ LUA_NOREF ∧
    (RunScript raisingInterp 64 inputScript .SCRIPT_FUNCTION_UPDATE ⟨inputScript, 128, 2, 3⟩
      256 emptyState).1 = .SCRIPT_RESULT_OK ∧
    (ScriptOnMessageComponent x86_64 raisingInterp ⟨64, 0⟩ ⟨7, none, 128, 0, 4096⟩
      ⟨inputScript, 128, 2, 3⟩ (fun _ => 0) emptyState).1 = .UPDATE_RESULT_OK ∧
    (updateScript 1).m_FunctionReferences .SCRIPT_FUNCTION_UPDATE ≠ LUA_NOREF ∧
    (ScriptOnInputComponent raisingInterp ⟨64, 0⟩ ⟨5, 1, true, false, false⟩
      ⟨updateScript 1, 128, 2, 3⟩ emptyState).1 = .INPUT_RESULT_IGNORED := by
  have h := dispatch_absent_noop x86_64 raisingInterp emptyState 64 inputScript
    .SCRIPT_FUNCTION_UPDATE ⟨inputScript, 128, 2, 3⟩ 256 ⟨64, 0⟩ ⟨7, none, 128, 0, 4096⟩
    (fun _ => 0) ⟨5, 1, true, false, false⟩
  have h2 := dispatch_absent_noop x86_64 raisingInterp emptyState 64 inputScript
    .SCRIPT_FUNCTION_UPDATE ⟨updateScript 1, 128, 2, 3⟩ 256 ⟨64, 0⟩ ⟨7, none, 128, 0, 4096⟩
    (fun _ => 0) ⟨5, 1, true, false, false⟩
  rw [h.1 (by decide), h.2.1 (by decide), h2.2.2 (by decide)]
  exact ⟨by decide, rfl, rfl, by decide, rfl⟩

/-! ## The update of a world -/

theorem range_map_getD (xs : List Nat) :
    (List.range xs.length).map (fun i => xs.getD i 0) = xs := by
  apply List.ext_getElem
  · simp
  · intro i h1 h2
    simp [List.getD_eq_getElem?_getD, h2]

/-- The step of the loop of `ScriptUpdateComponent` on a pointer rather than on an index. -/
theorem updateStep_eq (I : Interp) (collection update_context : Nat) (world : ScriptWorld)
    (heap : Nat → ScriptInstance) (acc : UpdateResult × LuaState) (i : Nat) :
    updateStep I collection update_context world heap acc i
      = (if (RunScript I collection (heap (world.m_Instances.getD i 0)).m_Script
              .SCRIPT_FUNCTION_UPDATE (heap (world.m_Instances.getD i 0)) update_context
              acc.2).1 = .SCRIPT_RESULT_FAILED
         then .UPDATE_RESULT_UNKNOWN_ERROR else acc.1,
         (RunScript I collection (heap (world.m_Instances.getD i 0)).m_Script
            .SCRIPT_FUNCTION_UPDATE (heap (world.m_Instances.getD i 0)) update_context
            acc.2).2) := by
  unfold updateStep
  simp only []
  split <;> rfl

theorem ScriptUpdateComponent_eq_foldl (I : Interp) (collection update_context : Nat)
    (world : ScriptWorld) (heap : Nat → ScriptInstance) (L : LuaState) :
    ScriptUpdateComponent I collection update_context world heap L
      = world.m_Instances.foldl (fun (acc : UpdateResult × LuaState) h =>
          (if (RunScript I collection (heap h).m_Script .SCRIPT_FUNCTION_UPDATE (heap h)
                update_context acc.2).1 = .SCRIPT_RESULT_FAILED
           then UpdateResult.UPDATE_RESULT_UNKNOWN_ERROR else acc.1,
           (RunScript I collection (heap h).m_Script .SCRIPT_FUNCTION_UPDATE (heap h)
              update_context acc.2).2)) (.UPDATE_RESULT_OK, L) := by
  unfold ScriptUpdateComponent
  simp only []
  conv_rhs => rw [← range_map_getD world.m_Instances]
  rw [List.foldl_map]
  congr 1
  funext acc i
  exact updateStep_eq I collection update_context world heap acc i

theorem update_foldl_spec (I : Interp) (collection update_context : Nat)
    (heap : Nat → ScriptInstance) (xs : List Nat) (r0 : UpdateResult) (L : LuaState) :
    (xs.foldl (fun (acc : UpdateResult × LuaState) h =>
          (if (RunScript I collection (heap h).m_Script .SCRIPT_FUNCTION_UPDATE (heap h)
                update_context acc.2).1 = .SCRIPT_RESULT_FAILED
           then UpdateResult.UPDATE_RESULT_UNKNOWN_ERROR else acc.1,
           (RunScript I collection (heap h).m_Script .SCRIPT_FUNCTION_UPDATE (heap h)
              update_context acc.2).2)) (r0, L)).2
      = xs.foldl (fun L1 h => (RunScript I collection (heap h).m_Script
          .SCRIPT_FUNCTION_UPDATE (heap h) update_context L1).2) L ∧
    ((xs.foldl (fun (acc : UpdateResult × LuaState) h =>
          (if (RunScript I collection (heap h).m_Script .SCRIPT_FUNCTION_UPDATE (heap h)
                update_context acc.2).1 = .SCRIPT_RESULT_FAILED
           then UpdateResult.UPDATE_RESULT_UNKNOWN_ERROR else acc.1,
           (RunScript I collection (heap h).m_Script .SCRIPT_FUNCTION_UPDATE (heap h)
              update_context acc.2).2)) (r0, L)).1 = .UPDATE_RESULT_UNKNOWN_ERROR ↔
      r0 = .UPDATE_RESULT_UNKNOWN_ERROR ∨
      ∃ k, k < xs.length ∧
        (RunScript I collection (heap (xs.getD k 0)).m_Script .SCRIPT_FUNCTION_UPDATE
          (heap (xs.getD k 0)) update_context
          (updateStateAt I collection update_context heap xs L k)).1
          = .SCRIPT_RESULT_FAILED) := by
  induction xs generalizing r0 L with
  | nil => simp
  | cons h t ih =>
    simp only [List.foldl_cons]
    obtain ⟨ih1, ih2⟩ := ih
      (if (RunScript I collection (heap h).m_Script .SCRIPT_FUNCTION_UPDATE (heap h)
            update_context L).1 = .SCRIPT_RESULT_FAILED
       then UpdateResult.UPDATE_RESULT_UNKNOWN_ERROR else r0)
      (RunScript I collection (heap h).m_Script .SCRIPT_FUNCTION_UPDATE (heap h)
        update_context L).2
    refine ⟨ih1, ?_⟩
    rw [ih2]
    constructor
    · rintro (h1 | ⟨k, hk, hf⟩)
      · by_cases hh : (RunScript I collection (heap h).m_Script .SCRIPT_FUNCTION_UPDATE
            (heap h) update_context L).1 = .SCRIPT_RESULT_FAILED
        · exact Or.inr ⟨0, by simp, by simpa [updateStateAt] using hh⟩
        · simp only [hh, if_false] at h1
          exact Or.inl h1
      · refine Or.inr ⟨k + 1, by simpa using hk, ?_⟩
        simpa [updateStateAt] using hf
    · rintro (h1 | ⟨k, hk, hf⟩)
      · left
        simp [h1]
      · cases k with
        | zero =>
          left
          have hh : (RunScript I collection (heap h).m_Script .SCRIPT_FUNCTION_UPDATE
              (heap h) update_context L).1 = .SCRIPT_RESULT_FAILED := by
            simpa [updateStateAt] using hf
          simp [hh]
        | succ k =>
          right
          refine ⟨k, by simpa using hk, ?_⟩
          simpa [updateStateAt] using hf

/-- The call made by `RunScript` for a slot that is present: the function under the reference
of the slot, on the script instance, in the environment where the ambient globals are bound;
`RunScript` fails exactly when that call raises. -/
theorem RunScript_failed_iff (I : Interp) (collection : Nat) (script : Script)
    (script_function : ScriptFunction) (script_instance : ScriptInstance)
    (update_context : Nat) (L : LuaState)
    (h : script.m_FunctionReferences script_function ≠ LUA_NOREF) :
    ((RunScript I collection script script_function script_instance update_context L).1
        = .SCRIPT_RESULT_FAILED ↔
      ∃ msg env1, I.call (L.env.registry (script.m_FunctionReferences script_function))
        [L.env.registry script_instance.m_InstanceReference]
        (runEnv collection update_context script_instance L) = (.error msg, env1)) := by
  unfold RunScript
  simp only [h, ne_eq, not_false_eq_true, if_true]
  simp only [lua_pcall, lua_rawgeti, lua_push, setGlobal, List.take_succ_cons, List.take_zero,
    List.reverse_singleton, List.drop_succ_cons, List.drop_zero, List.headD_cons, runEnv]
  rcases hc : I.call (L.env.registry (script.m_FunctionReferences script_function))
    [L.env.registry script_instance.m_InstanceReference] _ with ⟨o, env1⟩
  cases o with
  | error msg => simp [LUA_ERRRUN]
  | ok results => simp

/-- C13.  `ScriptUpdateComponent` runs `update` (through `RunScript`, with the update context
of the tick) once for each pointer of the world, in the order of the list: its final
interpreter state is the one obtained by running them one after the other, whether or not a
run fails.  Its result is `UPDATE_RESULT_UNKNOWN_ERROR` exactly when the run of at least one
instance failed, `UPDATE_RESULT_OK` otherwise, in particular for an empty world.  A run whose
slot is present calls the function with `__update_context__` bound to the update context, and
fails exactly when that call raises. -/
theorem ScriptUpdateComponent_spec (I : Interp) (collection update_context : Nat)
    (world : ScriptWorld) (heap : Nat → ScriptInstance) (L : LuaState) :
    (ScriptUpdateComponent I collection update_context world heap L).2
      = world.m_Instances.foldl (fun L1 h => (RunScript I collection (heap h).m_Script
          .SCRIPT_FUNCTION_UPDATE (heap h) update_context L1).2) L ∧
    ((ScriptUpdateComponent I collection update_context world heap L).1
        = .UPDATE_RESULT_UNKNOWN_ERROR ↔
      ∃ k, k < world.m_Instances.length ∧
        (RunScript I collection (heap (world.m_Instances.getD k 0)).m_Script
          .SCRIPT_FUNCTION_UPDATE (heap (world.m_Instances.getD k 0)) update_context
          (updateStateAt I collection update_context heap world.m_Instances L k)).1
          = .SCRIPT_RESULT_FAILED) ∧
    ((ScriptUpdateComponent I collection update_context world heap L).1
        = .UPDATE_RESULT_OK ↔
      ¬ ∃ k, k < world.m_Instances.length ∧
        (RunScript I collection (heap (world.m_Instances.getD k 0)).m_Script
          .SCRIPT_FUNCTION_UPDATE (heap (world.m_Instances.getD k 0)) update_context
          (updateStateAt I collection update_context heap world.m_Instances L k)).1
          = .SCRIPT_RESULT_FAILED) ∧
    (world.m_Instances = [] →
      ScriptUpdateComponent I collection update_context world heap L
        = (.UPDATE_RESULT_OK, L)) ∧
    (∀ (script_instance : ScriptInstance) (L1 : LuaState),
      script_instance.m_Script.m_FunctionReferences .SCRIPT_FUNCTION_UPDATE ≠ LUA_NOREF →
      (runEnv collection update_context script_instance L1).globals "__update_context__"
        = .lightuserdata update_context ∧
      ((RunScript I collection script_instance.m_Script .SCRIPT_FUNCTION_UPDATE
          script_instance update_context L1).1 = .SCRIPT_RESULT_FAILED ↔
        ∃ msg env1, I.call
          (L1.env.registry
            (script_instance.m_Script.m_FunctionReferences .SCRIPT_FUNCTION_UPDATE))
          [L1.env.registry script_instance.m_InstanceReference]
          (runEnv collection update_context script_instance L1) = (.error msg, env1))) := by
  have hspec := update_foldl_spec I collection update_context heap world.m_Instances
    .UPDATE_RESULT_OK L
  rw [← ScriptUpdateComponent_eq_foldl] at hspec
  have hiff := hspec.2
  simp only [false_or, reduceCtorEq] at hiff
  refine ⟨hspec.1, hiff, ?_, ?_, ?_⟩
  · rw [← hiff]
    cases (ScriptUpdateComponent I collection update_context world heap L).1 <;> simp
  · intro hnil
    unfold ScriptUpdateComponent
    rw [hnil]
    rfl
  · intro script_instance L1 hs
    refine ⟨?_, RunScript_failed_iff I collection script_instance.m_Script
      .SCRIPT_FUNCTION_UPDATE script_instance update_context L1 hs⟩
    simp [runEnv, setGlobal]

/-- A world of three instances whose second `update` raises: the tick reports the error and
the three functions have been called. -/
theorem ScriptUpdateComponent_three :
    (ScriptUpdateComponent countingInterp 64 256 ⟨[10, 20, 30]⟩ threeInstances
      registryState).1 = .UPDATE_RESULT_UNKNOWN_ERROR ∧
    (ScriptUpdateComponent countingInterp 64 256 ⟨[10, 20, 30]⟩ threeInstances
      registryState).2.env.refCount = 3 := by
  decide

/-! ## The result of `on_input` -/

theorem ScriptOnInputComponent_result (I : Interp) (instance_ : Instance)
    (input_action : InputAction) (script_instance : ScriptInstance) (L : LuaState)
    (h : script_instance.m_Script.m_FunctionReferences .SCRIPT_FUNCTION_ONINPUT ≠ LUA_NOREF) :
    (ScriptOnInputComponent I instance_ input_action script_instance L).1
      = inputResultOf (onInputCall I instance_ input_action script_instance L).1 := by
  unfold ScriptOnInputComponent
  simp only [h, ne_eq, not_false_eq_true, if_true]
  simp only [lua_pcall, lua_rawgeti, lua_push, setGlobal, List.take_succ_cons, List.take_zero,
    List.reverse_cons, List.reverse_nil, List.nil_append, List.cons_append,
    List.drop_succ_cons, List.drop_zero, List.headD_cons, onInputCall, lua_gettop,
    List.length_cons]
  rcases hc : I.call _ _ _ with ⟨o, env1⟩
  cases o with
  | error msg => simp [LUA_ERRRUN, inputResultOf]
  | ok results =>
    simp only [ne_eq, not_true_eq_false, if_false, List.length_append, List.length_reverse]
    match results with
    | [] =>
      simp [inputResultOf]
      split
      · rename_i hh
        omega
      · rfl
    | [v] =>
      simp only [inputResultOf, List.length_singleton, List.reverse_singleton,
        List.singleton_append, lua_top, List.headD_cons]
      have he : (((L.stack.length + 1 + 1 + 1 + 1 : Nat) : Int) - (L.base : Int)
          - ((3 : Nat) : Int)) = (((1 + L.stack.length : Nat) : Int) - (L.base : Int)) := by
        push_cast
        omega
      simp only [he, if_true]
      cases hb : v.isBoolean <;> cases ht : v.toBoolean <;> simp
    | v1 :: v2 :: rest =>
      simp [inputResultOf]
      split
      · rename_i hh
        omega
      · rfl

/-- C14.  With the slot `on_input` present, `ScriptOnInputComponent` returns
`INPUT_RESULT_CONSUMED` when the function returns `true`, `INPUT_RESULT_IGNORED` when it
returns `false` or returns no value, and `INPUT_RESULT_UNKNOWN_ERROR` when it raises; and its
result is always one of these three. -/
theorem ScriptOnInputComponent_results (I : Interp) (instance_ : Instance)
    (input_action : InputAction) (script_instance : ScriptInstance) (L : LuaState)
    (h : script_instance.m_Script.m_FunctionReferences .SCRIPT_FUNCTION_ONINPUT ≠ LUA_NOREF) :
    ((onInputCall I instance_ input_action script_instance L).1 = .ok [.boolean true] →
      (ScriptOnInputComponent I instance_ input_action script_instance L).1
        = .INPUT_RESULT_CONSUMED) ∧
    ((onInputCall I instance_ input_action script_instance L).1 = .ok [.boolean false] →
      (ScriptOnInputComponent I instance_ input_action script_instance L).1
        = .INPUT_RESULT_IGNORED) ∧
    ((onInputCall I instance_ input_action script_instance L).1 = .ok [] →
      (ScriptOnInputComponent I instance_ input_action script_instance L).1
        = .INPUT_RESULT_IGNORED) ∧
    (∀ msg, (onInputCall I instance_ input_action script_instance L).1 = .error msg →
      (ScriptOnInputComponent I instance_ input_action script_instance L).1
        = .INPUT_RESULT_UNKNOWN_ERROR) ∧
    ((ScriptOnInputComponent I instance_ input_action script_instance L).1
        = .INPUT_RESULT_IGNORED ∨
      (ScriptOnInputComponent I instance_ input_action script_instance L).1
        = .INPUT_RESULT_CONSUMED ∨
      (ScriptOnInputComponent I instance_ input_action script_instance L).1
        = .INPUT_RESULT_UNKNOWN_ERROR) := by
  rw [ScriptOnInputComponent_result I instance_ input_action script_instance L h]
  refine ⟨?_, ?_, ?_, ?_, ?_⟩
  · intro hc
    rw [hc]
    rfl
  · intro hc
    rw [hc]
    rfl
  · intro hc
    rw [hc]
    rfl
  · intro msg hc
    rw [hc]
    rfl
  · cases inputResultOf (onInputCall I instance_ input_action script_instance L).1 <;> simp

/-- Witness of C14: an `on_input` that returns `true`. -/
theorem ScriptOnInputComponent_results_witness :
    (ScriptOnInputComponent (returningInterp [.boolean true]) ⟨64, 0⟩
      ⟨5, 1, true, false, false⟩ ⟨fullScript, 128, 2, 3⟩ emptyState).1
      = .INPUT_RESULT_CONSUMED :=
  (ScriptOnInputComponent_results (returningInterp [.boolean true]) ⟨64, 0⟩
    ⟨5, 1, true, false, false⟩ ⟨fullScript, 128, 2, 3⟩ emptyState (by decide)).1 rfl

/-- With the slot `on_input` present, when the function returns exactly one value and that
value is not a boolean (a number, a string, a table; also `nil`), `ScriptOnInputComponent`
returns `INPUT_RESULT_UNKNOWN_ERROR`, neither consumed nor ignored. -/
theorem ScriptOnInputComponent_non_boolean (I : Interp) (instance_ : Instance)
    (input_action : InputAction) (script_instance : ScriptInstance) (L : LuaState)
    (v : LuaValue)
    (h : script_instance.m_Script.m_FunctionReferences .SCRIPT_FUNCTION_ONINPUT ≠ LUA_NOREF)
    (hv : (onInputCall I instance_ input_action script_instance L).1 = .ok [v])
    (hb : v.isBoolean = false) :
    (ScriptOnInputComponent I instance_ input_action script_instance L).1
      = .INPUT_RESULT_UNKNOWN_ERROR ∧
    (ScriptOnInputComponent I instance_ input_action script_instance L).1
      ≠ .INPUT_RESULT_CONSUMED ∧
    (ScriptOnInputComponent I instance_ input_action script_instance L).1
      ≠ .INPUT_RESULT_IGNORED := by
  rw [ScriptOnInputComponent_result I instance_ input_action script_instance L h, hv]
  simp [inputResultOf, hb]

/-- An `on_input` that returns the one value 3: the result is `INPUT_RESULT_UNKNOWN_ERROR`. -/
theorem ScriptOnInputComponent_non_boolean_witness :
    (ScriptOnInputComponent (returningInterp [.number 3]) ⟨64, 0⟩
      ⟨5, 1, true, false, false⟩ ⟨fullScript, 128, 2, 3⟩ emptyState).1
      = .INPUT_RESULT_UNKNOWN_ERROR :=
  (ScriptOnInputComponent_non_boolean (returningInterp [.number 3]) ⟨64, 0⟩
    ⟨5, 1, true, false, false⟩ ⟨fullScript, 128, 2, 3⟩ emptyState (.number 3) (by decide)
    rfl rfl).1

/-- With the slot `on_input` present, when the function returns two values or more, whatever
they are, `ScriptOnInputComponent` returns `INPUT_RESULT_IGNORED`: the values are not looked
at. -/
theorem ScriptOnInputComponent_many_values (I : Interp) (instance_ : Instance)
    (input_action : InputAction) (script_instance : ScriptInstance) (L : LuaState)
    (v1 v2 : LuaValue) (rest : List LuaValue)
    (h : script_instance.m_Script.m_FunctionReferences .SCRIPT_FUNCTION_ONINPUT ≠ LUA_NOREF)
    (hv : (onInputCall I instance_ input_action script_instance L).1 = .ok (v1 :: v2 :: rest)) :
    (ScriptOnInputComponent I instance_ input_action script_instance L).1
      = .INPUT_RESULT_IGNORED := by
  rw [ScriptOnInputComponent_result I instance_ input_action script_instance L h, hv]
  rfl

/-- C15, the code at a failing input.  The slot `on_input` is present and the function returns
the two values 3 and 4, neither of them a boolean or `nil`.  The test
`input_ret == lua_gettop(L)` holds for one result only, so the values are not looked at and
`ScriptOnInputComponent` returns `INPUT_RESULT_IGNORED`, not `INPUT_RESULT_UNKNOWN_ERROR`.
When the function returns the one value 3, the result is `INPUT_RESULT_UNKNOWN_ERROR`. -/
theorem ScriptOnInputComponent_two_values :
    (LuaValue.number 3).isBoolean = false ∧ (LuaValue.number 3).isNil = false ∧
    (LuaValue.number 4).isBoolean = false ∧ (LuaValue.number 4).isNil = false ∧
    (ScriptOnInputComponent (returningInterp [.number 3, .number 4]) ⟨64, 0⟩
      ⟨5, 1, true, false, false⟩ ⟨fullScript, 128, 2, 3⟩ emptyState).1
      = .INPUT_RESULT_IGNORED ∧
    (ScriptOnInputComponent (returningInterp [.number 3, .number 4]) ⟨64, 0⟩
      ⟨5, 1, true, false, false⟩ ⟨fullScript, 128, 2, 3⟩ emptyState).1
      ≠ .INPUT_RESULT_UNKNOWN_ERROR ∧
    (ScriptOnInputComponent (returningInterp [.number 3]) ⟨64, 0⟩
      ⟨5, 1, true, false, false⟩ ⟨fullScript, 128, 2, 3⟩ emptyState).1
      = .INPUT_RESULT_UNKNOWN_ERROR := by
  decide

/-! ## Rounding to `float` -/

theorem roundHalfEven_eq (x : ℚ) (n : ℤ) (h : |x - n| < 1 / 2) : roundHalfEven x = n := by
  rw [abs_lt] at h
  unfold roundHalfEven
  by_cases hle : (n : ℚ) ≤ x
  · have hf : Int.floor x = n := by
      rw [Int.floor_eq_iff]
      constructor
      · exact hle
      · linarith [h.2]
    simp only [hf]
    rw [if_pos h.2]
  · push_neg at hle
    have hf : Int.floor x = n - 1 := by
      rw [Int.floor_eq_iff]
      push_cast
      constructor
      · linarith [h.1]
      · linarith
    simp only [hf]
    push_cast
    rw [if_neg (by linarith [h.1]), if_pos (by linarith [h.1])]
    ring

theorem binary32Round_cases (q : ℚ) (e n : ℤ) (he : -126 ≤ e) (hlo : (2 : ℚ) ^ e ≤ |q|)
    (hhi : |q| < (2 : ℚ) ^ (e + 1)) (hn : |q / 2 ^ (e - 23) - n| < 1 / 2) :
    binary32Round q
      = if (2 : ℚ) ^ 128 ≤ |(n : ℚ) * 2 ^ (e - 23)| then none
        else some ((n : ℚ) * 2 ^ (e - 23)) := by
  have hpos : (0 : ℚ) < |q| := lt_of_lt_of_le (zpow_pos (by norm_num) e) hlo
  have hq : q ≠ 0 := abs_pos.mp hpos
  have h1 : e ≤ Int.log 2 |q| := by
    rw [← Int.zpow_le_iff_le_log (by norm_num) hpos]
    simpa using hlo
  have h2 : Int.log 2 |q| < e + 1 := by
    rw [← Int.lt_zpow_iff_log_lt (by norm_num) hpos]
    simpa using hhi
  have hlog : Int.log 2 |q| = e := by omega
  unfold binary32Round
  rw [if_neg hq]
  simp only [hlog, max_eq_left he]
  rw [roundHalfEven_eq _ n hn]

/-- The value of `binary32Round` at a number of binade `e` (not below the smallest normal one):
the multiple of `2 ^ (e - 23)` within less than half a spacing, when that is under
`2 ^ 128`. -/
theorem binary32Round_eq (q : ℚ) (e n : ℤ) (he : -126 ≤ e) (hlo : (2 : ℚ) ^ e ≤ |q|)
    (hhi : |q| < (2 : ℚ) ^ (e + 1)) (hn : |q / 2 ^ (e - 23) - n| < 1 / 2)
    (hfin : |(n : ℚ) * 2 ^ (e - 23)| < 2 ^ 128) :
    binary32Round q = some ((n : ℚ) * 2 ^ (e - 23)) := by
  rw [binary32Round_cases q e n he hlo hhi hn, if_neg (not_le.mpr hfin)]

theorem binary32Round_overflow (q : ℚ) (e n : ℤ) (he : -126 ≤ e) (hlo : (2 : ℚ) ^ e ≤ |q|)
    (hhi : |q| < (2 : ℚ) ^ (e + 1)) (hn : |q / 2 ^ (e - 23) - n| < 1 / 2)
    (hinf : (2 : ℚ) ^ 128 ≤ |(n : ℚ) * 2 ^ (e - 23)|) :
    binary32Round q = none := by
  rw [binary32Round_cases q e n he hlo hhi hn, if_pos hinf]

theorem binary32Round_zero : binary32Round 0 = some 0 := by
  simp [binary32Round]

theorem binary32Round_one : binary32Round 1 = some 1 := by
  rw [binary32Round_eq 1 0 8388608 (by norm_num) (by norm_num) (by norm_num)
    (by norm_num [abs_lt]) (by norm_num [abs_of_pos])]
  norm_num

theorem binary32Round_neg_one : binary32Round (-1) = some (-1) := by
  rw [binary32Round_eq (-1) 0 (-8388608) (by norm_num) (by norm_num) (by norm_num)
    (by norm_num [abs_lt]) (by norm_num [abs_of_pos])]
  norm_num

theorem binary32Round_two : binary32Round 2 = some 2 := by
  rw [binary32Round_eq 2 1 8388608 (by norm_num) (by norm_num) (by norm_num)
    (by norm_num [abs_lt]) (by norm_num [abs_of_pos])]
  norm_num

/-! ## Visibility of a box -/

/-- The corners `Script_IsVisible` tests: seven of the eight, the corner
`(min.x, max.y, max.z)` is not among them and `(max.x, min.y, max.z)` is tested twice. -/
theorem Script_IsVisible_iff (F : FloatArith) (contexts : Nat → UpdateContext)
    (min max : Vector3) (margin : ℚ) (L : LuaState) :
    Script_IsVisible F contexts min max (some margin) L = true ↔
      ∀ p, p ∈ [(⟨min.x, min.y, min.z⟩ : Vector3), ⟨min.x, min.y, max.z⟩,
                ⟨min.x, max.y, min.z⟩, ⟨max.x, min.y, min.z⟩, ⟨max.x, min.y, max.z⟩,
                ⟨max.x, max.y, min.z⟩, ⟨max.x, max.y, max.z⟩] →
        IsPointVisible F p
          (contexts (lua_touserdata (L.env.globals "__update_context__"))).m_ViewProj margin
          = true := by
  unfold Script_IsVisible
  simp only [List.mem_cons, List.mem_singleton, List.not_mem_nil, or_false, forall_eq_or_imp,
    forall_eq, Bool.and_eq_true]
  constructor
  · rintro ⟨⟨⟨⟨⟨⟨⟨h1, h2⟩, h3⟩, h4⟩, h5⟩, h6⟩, _⟩, h8⟩
    exact ⟨h1, h2, h3, h4, h5, h6, h8⟩
  · rintro ⟨h1, h2, h3, h4, h5, h6, h8⟩
    exact ⟨⟨⟨⟨⟨⟨⟨h1, h2⟩, h3⟩, h4⟩, h5⟩, h6⟩, h5⟩, h8⟩

/-- C16, the code at a failing input.  Box of corners `(0, 0, 0)` and `(1, 1, 1)`, margin 3/2,
a transform whose clip-space `x` is `y + z - x` with `w = 1` at every point, the arithmetic of
binary32 (no operation rounds at this input).  The corner
`(min.x, max.y, max.z) = (0, 1, 1)` has the clip-space `x` equal to 2, beyond the margin, so it
is not visible; `Script_IsVisible` returns `true` all the same. -/
theorem Script_IsVisible_misses_corner :
    (∀ p, p ∈ boxCorners ⟨0, 0, 0⟩ ⟨1, 1, 1⟩ → (shearTransform.mulPoint p).w ≠ 0) ∧
    IsPointVisible binary32 ⟨0, 1, 1⟩ shearTransform (3 / 2) = false ∧
    Script_IsVisible binary32 shearContexts ⟨0, 0, 0⟩ ⟨1, 1, 1⟩ (some (3 / 2)) tickState
      = true := by
  refine ⟨?_, ?_, ?_⟩
  · intro p hp
    simp only [boxCorners, List.mem_cons, List.mem_singleton, List.not_mem_nil, or_false] at hp
    rcases hp with rfl | rfl | rfl | rfl | rfl | rfl | rfl | rfl <;>
      norm_num [Matrix4.mulPoint, shearTransform]
  · norm_num [IsPointVisible, absWithin, Matrix4.mulPoint, shearTransform, abs_le, binary32,
      binary32Round_zero, binary32Round_one, binary32Round_two]
  · norm_num [Script_IsVisible, IsPointVisible, absWithin, Matrix4.mulPoint, shearTransform,
      shearContexts, abs_le, binary32, binary32Round_zero, binary32Round_one,
      binary32Round_neg_one]

/-! ## Destruction of a component -/

theorem set_perm (l : List Nat) (j v : Nat) (h : j < l.length) :
    List.Perm (l.getD j 0 :: l.set j v) (v :: l) := by
  induction l generalizing j with
  | nil => simp at h
  | cons a t ih =>
    cases j with
    | zero =>
      simp only [List.getD_cons_zero, List.set_cons_zero]
      exact List.Perm.swap v a t
    | succ k =>
      simp only [List.getD_cons_succ, List.set_cons_succ]
      have hk : k < t.length := by simpa using h
      exact ((List.Perm.swap a (t.getD k 0) (t.set k v)).trans
        ((ih k hk).cons a)).trans (List.Perm.swap v a t)

/-- The swap-remove takes out exactly the entry at the index. -/
theorem EraseSwap_perm (xs : List Nat) (j : Nat) (h : j < xs.length) :
    List.Perm (xs.getD j 0 :: EraseSwap xs j) xs := by
  unfold EraseSwap
  simp only [h, if_true]
  rcases List.eq_nil_or_concat xs with rfl | ⟨init, last, rfl⟩
  · simp at h
  · rw [List.concat_eq_append] at h ⊢
    rw [List.getLastD_concat]
    by_cases hj : j < init.length
    · rw [List.set_append_left j last hj, List.dropLast_concat,
        List.getD_append _ _ _ _ hj]
      exact (set_perm init j last hj).trans (List.perm_append_singleton last init).symm
    · have hlen : j = init.length := by
        simp at h
        omega
      subst hlen
      have hset : (init ++ [last]).set init.length last = init ++ [last] := by
        rw [List.set_append]
        simp
      rw [hset, List.dropLast_concat]
      have hget : (init ++ [last]).getD init.length 0 = last := by
        simp [List.getD_eq_getElem?_getD]
      rw [hget]
      exact (List.perm_append_singleton last init).symm

theorem findInstance_of_mem (script_instance : Nat) (xs : List Nat) (s : Nat)
    (h : script_instance ∈ xs) :
    ∃ j, findInstance script_instance xs s = some (s + j) ∧ j < xs.length ∧
      xs.getD j 0 = script_instance := by
  induction xs generalizing s with
  | nil => simp at h
  | cons x rest ih =>
    unfold findInstance
    by_cases hx : script_instance = x
    · exact ⟨0, by simp [hx], by simp, by simp [hx]⟩
    · have hm : script_instance ∈ rest := by
        rcases List.mem_cons.mp h with h1 | h1
        · exact absurd h1 hx
        · exact h1
      obtain ⟨j, h1, h2, h3⟩ := ih (s + 1) hm
      refine ⟨j + 1, ?_, by simpa using h2, by simpa using h3⟩
      simp only [hx, if_false]
      rw [h1]
      congr 1
      omega

/-- C17.  When the array of the world holds the pointer to the script instance,
`ScriptDestroyComponent` leaves an array shorter by one which, with that pointer put back, is
a permutation of the array on entry: one entry has been removed, it is the given instance, and
every other pointer is there as many times as before; the link of the owning object to its
script instance is null on return. -/
theorem ScriptDestroyComponent_removes_one (instance_ : Instance) (world : ScriptWorld)
    (script_instance : Nat) (heap : Nat → ScriptInstance) (L : LuaState)
    (h : script_instance ∈ world.m_Instances) :
    (ScriptDestroyComponent instance_ world script_instance heap L).2.2.1.m_Instances.length + 1
      = world.m_Instances.length ∧
    List.Perm
      (script_instance ::
        (ScriptDestroyComponent instance_ world script_instance heap L).2.2.1.m_Instances)
      world.m_Instances ∧
    (∀ x, x ≠ script_instance →
      List.count x (ScriptDestroyComponent instance_ world script_instance heap
        L).2.2.1.m_Instances = List.count x world.m_Instances) ∧
    List.count script_instance (ScriptDestroyComponent instance_ world script_instance heap
        L).2.2.1.m_Instances + 1 = List.count script_instance world.m_Instances ∧
    (ScriptDestroyComponent instance_ world script_instance heap L).2.1.m_ScriptInstancePOOOOP
      = 0 ∧
    (ScriptDestroyComponent instance_ world script_instance heap L).1 = .CREATE_RESULT_OK := by
  obtain ⟨j, h1, h2, h3⟩ := findInstance_of_mem script_instance world.m_Instances 0 h
  have hperm : List.Perm
      (script_instance ::
        (ScriptDestroyComponent instance_ world script_instance heap L).2.2.1.m_Instances)
      world.m_Instances := by
    unfold ScriptDestroyComponent
    simp only [h1, Nat.zero_add]
    have := EraseSwap_perm world.m_Instances j h2
    rw [h3] at this
    exact this
  refine ⟨?_, hperm, ?_, ?_, rfl, rfl⟩
  · have := hperm.length_eq
    simpa using this
  · intro x hx
    have := hperm.count_eq x
    rw [List.count_cons_of_ne hx] at this
    exact this
  · have := hperm.count_eq script_instance
    rw [List.count_cons_self] at this
    exact this

/-- Witness of C17: the pointer 20 destroyed in the world `[10, 20, 30, 40]`; the last pointer
takes its place. -/
theorem ScriptDestroyComponent_removes_one_witness :
    (ScriptDestroyComponent ⟨64, 20⟩ ⟨[10, 20, 30, 40]⟩ 20 threeInstances
      registryState).2.2.1.m_Instances.length + 1 = 4 ∧
    (ScriptDestroyComponent ⟨64, 20⟩ ⟨[10, 20, 30, 40]⟩ 20 threeInstances
      registryState).2.2.1.m_Instances = [10, 40, 30] := by
  have h := ScriptDestroyComponent_removes_one ⟨64, 20⟩ ⟨[10, 20, 30, 40]⟩ 20 threeInstances
    registryState (by decide)
  exact ⟨h.1, by decide⟩

/-! ## Fields of a script instance -/

theorem lua_gettable_filter_ne (entries : List (LuaKey × LuaValue)) (key k : LuaKey)
    (h : k ≠ key) :
    lua_gettable (entries.filter (fun e => e.1 != key)) k = lua_gettable entries k := by
  induction entries with
  | nil => rfl
  | cons e rest ih =>
    obtain ⟨ek, ev⟩ := e
    by_cases he : ek = key
    · subst he
      have hk : ¬ ek = k := fun h1 => h h1.symm
      simp [List.filter, lua_gettable, hk, ih]
    · have hf : (ek != key) = true := by simpa using he
      simp only [List.filter, hf, lua_gettable]
      rw [ih]

theorem lua_gettable_settable (entries : List (LuaKey × LuaValue)) (key : LuaKey)
    (value : LuaValue) (hk : key ≠ .nil) :
    ∃ data, lua_settable entries key value = .ok data ∧
      ∀ k, lua_gettable data k = if k = key then value else lua_gettable entries k := by
  refine ⟨(key, value) :: entries.filter (fun e => e.1 != key), by simp [lua_settable, hk], ?_⟩
  intro k
  by_cases h : k = key
  · subst h
    simp [lua_gettable]
  · have h2 : ¬ key = k := fun h1 => h h1.symm
    simp only [lua_gettable, h2, h, if_false]
    exact lua_gettable_filter_ne entries key k h

/-- The two functions on every key.  Reading: a key that is neither a string nor a number
raises; a number is read as the string the Lua library converts it to; a string that `strcmp`
takes for `"id"` gives the hash of the identifier of the object, one that it takes for `"dt"`
gives the delta time when an update context is bound, and every other string gives the value
the data store holds under that string.  Writing under `nil` raises; writing under any other
key puts the value in the data store under that key, as it is (a number stays a number). -/
theorem ScriptInstance_fields (P : Platform) (I : Interp) (GetIdentifier : Nat → Nat)
    (contexts : Nat → UpdateContext) (i : ScriptInstance) (data : List (LuaKey × LuaValue))
    (L : LuaState) :
    (∀ key, (∀ s, key ≠ .string s) → (∀ n, key ≠ .number n) →
      ScriptInstance_index P I GetIdentifier contexts i data key L
        = .error (.typeError "string")) ∧
    (∀ n, ScriptInstance_index P I GetIdentifier contexts i data (.number n) L
      = ScriptInstance_index P I GetIdentifier contexts i data (.string (P.num2str n)) L) ∧
    (∀ s, cstr s = [105, 100] →
      ScriptInstance_index P I GetIdentifier contexts i data (.string s) L
        = .ok (I.PushHash (GetIdentifier i.m_Instance))) ∧
    (∀ s, cstr s = [100, 116] → lua_touserdata (L.env.globals "__update_context__") ≠ 0 →
      ScriptInstance_index P I GetIdentifier contexts i data (.string s) L
        = .ok (.number
            (contexts (lua_touserdata (L.env.globals "__update_context__"))).m_DT)) ∧
    (∀ s, cstr s ≠ [105, 100] →
      (cstr s ≠ [100, 116] ∨ lua_touserdata (L.env.globals "__update_context__") = 0) →
      ScriptInstance_index P I GetIdentifier contexts i data (.string s) L
        = .ok (lua_gettable data (.string s))) ∧
    (∀ value, ScriptInstance_newindex data .nil value = .error .indexIsNil) ∧
    (∀ key value, key ≠ .nil → ∃ data',
      ScriptInstance_newindex data key value = .ok data' ∧
      (∀ k, lua_gettable data' k = if k = key then value else lua_gettable data k) ∧
      ∀ s, cstr s ≠ [105, 100] →
        (cstr s ≠ [100, 116] ∨ lua_touserdata (L.env.globals "__update_context__") = 0) →
        ScriptInstance_index P I GetIdentifier contexts i data' (.string s) L
          = .ok (if LuaKey.string s = key then value else lua_gettable data (.string s))) := by
  have hread : ∀ (d : List (LuaKey × LuaValue)) (s : List Byte), cstr s ≠ [105, 100] →
      (cstr s ≠ [100, 116] ∨ lua_touserdata (L.env.globals "__update_context__") = 0) →
      ScriptInstance_index P I GetIdentifier contexts i d (.string s) L
        = .ok (lua_gettable d (.string s)) := by
    intro d s hid hdt
    have hc : ¬ (lua_touserdata (L.env.globals "__update_context__") ≠ 0
        ∧ cstr s = [100, 116]) := by
      rintro ⟨h1, h2⟩
      rcases hdt with h3 | h3
      · exact h3 h2
      · exact h1 h3
    simp only [ScriptInstance_index, LuaKey.checkstring, hid, if_false, hc]
  refine ⟨?_, ?_, ?_, ?_, hread data, ?_, ?_⟩
  · intro key hs hn
    cases key with
    | string s => exact absurd rfl (hs s)
    | number n => exact absurd rfl (hn n)
    | _ => rfl
  · intro n
    rfl
  · intro s hs
    simp [ScriptInstance_index, LuaKey.checkstring, hs]
  · intro s hs hb
    have hne : cstr s ≠ [105, 100] := by
      rw [hs]
      decide
    simp [ScriptInstance_index, LuaKey.checkstring, hne, hs, hb]
  · intro value
    simp [ScriptInstance_newindex, lua_settable]
  · intro key value hk
    obtain ⟨data', h1, h2⟩ := lua_gettable_settable data key value hk
    refine ⟨data', h1, h2, ?_⟩
    intro s hid hdt
    rw [hread data' s hid hdt, h2]

/-- C18, the code at failing inputs.  The Lua library writes numbers in decimal, the data store
is empty, an update context is bound.  Writing 5 under the key `1` (a number) succeeds and the
store holds 5 under the number 1; reading the key `1` then gives `nil`: `luaL_checkstring` has
converted the key at index 2 into the string `"1"`, and the store is looked up under that
string.  Writing 5 under the string `"id\0x"` succeeds; reading that key gives the hash of the
identifier of the object, since `strcmp` stops at the zero byte.  Writing 5 under the key
`true` succeeds; reading that key raises.  Writing 5 under the string `"hp"` and reading it
gives 5. -/
theorem ScriptInstance_key_not_read_back :
    decimalNumbers.num2str 1 = [49] ∧
    ScriptInstance_newindex [] (.number 1) (.number 5) = .ok [(.number 1, .number 5)] ∧
    ScriptInstance_index decimalNumbers (returningInterp []) (fun a => a + 1) fieldContexts
      ⟨fullScript, 128, 2, 3⟩ [(.number 1, .number 5)] (.number 1) tickState = .ok .nil ∧
    ScriptInstance_newindex [] (.string [105, 100, 0, 120]) (.number 5)
      = .ok [(.string [105, 100, 0, 120], .number 5)] ∧
    ScriptInstance_index decimalNumbers (returningInterp []) (fun a => a + 1) fieldContexts
      ⟨fullScript, 128, 2, 3⟩ [(.string [105, 100, 0, 120], .number 5)]
      (.string [105, 100, 0, 120]) tickState = .ok (.number 129) ∧
    ScriptInstance_newindex [] (.boolean true) (.number 5)
      = .ok [(.boolean true, .number 5)] ∧
    ScriptInstance_index decimalNumbers (returningInterp []) (fun a => a + 1) fieldContexts
      ⟨fullScript, 128, 2, 3⟩ [(.boolean true, .number 5)] (.boolean true) tickState
      = .error (.typeError "string") ∧
    ScriptInstance_newindex [] (.string [104, 112]) (.number 5)
      = .ok [(.string [104, 112], .number 5)] ∧
    ScriptInstance_index decimalNumbers (returningInterp []) (fun a => a + 1) fieldContexts
      ⟨fullScript, 128, 2, 3⟩ [(.string [104, 112], .number 5)] (.string [104, 112]) tickState
      = .ok (.number 5) := by
  refine ⟨by decide, rfl, ?_, rfl, ?_, rfl, rfl, rfl, ?_⟩
  · rfl
  · rfl
  · rfl

/-! ## The payload of `post_to_collection` -/

theorem luaL_checktype_table_of_checkstring (P : Platform) (v : LuaValue) (s : List Byte)
    (h : luaL_checkstring P v = .ok s) :
    luaL_checktype_table v = .error (.typeError "table") := by
  cases v <;> simp_all [luaL_checkstring, luaL_checktype_table]

/-- With five arguments or more, a collection and a target that resolve and a message name
registered with a descriptor of acceptable size, `Script_PostToCollection` raises the type
error of `luaL_checktype(L, 4, LUA_TTABLE)`: index 4 holds the message name, which
`luaL_checkstring(L, 4)` has accepted, and the payload at index 5 is never looked at. -/
theorem Script_PostToCollection_rejects_payload (P : Platform) (W : PostWorld)
    (args : List LuaValue) (L : LuaState) (collection_name_hash id : Nat)
    (component_name message_name : List Byte) (to_collection : Nat × Nat) (desc : Descriptor)
    (htop : args.length ≥ 5)
    (h1 : W.CheckHash (argAt args 1) = .ok collection_name_hash)
    (h2 : W.CheckHash (argAt args 2) = .ok id)
    (h3 : luaL_checkstring P (argAt args 3) = .ok component_name)
    (h4 : luaL_checkstring P (argAt args 4) = .ok message_name)
    (hcol : (W.m_Collections (lua_touserdata (L.env.globals "__collection__"))).find?
      (fun c => c.1 = collection_name_hash) = some to_collection)
    (hinst : W.GetInstanceFromIdentifier to_collection.2 id ≠ 0)
    (hdesc : W.g_Descriptors message_name = some desc)
    (hsize : desc.m_Size ≤ W.maxPayload) :
    Script_PostToCollection P W args L = .error (.lua (.typeError "table")) := by
  unfold Script_PostToCollection
  have hs : ¬ desc.m_Size > W.maxPayload := by omega
  simp only [h1, h2, h3, h4, hcol, hinst, ne_eq, not_false_eq_true, if_true, htop, hdesc, hs,
    if_false, luaL_checktype_table_of_checkstring P _ _ h4]

/-- C19, the code at a failing input.  `post_to_collection(11, 22, "c", "hit", {amount = 10})`
where the collection and the target resolve and "hit" is registered with a descriptor of
acceptable size: the call raises a type error on its argument 4, and posts nothing.  The same
payload passed as fourth argument of `post_named_to(22, "c", "hit", {amount = 10})` is
marshaled and posted as a typed message. -/
theorem Script_PostToCollection_payload_fails :
    postError? (Script_PostToCollection x86_64 postWorld
      [.number 11, .number 22, .string [99], .string [104, 105, 116], hitTable] emptyState)
      = some (.lua (.typeError "table")) ∧
    postedDDF (Script_PostNamedTo x86_64 postWorld
      [.number 22, .string [99], .string [104, 105, 116], hitTable] emptyState) = true := by
  decide

/-! ## Strings of nested messages -/

/-- A string field of a nested message present in the table: the bytes are appended at the
cursor of the enclosing pull, and the slot receives the cursor less the address of the nested
message, `message + offset`, not less the address `message` of the enclosing one. -/
theorem PullDDFValue_nested_string (P : Platform) (name : String) (label : DDFLabel)
    (offset size : Nat) (name2 : String) (label2 : DDFLabel) (md2 : Option Descriptor)
    (offset2 : Nat) (s : List Byte) (message : Nat) (st : PullState) (buffer_last : Nat)
    (hfit : st.buffer + strlen s + 1 ≤ buffer_last)
    (hslot : message + offset + offset2 + P.ptrBytes ≤ st.buffer)
    (hrange : st.buffer - (message + offset) < 2 ^ (8 * P.ptrBytes)) :
    ∃ st' : PullState,
      PullDDFValue P
        (.mk name .TYPE_MESSAGE label
          (some (.mk size [.mk name2 .TYPE_STRING label2 md2 offset2])) offset)
        (.table [(name2, .string s)]) message st buffer_last = .ok st' ∧
      readCString st'.mem st.buffer (strlen s + 1) = some (cstr s) ∧
      st'.buffer = st.buffer + (strlen s + 1) ∧
      loadLE st'.mem (message + offset + offset2) P.ptrBytes = st.buffer - (message + offset) := by
  obtain ⟨st', h1, _, _, h4, h5, h6, _⟩ :=
    pullString_append P offset2 s (message + offset) st buffer_last hfit hslot hrange
  refine ⟨st', ?_, h4, h6, h5⟩
  have hv : rawget [(name2, LuaValue.string s)]
      (FieldDescriptor.mk name2 .TYPE_STRING label2 md2 offset2).m_Name = .string s := by
    simp [rawget, FieldDescriptor.m_Name]
  have hnn : ((LuaValue.string s).isNil && (FieldDescriptor.mk name2 .TYPE_STRING label2 md2
      offset2).m_Label != DDFLabel.LABEL_OPTIONAL) = false := by
    simp [LuaValue.isNil]
  simp only [PullDDFValue, LuaValue.isNil, Bool.false_eq_true, if_false, PullDDFTable]
  rw [PullDDFFields_cons, hv]
  simp only [hnn, Bool.false_eq_true, if_false]
  rw [PullDDFValue_string, h1]
  simp [PullDDFFields]

/-- C20, the code at a failing input.  The table `{id = 7, inner = {text = "hi"}}` is marshaled
into a payload at address 4096, the nested message `inner` lying at offset 8 and the cursor
starting at 4112.  The bytes of "hi" are appended at the cursor 4112, which advances to 4115;
the slot of `text` (at 4104) holds 8, the cursor less the address 4104 of the nested message,
so the base of the payload plus the stored offset is 4104, not the address 4112 of the
appended bytes (the offset from the base of the payload is 16). -/
theorem PullDDFTable_nested_offset_relative_to_submessage :
    (PullDDFTable x86_64 nestedDescriptor nestedTable 4096 ⟨fun _ => 0, 4112⟩ 4352).isOk
      = true ∧
    readCString (PullDDFTable x86_64 nestedDescriptor nestedTable 4096
      ⟨fun _ => 0, 4112⟩ 4352).state.mem 4112 3 = some [104, 105] ∧
    (PullDDFTable x86_64 nestedDescriptor nestedTable 4096
      ⟨fun _ => 0, 4112⟩ 4352).state.buffer = 4115 ∧
    loadLE (PullDDFTable x86_64 nestedDescriptor nestedTable 4096
      ⟨fun _ => 0, 4112⟩ 4352).state.mem 4104 8 = 8 ∧
    4096 + loadLE (PullDDFTable x86_64 nestedDescriptor nestedTable 4096
      ⟨fun _ => 0, 4112⟩ 4352).state.mem 4104 8 ≠ 4112 ∧
    loadLE (relocateStrings x86_64 nestedDescriptor 4096 (PullDDFTable x86_64 nestedDescriptor
      nestedTable 4096 ⟨fun _ => 0, 4112⟩ 4352).state.mem) 4104 8 = 8 := by
  refine ⟨?_, ?_, ?_, ?_, ?_, ?_⟩ <;> decide


/-! ## The stack around `on_input` -/

theorem ScriptOnInputComponent_height (I : Interp) (instance_ : Instance)
    (input_action : InputAction) (script_instance : ScriptInstance) (L : LuaState)
    (h : script_instance.m_Script.m_FunctionReferences .SCRIPT_FUNCTION_ONINPUT ≠ LUA_NOREF)
    (hs : 1 ≤ L.stack.length) :
    lua_gettop (ScriptOnInputComponent I instance_ input_action script_instance L).2
      = lua_gettop L
        + inputHeightChange (onInputCall I instance_ input_action script_instance L).1 := by
  unfold ScriptOnInputComponent
  simp only [h, ne_eq, not_false_eq_true, if_true]
  simp only [lua_pcall, lua_rawgeti, lua_push, setGlobal, List.take_succ_cons, List.take_zero,
    List.reverse_cons, List.reverse_nil, List.nil_append, List.cons_append,
    List.drop_succ_cons, List.drop_zero, List.headD_cons, onInputCall, lua_gettop,
    List.length_cons]
  rcases hc : I.call _ _ _ with ⟨o, env1⟩
  cases o with
  | error msg =>
    simp only [LUA_ERRRUN, inputHeightChange, lua_pop, List.drop_succ_cons, List.length_drop]
    norm_num
    omega
  | ok results =>
    simp only [ne_eq, not_true_eq_false, if_false, List.length_append, List.length_reverse]
    match results with
    | [] =>
      simp [inputHeightChange]
      split
      · rename_i hh
        omega
      · simp
    | [v] =>
      simp only [inputHeightChange, List.length_singleton, List.reverse_singleton,
        List.singleton_append, lua_top, List.headD_cons]
      have he : (((L.stack.length + 1 + 1 + 1 + 1 : Nat) : Int) - (L.base : Int)
          - ((3 : Nat) : Int)) = (((1 + L.stack.length : Nat) : Int) - (L.base : Int)) := by
        push_cast
        omega
      simp only [he, if_true]
      cases hb : v.isBoolean <;> cases ht : v.toBoolean <;> simp [lua_pop]
    | v1 :: v2 :: rest =>
      simp [inputHeightChange]
      split
      · rename_i hh
        omega
      · simp
        omega

/-- C23, the code at two failing inputs.  The slot `on_input` is present and the frame holds
one value on entry (height 1).  When `on_input` raises, `lua_pcall` leaves the one error
message and `lua_pop(L, 2)` takes it and the value of the caller under it: the height on return
is 0.  When `on_input` returns the two values 3 and 4, the test `input_ret == lua_gettop(L)`
fails and nothing is popped: the height on return is 3.  With no return value and with one
return value the height on return is 1, that on entry. -/
theorem ScriptOnInputComponent_stack_unbalanced :
    lua_gettop frameState = 1 ∧
    lua_gettop (ScriptOnInputComponent raisingInterp ⟨64, 0⟩ ⟨5, 1, true, false, false⟩
      ⟨fullScript, 128, 2, 3⟩ frameState).2 = 0 ∧
    lua_gettop (ScriptOnInputComponent (returningInterp [.number 3, .number 4]) ⟨64, 0⟩
      ⟨5, 1, true, false, false⟩ ⟨fullScript, 128, 2, 3⟩ frameState).2 = 3 ∧
    lua_gettop (ScriptOnInputComponent (returningInterp []) ⟨64, 0⟩
      ⟨5, 1, true, false, false⟩ ⟨fullScript, 128, 2, 3⟩ frameState).2 = 1 ∧
    lua_gettop (ScriptOnInputComponent (returningInterp [.boolean true]) ⟨64, 0⟩
      ⟨5, 1, true, false, false⟩ ⟨fullScript, 128, 2, 3⟩ frameState).2 = 1 := by
  decide


/-! ## The well-known globals after a load -/

theorem clearFunctionGlobals_globals (L : LuaState) (i : ScriptFunction) :
    (clearFunctionGlobals L).env.globals (SCRIPT_FUNCTION_NAMES i) = .nil := by
  cases i <;> simp [clearFunctionGlobals, scriptFunctions, setGlobal, SCRIPT_FUNCTION_NAMES]

theorem LoadScript_state (I : Interp) (buffer : List Byte) (filename : String)
    (script : Script) (L : LuaState) :
    ∃ L1, (LoadScript I buffer filename script L).2.2 = clearFunctionGlobals L1 := by
  unfold LoadScript
  cases I.load buffer filename with
  | error msg => exact ⟨_, rfl⟩
  | ok chunk =>
    simp only []
    split
    · exact ⟨_, rfl⟩
    · exact ⟨_, rfl⟩

theorem captureFunctions_absent (fns : List ScriptFunction) (script : Script) (L : LuaState)
    (i : ScriptFunction) (hn : (L.env.globals (SCRIPT_FUNCTION_NAMES i)).isNil = true)
    (hs : script.m_FunctionReferences i = LUA_NOREF) :
    (captureFunctions fns script L).2.1.m_FunctionReferences i = LUA_NOREF := by
  induction fns generalizing script L with
  | nil => simpa [captureFunctions] using hs
  | cons j rest ih =>
    rw [captureFunctions_cons]
    by_cases hji : i = j
    · subst hji
      simp only [hn, Bool.true_eq_false, if_false]
      exact ih _ _ hn (by simp [Script.set])
    · split
      · split
        · exact ih _ _ hn (by simp [Script.set, hji, hs])
        · exact hs
      · exact ih _ _ hn (by simp [Script.set, hji, hs])

theorem LoadScript_absent (I : Interp) (buffer : List Byte) (filename : String)
    (script : Script) (L : LuaState) (i : ScriptFunction)
    (hn : L.env.globals (SCRIPT_FUNCTION_NAMES i) = .nil)
    (hb : ∀ chunk, I.load buffer filename = .ok chunk →
      (I.call chunk [] L.env).2.globals (SCRIPT_FUNCTION_NAMES i)
        = L.env.globals (SCRIPT_FUNCTION_NAMES i)) :
    (LoadScript I buffer filename script L).2.1.m_FunctionReferences i = LUA_NOREF := by
  cases h : I.load buffer filename with
  | error msg =>
    unfold LoadScript
    rw [h]
    exact resetFunctions_apply script i
  | ok chunk =>
    have hb1 := hb chunk h
    rcases hc : I.call chunk [] L.env with ⟨o, env1⟩
    rw [hc, hn] at hb1
    cases o with
    | error msg =>
      unfold LoadScript
      rw [h]
      simp [lua_pcall, lua_push, hc, LUA_ERRRUN, resetFunctions_apply]
    | ok results =>
      rw [LoadScript_run_ok I buffer filename script L chunk results env1 h hc]
      exact captureFunctions_absent _ _ _ i (by simp only []; rw [hb1]; rfl)
        (resetFunctions_apply script i)

/-- C21.  After `LoadScript`, whatever its arguments and so on each of its exit paths, the
globals `init`, `update`, `on_message` and `on_input` are `nil`.  Hence a load that follows
does not see the functions of the one before: a slot whose global the later module does not
assign holds `LUA_NOREF` after the later load, whatever the earlier module defined. -/
theorem LoadScript_clears_globals (I : Interp) (buffer : List Byte) (filename : String)
    (script : Script) (L : LuaState) :
    (LoadScript I buffer filename script L).2.2.env.globals "init" = .nil ∧
    (LoadScript I buffer filename script L).2.2.env.globals "update" = .nil ∧
    (LoadScript I buffer filename script L).2.2.env.globals "on_message" = .nil ∧
    (LoadScript I buffer filename script L).2.2.env.globals "on_input" = .nil ∧
    (∀ (buffer2 : List Byte) (filename2 : String) (script2 : Script) (i : ScriptFunction),
      (∀ chunk, I.load buffer2 filename2 = .ok chunk →
        (I.call chunk [] (LoadScript I buffer filename script L).2.2.env).2.globals
            (SCRIPT_FUNCTION_NAMES i)
          = (LoadScript I buffer filename script L).2.2.env.globals
            (SCRIPT_FUNCTION_NAMES i)) →
      (LoadScript I buffer2 filename2 script2
        (LoadScript I buffer filename script L).2.2).2.1.m_FunctionReferences i
        = LUA_NOREF) := by
  obtain ⟨L1, hL1⟩ := LoadScript_state I buffer filename script L
  have hnil : ∀ i, (LoadScript I buffer filename script L).2.2.env.globals
      (SCRIPT_FUNCTION_NAMES i) = .nil := by
    intro i
    rw [hL1]
    exact clearFunctionGlobals_globals L1 i
  refine ⟨hnil .SCRIPT_FUNCTION_INIT, hnil .SCRIPT_FUNCTION_UPDATE,
    hnil .SCRIPT_FUNCTION_ONMESSAGE, hnil .SCRIPT_FUNCTION_ONINPUT, ?_⟩
  intro buffer2 filename2 script2 i hb
  exact LoadScript_absent I buffer2 filename2 script2 _ i (hnil i) hb

/-- Witness of C21: a module that defines `update` is loaded, then a module that defines
nothing; the slot `update` of the second holds `LUA_NOREF`. -/
theorem LoadScript_clears_globals_witness :
    (LoadScript twoModulesInterp [] "a.lua" fullScript emptyState).2.1.m_FunctionReferences
      .SCRIPT_FUNCTION_UPDATE = 1 ∧
    (LoadScript twoModulesInterp [1] "b.lua" fullScript
      (LoadScript twoModulesInterp [] "a.lua" fullScript emptyState).2.2).2.1.m_FunctionReferences
      .SCRIPT_FUNCTION_UPDATE = LUA_NOREF :=
  ⟨by decide,
   (LoadScript_clears_globals twoModulesInterp [] "a.lua" fullScript emptyState).2.2.2.2
    [1] "b.lua" fullScript .SCRIPT_FUNCTION_UPDATE (by
      intro chunk hc
      have h1 : chunk = .function 1 := by
        simp only [twoModulesInterp] at hc
        injection hc with hc
        exact hc.symm
      subst h1
      rfl)⟩


/-! ## The test of one corner -/

theorem mulPoint_uniformTransform (w : ℚ) (p : Vector3) :
    (uniformTransform w).mulPoint p = ⟨p.x, p.y, p.z, w⟩ := by
  simp [Matrix4.mulPoint, uniformTransform]

theorem absWithin_eq_true (v : Option ℚ) (margin : ℚ) :
    absWithin v margin = true ↔ ∃ q, v = some q ∧ |q| ≤ margin := by
  cases v with
  | none => simp [absWithin]
  | some q => simp [absWithin]

/-- What `IsPointVisible` compares: the test is passed exactly when `w` is not zero, the
rounded reciprocal `r_w` of `w` is finite and each of the three rounded products by `r_w` is
finite and within the margin in absolute value, the margin included. -/
theorem IsPointVisible_iff_rounded (F : FloatArith) (p : Vector3) (view_proj : Matrix4)
    (margin : ℚ) :
    IsPointVisible F p view_proj margin = true ↔
      (F.mulPoint view_proj p).w ≠ 0 ∧
      ∃ r_w, F.round (1 / (F.mulPoint view_proj p).w) = some r_w ∧
        (∃ q, F.round ((F.mulPoint view_proj p).x * r_w) = some q ∧ |q| ≤ margin) ∧
        (∃ q, F.round ((F.mulPoint view_proj p).y * r_w) = some q ∧ |q| ≤ margin) ∧
        (∃ q, F.round ((F.mulPoint view_proj p).z * r_w) = some q ∧ |q| ≤ margin) := by
  unfold IsPointVisible
  by_cases hw : (F.mulPoint view_proj p).w = 0
  · simp [hw]
  · simp only [hw, if_false, ne_eq, not_false_eq_true, true_and]
    cases hr : F.round (1 / (F.mulPoint view_proj p).w) with
    | none => simp
    | some r_w =>
      simp only [Bool.and_eq_true, absWithin_eq_true, Option.some.injEq, exists_eq_left',
        and_assoc]

/-- C22, the code at three inputs, in the arithmetic of binary32.  First input: projected
coordinates `(12.25, 0, 0)` with `w = 7`, margin `1.75`.  The quotient `x/w` is `1.75`, the
margin itself, yet the point is not visible: `1.0f / 7.0f` is rounded up to `9586981 / 2^26`,
and the product by `12.25` is rounded to `14680065 / 2^23`, one spacing above `1.75`.  Second
input: projected coordinates `(41 + 2^(-18), 0, 0)` with `w = 41`, margin `1`.  The quotient
`x/w` is above 1, yet the point is visible: `1.0f / 41.0f` is rounded down to
`13094412 / 2^29`, and the product is rounded to `1`.  Third input: projected coordinates
`(0, 0, 0)` with `w = 2^(-130)`, margin `1`.  The three quotients are 0, yet the point is not
visible: `1.0f / w` overflows to an infinity. -/
theorem IsPointVisible_boundary_rounded :
    ((uniformTransform 7).mulPoint ⟨49 / 4, 0, 0⟩).w = 7 ∧
    ((uniformTransform 7).mulPoint ⟨49 / 4, 0, 0⟩).x / ((uniformTransform 7).mulPoint
      ⟨49 / 4, 0, 0⟩).w = 7 / 4 ∧
    ((uniformTransform 7).mulPoint ⟨49 / 4, 0, 0⟩).y = 0 ∧
    ((uniformTransform 7).mulPoint ⟨49 / 4, 0, 0⟩).z = 0 ∧
    binary32.round (1 / 7) = some (9586981 / 2 ^ 26) ∧
    binary32.round (49 / 4 * (9586981 / 2 ^ 26)) = some (14680065 / 2 ^ 23) ∧
    IsPointVisible binary32 ⟨49 / 4, 0, 0⟩ (uniformTransform 7) (7 / 4) = false ∧
    ((uniformTransform 41).mulPoint ⟨41 + 1 / 2 ^ 18, 0, 0⟩).w = 41 ∧
    1 < |((uniformTransform 41).mulPoint ⟨41 + 1 / 2 ^ 18, 0, 0⟩).x
      / ((uniformTransform 41).mulPoint ⟨41 + 1 / 2 ^ 18, 0, 0⟩).w| ∧
    binary32.round (1 / 41) = some (13094412 / 2 ^ 29) ∧
    binary32.round ((41 + 1 / 2 ^ 18) * (13094412 / 2 ^ 29)) = some 1 ∧
    IsPointVisible binary32 ⟨41 + 1 / 2 ^ 18, 0, 0⟩ (uniformTransform 41) 1 = true ∧
    ((uniformTransform (1 / 2 ^ 130)).mulPoint ⟨0, 0, 0⟩).w ≠ 0 ∧
    ((uniformTransform (1 / 2 ^ 130)).mulPoint ⟨0, 0, 0⟩).x = 0 ∧
    ((uniformTransform (1 / 2 ^ 130)).mulPoint ⟨0, 0, 0⟩).y = 0 ∧
    ((uniformTransform (1 / 2 ^ 130)).mulPoint ⟨0, 0, 0⟩).z = 0 ∧
    binary32.round (1 / (1 / 2 ^ 130)) = none ∧
    IsPointVisible binary32 ⟨0, 0, 0⟩ (uniformTransform (1 / 2 ^ 130)) 1 = false := by
  have h7 : binary32Round (1 / 7) = some (9586981 / 2 ^ 26) := by
    rw [binary32Round_eq (1 / 7) (-3) 9586981 (by norm_num) (by norm_num [abs_of_pos])
      (by norm_num [abs_of_pos]) (by norm_num [abs_lt]) (by norm_num [abs_of_pos])]
    norm_num
  have h7x : binary32Round (49 / 4 * (9586981 / 2 ^ 26)) = some (14680065 / 2 ^ 23) := by
    rw [binary32Round_eq (49 / 4 * (9586981 / 2 ^ 26)) 0 14680065 (by norm_num)
      (by norm_num [abs_of_pos]) (by norm_num [abs_of_pos]) (by norm_num [abs_lt])
      (by norm_num [abs_of_pos])]
    norm_num
  have h41 : binary32Round (1 / 41) = some (13094412 / 2 ^ 29) := by
    rw [binary32Round_eq (1 / 41) (-6) 13094412 (by norm_num) (by norm_num [abs_of_pos])
      (by norm_num [abs_of_pos]) (by norm_num [abs_lt]) (by norm_num [abs_of_pos])]
    norm_num
  have h41x : binary32Round ((41 + 1 / 2 ^ 18) * (13094412 / 2 ^ 29)) = some 1 := by
    rw [binary32Round_eq ((41 + 1 / 2 ^ 18) * (13094412 / 2 ^ 29)) 0 8388608 (by norm_num)
      (by norm_num [abs_of_pos]) (by norm_num [abs_of_pos]) (by norm_num [abs_lt])
      (by norm_num [abs_of_pos])]
    norm_num
  have hinf : binary32Round (1 / (1 / 2 ^ 130)) = none :=
    binary32Round_overflow (1 / (1 / 2 ^ 130)) 130 8388608 (by norm_num)
      (by norm_num [abs_of_pos]) (by norm_num [abs_of_pos]) (by norm_num [abs_lt])
      (by norm_num [abs_of_pos])
  refine ⟨by simp [mulPoint_uniformTransform], by norm_num [mulPoint_uniformTransform],
    by simp [mulPoint_uniformTransform], by simp [mulPoint_uniformTransform], h7, h7x, ?_,
    by simp [mulPoint_uniformTransform], by norm_num [mulPoint_uniformTransform, abs_of_pos],
    h41, h41x, ?_, by norm_num [mulPoint_uniformTransform],
    by simp [mulPoint_uniformTransform], by simp [mulPoint_uniformTransform],
    by simp [mulPoint_uniformTransform], hinf, ?_⟩
  · cases hv : IsPointVisible binary32 ⟨49 / 4, 0, 0⟩ (uniformTransform 7) (7 / 4) with
    | false => rfl
    | true =>
      rw [IsPointVisible_iff_rounded] at hv
      obtain ⟨_, r_w, hr, ⟨q, hq, hle⟩, _⟩ := hv
      simp only [mulPoint_uniformTransform, binary32, h7, Option.some.injEq] at hr
      subst hr
      simp only [mulPoint_uniformTransform, binary32, h7x, Option.some.injEq] at hq
      subst hq
      norm_num [abs_of_pos] at hle
  · rw [IsPointVisible_iff_rounded]
    simp only [mulPoint_uniformTransform, binary32, h41, Option.some.injEq, exists_eq_left',
      h41x, zero_mul, binary32Round_zero]
    norm_num
  · cases hv : IsPointVisible binary32 ⟨0, 0, 0⟩ (uniformTransform (1 / 2 ^ 130)) 1 with
    | false => rfl
    | true =>
      rw [IsPointVisible_iff_rounded] at hv
      obtain ⟨_, r_w, hr, _⟩ := hv
      simp only [mulPoint_uniformTransform, binary32, hinf] at hr
      exact absurd hr (by simp)

/-- C22, amended.  `IsPointVisible` is true exactly when the projected `w` is not zero, the
rounded reciprocal `r_w = 1.0f / w` is finite and each of the three rounded products of a
coordinate by `r_w` is finite and at most `margin` in absolute value (the comparison is
inclusive).  At a point whose `w` is not zero and at which the three rounded products are the
quotients `x/w`, `y/w`, `z/w` themselves, this is: the three quotients are at most `margin` in
absolute value; there, with `margin` not negative, a point each of whose quotients is `margin`,
`-margin` or within the margin is visible, and a point one of whose quotients is beyond the
margin is not. -/
theorem IsPointVisible_inclusive (F : FloatArith) (p : Vector3) (view_proj : Matrix4)
    (margin : ℚ) :
    (IsPointVisible F p view_proj margin = true ↔
      (F.mulPoint view_proj p).w ≠ 0 ∧
      ∃ r_w, F.round (1 / (F.mulPoint view_proj p).w) = some r_w ∧
        (∃ q, F.round ((F.mulPoint view_proj p).x * r_w) = some q ∧ |q| ≤ margin) ∧
        (∃ q, F.round ((F.mulPoint view_proj p).y * r_w) = some q ∧ |q| ≤ margin) ∧
        (∃ q, F.round ((F.mulPoint view_proj p).z * r_w) = some q ∧ |q| ≤ margin)) ∧
    (∀ r_w, (F.mulPoint view_proj p).w ≠ 0 →
      F.round (1 / (F.mulPoint view_proj p).w) = some r_w →
      F.round ((F.mulPoint view_proj p).x * r_w)
        = some ((F.mulPoint view_proj p).x / (F.mulPoint view_proj p).w) →
      F.round ((F.mulPoint view_proj p).y * r_w)
        = some ((F.mulPoint view_proj p).y / (F.mulPoint view_proj p).w) →
      F.round ((F.mulPoint view_proj p).z * r_w)
        = some ((F.mulPoint view_proj p).z / (F.mulPoint view_proj p).w) →
      (IsPointVisible F p view_proj margin = true ↔
        |(F.mulPoint view_proj p).x / (F.mulPoint view_proj p).w| ≤ margin ∧
        |(F.mulPoint view_proj p).y / (F.mulPoint view_proj p).w| ≤ margin ∧
        |(F.mulPoint view_proj p).z / (F.mulPoint view_proj p).w| ≤ margin) ∧
      (0 ≤ margin →
        ((F.mulPoint view_proj p).x / (F.mulPoint view_proj p).w = margin ∨
          (F.mulPoint view_proj p).x / (F.mulPoint view_proj p).w = -margin ∨
          |(F.mulPoint view_proj p).x / (F.mulPoint view_proj p).w| ≤ margin) →
        ((F.mulPoint view_proj p).y / (F.mulPoint view_proj p).w = margin ∨
          (F.mulPoint view_proj p).y / (F.mulPoint view_proj p).w = -margin ∨
          |(F.mulPoint view_proj p).y / (F.mulPoint view_proj p).w| ≤ margin) →
        ((F.mulPoint view_proj p).z / (F.mulPoint view_proj p).w = margin ∨
          (F.mulPoint view_proj p).z / (F.mulPoint view_proj p).w = -margin ∨
          |(F.mulPoint view_proj p).z / (F.mulPoint view_proj p).w| ≤ margin) →
        IsPointVisible F p view_proj margin = true) ∧
      (margin < |(F.mulPoint view_proj p).x / (F.mulPoint view_proj p).w| ∨
        margin < |(F.mulPoint view_proj p).y / (F.mulPoint view_proj p).w| ∨
        margin < |(F.mulPoint view_proj p).z / (F.mulPoint view_proj p).w| →
        IsPointVisible F p view_proj margin = false)) := by
  refine ⟨IsPointVisible_iff_rounded F p view_proj margin, ?_⟩
  intro r_w hw hr hx hy hz
  have hiff : IsPointVisible F p view_proj margin = true ↔
      |(F.mulPoint view_proj p).x / (F.mulPoint view_proj p).w| ≤ margin ∧
      |(F.mulPoint view_proj p).y / (F.mulPoint view_proj p).w| ≤ margin ∧
      |(F.mulPoint view_proj p).z / (F.mulPoint view_proj p).w| ≤ margin := by
    rw [IsPointVisible_iff_rounded]
    simp only [hw, ne_eq, not_false_eq_true, true_and, hr, Option.some.injEq, exists_eq_left',
      hx, hy, hz]
  have hb : ∀ q : ℚ, 0 ≤ margin → (q = margin ∨ q = -margin ∨ |q| ≤ margin) → |q| ≤ margin := by
    intro q hm h
    rcases h with h | h | h
    · rw [h, abs_of_nonneg hm]
    · rw [h, abs_neg, abs_of_nonneg hm]
    · exact h
  refine ⟨hiff, ?_, ?_⟩
  · intro hm hxm hym hzm
    rw [hiff]
    exact ⟨hb _ hm hxm, hb _ hm hym, hb _ hm hzm⟩
  · intro hbeyond
    cases hv : IsPointVisible F p view_proj margin with
    | false => rfl
    | true =>
      rw [hiff] at hv
      rcases hbeyond with h | h | h
      · exact absurd hv.1 (not_le.mpr h)
      · exact absurd hv.2.1 (not_le.mpr h)
      · exact absurd hv.2.2 (not_le.mpr h)

/-- Witness of C22: in the arithmetic of binary32, with `w = 3`, the point of projected
coordinates `(3, -3, 0)` has the quotients `1`, `-1` and `0`; the reciprocal of 3 is rounded
(to `11184811 / 2^25`), the products by it are rounded to the quotients; with the margin 1 the
point is visible. -/
theorem IsPointVisible_inclusive_witness :
    ((uniformTransform 3).mulPoint ⟨3, -3, 0⟩).x / ((uniformTransform 3).mulPoint ⟨3, -3, 0⟩).w
      = 1 ∧
    ((uniformTransform 3).mulPoint ⟨3, -3, 0⟩).y / ((uniformTransform 3).mulPoint ⟨3, -3, 0⟩).w
      = -1 ∧
    binary32.round (1 / 3) = some (11184811 / 2 ^ 25) ∧
    IsPointVisible binary32 ⟨3, -3, 0⟩ (uniformTransform 3) 1 = true :=
  have h3 : binary32Round (1 / 3) = some (11184811 / 2 ^ 25) := by
    rw [binary32Round_eq (1 / 3) (-2) 11184811 (by norm_num) (by norm_num [abs_of_pos])
      (by norm_num [abs_of_pos]) (by norm_num [abs_lt]) (by norm_num [abs_of_pos])]
    norm_num
  have h3x : binary32Round (3 * (11184811 / 2 ^ 25)) = some 1 := by
    rw [binary32Round_eq (3 * (11184811 / 2 ^ 25)) 0 8388608 (by norm_num)
      (by norm_num [abs_of_pos]) (by norm_num [abs_of_pos]) (by norm_num [abs_lt])
      (by norm_num [abs_of_pos])]
    norm_num
  have h3y : binary32Round (-3 * (11184811 / 2 ^ 25)) = some (-1) := by
    rw [binary32Round_eq (-3 * (11184811 / 2 ^ 25)) 0 (-8388608) (by norm_num)
      (by norm_num [abs_of_pos]) (by norm_num [abs_of_pos]) (by norm_num [abs_lt])
      (by norm_num [abs_of_pos])]
    norm_num
  ⟨by norm_num [mulPoint_uniformTransform], by norm_num [mulPoint_uniformTransform], h3,
   ((IsPointVisible_inclusive binary32 ⟨3, -3, 0⟩ (uniformTransform 3) 1).2
      (11184811 / 2 ^ 25)
      (by norm_num [mulPoint_uniformTransform, binary32])
      (by simp only [mulPoint_uniformTransform, binary32]; exact h3)
      (by simp only [mulPoint_uniformTransform, binary32]; rw [h3x]; norm_num)
      (by simp only [mulPoint_uniformTransform, binary32]; rw [h3y]; norm_num)
      (by simp only [mulPoint_uniformTransform, binary32, zero_mul, binary32Round_zero];
          norm_num)).2.1
      (by norm_num)
      (Or.inl (by norm_num [mulPoint_uniformTransform, binary32]))
      (Or.inr (Or.inl (by norm_num [mulPoint_uniformTransform, binary32])))
      (Or.inr (Or.inr (by norm_num [mulPoint_uniformTransform, binary32])))⟩

end dmGameObject
